import Mathlib

/-! Clinic management backend: routes and middleware.

A shallow embedding of the route handlers of `backend/src/routes/billing.js`,
`backend/src/routes/prescriptions.js`, `backend/src/routes/patients.js` and
`backend/src/routes/auth.js`, of the authorization middleware and the role guard of
`backend/src/middleware/auth.js`, and of the catch-all error handler of
`backend/src/middleware/errorHandler.js`.

Modelling conventions.

* JavaScript values are the JSON values a request body can carry, plus `Date`s
  (`date t` is the date whose time value is `t` milliseconds from the epoch).
  A missing property (`undefined`) is `none : Option JsVal`.
* A JavaScript number is an IEEE 754 binary64 value, modelled by the rational it
  denotes; the infinities and `NaN` are not values of the model. `x.toFixed(2)` writes
  the multiple of `1/100` nearest to `x`, ties away from zero (`toFixed2`). The
  handlers that compute with numbers take the arithmetic as an argument (`Arith`): in
  `Arith.binary64` every sum, difference and quotient and every `parseFloat` is rounded
  to the nearest binary64 number, in `Arith.exact` nothing is rounded. The handlers
  named without `With` are those of exact decimal arithmetic; what is stated about the
  value of a number the code computes is stated about the `With` handlers.
* The document store (Firestore) is a list of `(id, document)` pairs per
  collection; `update` merges the top-level fields of a patch into a document,
  `set` creates or replaces a document, `add` creates a document under an id chosen
  by the store and refuses an id that is already taken, and a field whose value is
  `undefined` is refused.
  A query is an equality filter on a field followed by `orderBy`, which keeps the
  documents that have the ordering field.
* `ToNumber` of a string, array or object operand is left to the runtime: it is the
  field `coerce` of the environment a handler runs in. The clock, the random draw,
  `toLowerCase`, date parsing and the identity provider are parameters as well.
* A handler is a function from the pre-state to the post-state and the response;
  a JavaScript exception inside the `try` block is the `catch` branch: status
  500, with the store as it was when the exception was raised.
-/

namespace Clinic

/-! ## Values -/

/-- JavaScript values occurring in request bodies and in stored documents. -/
inductive JsVal where
  | null : JsVal
  | bool (b : Bool) : JsVal
  | num (x : ℚ) : JsVal
  | str (s : String) : JsVal
  | date (t : Int) : JsVal
  | arr (xs : List JsVal) : JsVal
  | obj (fields : List (String × JsVal)) : JsVal

/-- Lookup in a keyed list: the first entry under the key. -/
def assocGet {β : Type} (k : String) : List (String × β) → Option β
  | [] => none
  | (k', v) :: rest => if k' = k then some v else assocGet k rest

/-- Write into a keyed list: overwrites the entry in place, or appends a new one. -/
def assocSet {β : Type} (k : String) (v : β) : List (String × β) → List (String × β)
  | [] => [(k, v)]
  | (k', v') :: rest => if k' = k then (k', v) :: rest else (k', v') :: assocSet k v rest

/-- Removal from a keyed list: every entry under the key goes. -/
def assocErase {β : Type} (k : String) : List (String × β) → List (String × β)
  | [] => []
  | (k', v) :: rest => if k' = k then assocErase k rest else (k', v) :: assocErase k rest

/-- A plain JavaScript object / a stored document: its own properties in order. -/
abbrev Fields := List (String × JsVal)

/-- Own-property read `o[k]` on an object; `none` is `undefined`. -/
def getField (k : String) (o : Fields) : Option JsVal := assocGet k o

/-- Property assignment `o[k] = v`. -/
def setField (k : String) (v : JsVal) (o : Fields) : Fields := assocSet k v o

/-- The statement `delete o[k]`. -/
def deleteField (k : String) (o : Fields) : Fields := assocErase k o

/-- Object spread `{...a, ...b}`, also the merge done by the store on `update`: every
key of `b` is assigned onto `a`. A key listed twice in `b` keeps the value that
`getField` reads, the first one. -/
def mergeFields (a : Fields) : Fields → Fields
  | [] => a
  | (k, v) :: rest => setField k v (mergeFields a rest)

/-- JavaScript `ToBoolean`; `undefined`, `null`, `false`, `0` and `''` are falsy. -/
def truthy : Option JsVal → Bool
  | none => false
  | some .null => false
  | some (.bool b) => b
  | some (.num x) => decide (x ≠ 0)
  | some (.str s) => decide (s ≠ "")
  | some (.date _) => true
  | some (.arr _) => true
  | some (.obj _) => true

/-- The characters removed by `String.prototype.trim` (WhiteSpace and LineTerminator). -/
def isJsSpace (c : Char) : Bool :=
  let n := c.toNat
  n = 0x09 || n = 0x0A || n = 0x0B || n = 0x0C || n = 0x0D || n = 0x20 || n = 0xA0 ||
  n = 0x1680 || (0x2000 ≤ n && n ≤ 0x200A) || n = 0x2028 || n = 0x2029 || n = 0x202F ||
  n = 0x205F || n = 0x3000 || n = 0xFEFF

/-- Model of `String.prototype.trim`. -/
def jsTrim (s : String) : String :=
  String.mk ((s.data.dropWhile isJsSpace).reverse.dropWhile isJsSpace).reverse

/-- The decimal that `x.toFixed(2)` writes: the multiple of `1/100` nearest to `x`, a tie
going away from zero. In exact decimal arithmetic it is also `parseFloat(x.toFixed(2))`;
in binary64 the `parseFloat` rounds it once more (`Arith.round`). -/
def toFixed2 (x : ℚ) : ℚ :=
  if 0 ≤ x then (⌊x * 100 + 1 / 2⌋ : ℚ) / 100 else -((⌊-x * 100 + 1 / 2⌋ : ℚ) / 100)

/-- The operator `a || b`. -/
def jsOr (a b : Option JsVal) : Option JsVal := if truthy a then a else b

/-- The test `Array.isArray(v)`. -/
def isArray : Option JsVal → Bool
  | some (.arr _) => true
  | _ => false

/-- The elements of an array value (empty for anything else). -/
def elems : Option JsVal → List JsVal
  | some (.arr xs) => xs
  | _ => []

/-- The test `v === s` against a string literal. -/
def isStr (s : String) : Option JsVal → Bool
  | some (.str s') => decide (s' = s)
  | _ => false

/-- The expression `v?.toDate?.() || v` used when a document is echoed in a response.
A stored `Date` comes back as a timestamp whose `toDate()` is that date; an object
with a non-nullish, non-callable `toDate` property raises a `TypeError` (`none`). -/
def toDateOr : Option JsVal → Option (Option JsVal)
  | some (.obj fs) =>
    match getField "toDate" fs with
    | none => some (some (.obj fs))
    | some .null => some (some (.obj fs))
    | some _ => none
  | v => some v

/-! ## Document store -/

/-- One collection of the document store: documents by id. -/
abbrev Collection := List (String × Fields)

/-- The collections used by the backend. -/
structure Store where
  users : Collection
  patients : Collection
  prescriptions : Collection
  bills : Collection

/-- The snapshot of `collection.doc(id).get()`; `none` when `exists` is false. -/
def getDoc (id : String) (c : Collection) : Option Fields := assocGet id c

/-- The call `ref.update(patch)` on a document that exists: top-level fields are merged. -/
def updateDoc (id : String) (patch : Fields) (c : Collection) : Collection :=
  match assocGet id c with
  | some d => assocSet id (mergeFields d patch) c
  | none => c

/-- The call `ref.delete()`. -/
def deleteDoc (id : String) (c : Collection) : Collection := assocErase id c

/-! ## Requests and responses -/

/-- The user attached to the request by the authorization middleware. -/
structure Principal where
  uid : String
  email : String
  name : String
  role : String

/-- Result of JavaScript `ToNumber`. -/
inductive Coerced where
  | number (x : ℚ) : Coerced
  | nan : Coerced
  | raises : Coerced

/-- What a request handler reads from its surroundings: `t0` and `t1` are the values
of the first and the second `new Date()` evaluated by the handler, `newId` is the id the
store generates for `add`, and `coerce` is the runtime's `ToNumber` on strings, arrays,
objects and dates. -/
structure Env where
  t0 : Int
  t1 : Int
  newId : String
  coerce : JsVal → Coerced

/-- An HTTP response: status code and JSON body. -/
structure Response where
  status : Nat
  body : Fields

/-- A response `res.status(code).json({ success: false, message })`. -/
def failure (code : Nat) (message : String) : Response :=
  { status := code, body := [("success", .bool false), ("message", .str message)] }

/-! ## Role guard (`middleware/auth.js`) -/

/-- Model of `requireRole(requiredRole)`: `some r` is the response sent by the gate,
`none` is the call to `next()`. -/
def requireRole (requiredRole : String) (user : Option Principal) : Option Response :=
  match user with
  | none =>
    some { status := 401, body := [("error", .str "Unauthorized"),
                                    ("message", .str "Authentication required")] }
  | some u =>
    if u.role ≠ requiredRole then
      some { status := 403, body := [("error", .str "Forbidden"),
        ("message", .str ("Access denied. Required role: " ++ requiredRole))] }
    else none

/-- A route `router.verb(path, requireRole(role), handler)`: the handler runs only
when the gate calls `next()`. -/
def guarded (role : String) (user : Option Principal)
    (handler : Store → Store × Response) (s : Store) : Store × Response :=
  match requireRole role user with
  | some r => (s, r)
  | none => handler s

/-! ## Bill items (`routes/billing.js`) -/

/-- Outcome of a validation loop: every item passed, one was rejected (status 400),
or reading an item raised a `TypeError` (status 500 through `catch`). -/
inductive Check where
  | pass : Check
  | reject : Check
  | raise : Check

/-- The test `!item.description || typeof item.amount !== 'number' || item.amount <= 0`;
`none` when `item` is `null`, whose property read raises. A value that is not an
object has neither property. -/
def itemInvalid : JsVal → Option Bool
  | .null => none
  | .obj fs =>
    some (!truthy (getField "description" fs) ||
      match getField "amount" fs with
      | some (.num a) => decide (a ≤ 0)
      | _ => true)
  | _ => some true

/-- The loop `for (const item of items) { if (...) return res.status(400)... }`. -/
def validateItems : List JsVal → Check
  | [] => .pass
  | item :: rest =>
    match itemInvalid item with
    | none => .raise
    | some true => .reject
    | some false => validateItems rest

/-- The number `item.amount` of an item that passed validation (0 where there is none). -/
def itemAmount : JsVal → ℚ
  | .obj fs =>
    match getField "amount" fs with
    | some (.num a) => a
    | _ => 0
  | _ => 0

/-- The fold `items.reduce((sum, item) => sum + item.amount, 0)` in exact decimal
arithmetic (`sumAmountsWith Arith.exact`). -/
def sumAmounts (items : List JsVal) : ℚ :=
  items.foldl (fun sum item => sum + itemAmount item) 0

/-- The callback `item => ({ description: item.description.trim(),
amount: parseFloat(item.amount.toFixed(2)) })` in exact decimal arithmetic
(`normalizeItemWith Arith.exact`); `none` is the `TypeError` raised when `description`
is not a string (it has no `trim` method). -/
def normalizeItem : JsVal → Option JsVal
  | .obj fs =>
    match getField "description" fs, getField "amount" fs with
    | some (.str d), some (.num a) =>
      some (.obj [("description", .str (jsTrim d)), ("amount", .num (toFixed2 a))])
    | _, _ => none
  | _ => none

/-- The call `items.map(...)` with the callback `normalizeItem`. -/
def normalizeItems : List JsVal → Option (List JsVal)
  | [] => some []
  | item :: rest =>
    match normalizeItem item, normalizeItems rest with
    | some i, some is => some (i :: is)
    | _, _ => none

/-- JavaScript `ToNumber` of the operand of `totalAmount - calculatedTotal`. -/
def toNumber (env : Env) : JsVal → Coerced
  | .num x => .number x
  | .bool b => .number (if b then 1 else 0)
  | .null => .number 0
  | v => env.coerce v

/-- The test `totalAmount && Math.abs(totalAmount - calculatedTotal) > 0.01` in exact
decimal arithmetic (`totalMismatchWith Arith.exact`); `none` when the coercion of
`totalAmount` raises. -/
def totalMismatch (env : Env) (totalAmount : Option JsVal) (calculatedTotal : ℚ) :
    Option Bool :=
  match totalAmount with
  | none => some false
  | some v =>
    if truthy (some v) then
      match toNumber env v with
      | .number x => some (decide (|x - calculatedTotal| > 1 / 100))
      | .nan => some false
      | .raises => none
    else some false

/-- The remaining keys of an echoed document: each `key` of the list is set to
`doc.data()[key]?.toDate?.() || doc.data()[key]`, left to right; `none` when a
conversion raises. A key whose value is `undefined` is not serialised. -/
def echoFields (doc : Fields) : Fields → List String → Option Fields
  | acc, [] => some acc
  | acc, key :: keys =>
    match toDateOr (getField key doc) with
    | none => none
    | some (some v) => echoFields doc (setField key v acc) keys
    | some none => echoFields doc (deleteField key acc) keys

/-- The body of a response echoing a stored document: `{ id: doc.id, ...doc.data(),
key: <converted>, ... }`. -/
def echoDoc (id : String) (doc : Fields) (keys : List String) : Option Fields :=
  echoFields doc (mergeFields [("id", .str id)] doc) keys

/-! ## Bill handlers (`routes/billing.js`) -/

/-- The object `billData` persisted by `POST /bills`, in exact decimal arithmetic
(`billDataWith Arith.exact`). -/
def billData (env : Env) (u : Principal) (pid : String) (name : JsVal) (stored : List JsVal)
    (calculatedTotal : ℚ) : Fields :=
  [("patientId", .str pid),
   ("patientName", name),
   ("items", .arr stored),
   ("totalAmount", .num (toFixed2 calculatedTotal)),
   ("status", .str "pending"),
   ("createdBy", .str u.uid),
   ("createdByName", .str u.name),
   ("createdAt", .date env.t0),
   ("updatedAt", .date env.t1)]

/-- The object `updateData` written by `PUT /bills/:id/status`; `paidAt` is added by
`if (status === 'paid' && billDoc.data().status !== 'paid')`. -/
def statusUpdateData (env : Env) (u : Principal) (st : String) (billDoc : Fields) : Fields :=
  let updateData : Fields :=
    [("status", .str st),
     ("updatedAt", .date env.t0),
     ("updatedBy", .str u.uid),
     ("updatedByName", .str u.name)]
  if decide (st = "paid") && !isStr "paid" (getField "status" billDoc) then
    setField "paidAt" (.date env.t1) updateData
  else updateData

/-- The patch of `PUT /bills/:id` after `delete updates.id`, `delete updates.patientId`,
`delete updates.createdAt`, `delete updates.createdBy`, `delete updates.createdByName`. -/
def stripProtected (body : Fields) : Fields :=
  deleteField "createdByName" (deleteField "createdBy" (deleteField "createdAt"
    (deleteField "patientId" (deleteField "id" body))))

/-- The stamps `updates.updatedAt = new Date()`, `updates.updatedBy = req.user.uid`,
`updates.updatedByName = req.user.name`. -/
def stampUpdate (env : Env) (u : Principal) (updates : Fields) : Fields :=
  setField "updatedByName" (.str u.name)
    (setField "updatedBy" (.str u.uid) (setField "updatedAt" (.date env.t0) updates))

/-- Handler of `POST /bills` (the `try` block and its `catch`) in exact decimal
arithmetic (`createBillHandlerWith Arith.exact`). -/
def createBillHandler (env : Env) (user : Option Principal) (body : Fields) (s : Store) :
    Store × Response :=
  let patientId := getField "patientId" body
  let patientName := getField "patientName" body
  let items := getField "items" body
  let totalAmount := getField "totalAmount" body
  if !truthy patientId || !truthy items || !isArray items || (elems items).length == 0 then
    (s, failure 400 "Patient ID and items are required")
  else
    match patientId with
    | some (.str pid) =>
      match getDoc pid s.patients with
      | none => (s, failure 404 "Patient not found")
      | some patientDoc =>
        match validateItems (elems items) with
        | .raise => (s, failure 500 "Failed to create bill")
        | .reject => (s, failure 400 "Each item must have a description and positive amount")
        | .pass =>
          let calculatedTotal := sumAmounts (elems items)
          match totalMismatch env totalAmount calculatedTotal with
          | none => (s, failure 500 "Failed to create bill")
          | some true => (s, failure 400 "Total amount does not match sum of items")
          | some false =>
            match jsOr patientName (getField "name" patientDoc),
                  normalizeItems (elems items), user with
            | some name, some stored, some u =>
              let billData := billData env u pid name stored calculatedTotal
              match getDoc env.newId s.bills with
              | some _ => (s, failure 500 "Failed to create bill")
              | none =>
                ({ s with bills := s.bills ++ [(env.newId, billData)] },
                 { status := 201,
                   body := [("success", .bool true),
                            ("message", .str "Bill created successfully"),
                            ("data", .obj (mergeFields [("id", .str env.newId)] billData))] })
            | _, _, _ => (s, failure 500 "Failed to create bill")
    | _ => (s, failure 500 "Failed to create bill")

/-- Handler of `PUT /bills/:id/status`. -/
def updateStatusHandler (env : Env) (user : Option Principal) (id : String) (body : Fields)
    (s : Store) : Store × Response :=
  let status := getField "status" body
  if !truthy status || !(isStr "pending" status || isStr "paid" status) then
    (s, failure 400 "Status must be either \"pending\" or \"paid\"")
  else
    match getDoc id s.bills, status, user with
    | none, _, _ => (s, failure 404 "Bill not found")
    | some billDoc, some (.str st), some u =>
      let updateData := statusUpdateData env u st billDoc
      let s' := { s with bills := updateDoc id updateData s.bills }
      match getDoc id s'.bills with
      | none => (s', failure 500 "Failed to update bill status")
      | some updatedDoc =>
        match echoDoc id updatedDoc ["createdAt", "updatedAt", "paidAt"] with
        | none => (s', failure 500 "Failed to update bill status")
        | some updatedData =>
          (s', { status := 200,
                 body := [("success", .bool true),
                          ("message", .str ("Bill marked as " ++ st ++ " successfully")),
                          ("data", .obj updatedData)] })
    | some _, _, _ => (s, failure 500 "Failed to update bill status")

/-- The tail of the handler of `PUT /bills/:id`: stamps the patch, writes it and
echoes the document. -/
def finishUpdate (env : Env) (user : Option Principal) (id : String) (updates : Fields)
    (s : Store) : Store × Response :=
  match user with
  | none => (s, failure 500 "Failed to update bill")
  | some u =>
    let updates := stampUpdate env u updates
    let s' := { s with bills := updateDoc id updates s.bills }
    match getDoc id s'.bills with
    | none => (s', failure 500 "Failed to update bill")
    | some updatedDoc =>
      match echoDoc id updatedDoc ["createdAt", "updatedAt"] with
      | none => (s', failure 500 "Failed to update bill")
      | some updatedData =>
        (s', { status := 200,
               body := [("success", .bool true),
                        ("message", .str "Bill updated successfully"),
                        ("data", .obj updatedData)] })

/-- Handler of `PUT /bills/:id` in exact decimal arithmetic
(`updateBillHandlerWith Arith.exact`). -/
def updateBillHandler (env : Env) (user : Option Principal) (id : String) (body : Fields)
    (s : Store) : Store × Response :=
  match getDoc id s.bills with
  | none => (s, failure 404 "Bill not found")
  | some billDoc =>
    if isStr "paid" (getField "status" billDoc) then
      (s, failure 400 "Cannot update paid bills")
    else
      let updates := stripProtected body
      let items := getField "items" updates
      if truthy items then
        if !isArray items || (elems items).length == 0 then
          (s, failure 400 "Items must be a non-empty array")
        else
          match validateItems (elems items) with
          | .raise => (s, failure 500 "Failed to update bill")
          | .reject =>
            (s, failure 400 "Each item must have a description and positive amount")
          | .pass =>
            match normalizeItems (elems items) with
            | none => (s, failure 500 "Failed to update bill")
            | some stored =>
              let updates := setField "items" (.arr stored) updates
              let updates := setField "totalAmount" (.num (toFixed2 (sumAmounts stored))) updates
              finishUpdate env user id updates s
      else finishUpdate env user id updates s

/-- Handler of `DELETE /bills/:id`. -/
def deleteBillHandler (id : String) (s : Store) : Store × Response :=
  match getDoc id s.bills with
  | none => (s, failure 404 "Bill not found")
  | some billDoc =>
    if isStr "paid" (getField "status" billDoc) then
      (s, failure 400 "Cannot delete paid bills")
    else
      ({ s with bills := deleteDoc id s.bills },
       { status := 200,
         body := [("success", .bool true), ("message", .str "Bill deleted successfully")] })

/-- Route `POST /bills`: `requireRole('receptionist')`, then the handler. -/
def createBill (env : Env) (user : Option Principal) (body : Fields) (s : Store) :
    Store × Response :=
  guarded "receptionist" user (createBillHandler env user body) s

/-- Route `PUT /bills/:id/status`. -/
def updateBillStatus (env : Env) (user : Option Principal) (id : String) (body : Fields)
    (s : Store) : Store × Response :=
  guarded "receptionist" user (updateStatusHandler env user id body) s

/-- Route `PUT /bills/:id`. -/
def updateBill (env : Env) (user : Option Principal) (id : String) (body : Fields)
    (s : Store) : Store × Response :=
  guarded "receptionist" user (updateBillHandler env user id body) s

/-- Route `DELETE /bills/:id`. -/
def deleteBill (user : Option Principal) (id : String) (s : Store) : Store × Response :=
  guarded "receptionist" user (deleteBillHandler id) s

/-- A request to one of the mutating bill endpoints. -/
inductive BillOp where
  | create (env : Env) (user : Option Principal) (body : Fields) : BillOp
  | updateStatus (env : Env) (user : Option Principal) (id : String) (body : Fields) : BillOp
  | update (env : Env) (user : Option Principal) (id : String) (body : Fields) : BillOp
  | delete (user : Option Principal) (id : String) : BillOp

/-- The effect of a bill request on the store, with its response. -/
def BillOp.run : BillOp → Store → Store × Response
  | .create env user body => createBill env user body
  | .updateStatus env user id body => updateBillStatus env user id body
  | .update env user id body => updateBill env user id body
  | .delete user id => deleteBill user id

/-- The store after a sequence of bill requests, handled one after the other. -/
def runOps : List BillOp → Store → Store
  | [], s => s
  | op :: ops, s => runOps ops (op.run s).1

/-! ## Runtime and queries -/

/-- What the handlers of the patient and prescription routes read from the JavaScript
runtime and from the document store beyond `Env`: `toLowerCase` is
`String.prototype.toLowerCase`; `parseDate v` is the time value of `new Date(v)`, or
`none` when the construction raises or yields an invalid date, which the store
refuses; `toPrimitiveRaises v` tells whether the conversion of `v` to a primitive
raises, as it does in `new Date(v)` and in `sum + v` when `v` is an object with an own
`toString` property, which no JSON value makes callable; `nowMs` is
`Date.now()`; `random36` is `Math.random().toString(36)`;
`valueEq` is the store's equality between two field values of which at least one is
not a string; `orderLe` is the store's ordering of field values. -/
structure Runtime where
  toLowerCase : String → String
  parseDate : JsVal → Option Int
  toPrimitiveRaises : JsVal → Bool
  nowMs : Int
  random36 : String
  valueEq : JsVal → JsVal → Bool
  orderLe : JsVal → JsVal → Bool

/-- Insertion of `x` before the first element it is `le` to. -/
def insertBy {α : Type} (le : α → α → Bool) (x : α) : List α → List α
  | [] => [x]
  | y :: ys => if le x y then x :: y :: ys else y :: insertBy le x ys

/-- Insertion sort by `le`. -/
def sortBy {α : Type} (le : α → α → Bool) : List α → List α
  | [] => []
  | x :: xs => insertBy le x (sortBy le xs)

/-- The query `query.where(key, '==', value)` for a string `value`. -/
def whereStr (key value : String) (c : Collection) : Collection :=
  c.filter (fun p => isStr value (getField key p.2))

/-- The store's equality of a stored field value with a queried value. -/
def storeEq (rt : Runtime) : JsVal → JsVal → Bool
  | .str a, .str b => decide (a = b)
  | v, w => rt.valueEq v w

/-- The query `query.where(key, '==', value)` for any `value`. -/
def whereEq (rt : Runtime) (key : String) (value : JsVal) (c : Collection) : Collection :=
  c.filter (fun p =>
    match getField key p.2 with
    | some w => storeEq rt w value
    | none => false)

/-- The query `query.orderBy(key, 'desc')`: the documents that have the field, the
largest value first. -/
def orderByDesc (rt : Runtime) (key : String) (c : Collection) : Collection :=
  sortBy (fun a b =>
      match getField key a.2, getField key b.2 with
      | some x, some y => rt.orderLe y x
      | _, _ => true)
    (c.filter (fun p => (getField key p.2).isSome))

/-- The loop `snapshot.forEach(doc => list.push({ id: doc.id, ...doc.data(), key: ... }))`;
`none` when a conversion raises. -/
def echoAll (keys : List String) : Collection → Option (List JsVal)
  | [] => some []
  | (id, doc) :: rest =>
    match echoDoc id doc keys, echoAll keys rest with
    | some o, some os => some (.obj o :: os)
    | _, _ => none

/-- The call `v.trim()` on a property value; `none` is the `TypeError` raised when the
value is not a string. -/
def trimOf : Option JsVal → Option String
  | some (.str s) => some (jsTrim s)
  | _ => none

/-- The expression `v?.trim() || ''`; `none` is the `TypeError` raised when the value
is neither nullish nor a string. -/
def trimOrEmpty : Option JsVal → Option String
  | none => some ""
  | some .null => some ""
  | some (.str s) => some (jsTrim s)
  | some _ => none

/-! ## Prescriptions (`routes/prescriptions.js`) -/

/-- The test `!med.name || !med.dosage || !med.frequency || !med.duration`; `none`
when `med` is `null`, whose property read raises. -/
def medInvalid : JsVal → Option Bool
  | .null => none
  | .obj fs =>
    some (!truthy (getField "name" fs) || !truthy (getField "dosage" fs) ||
      !truthy (getField "frequency" fs) || !truthy (getField "duration" fs))
  | _ => some true

/-- The loop `for (const med of medications) { if (...) return res.status(400)... }`. -/
def validateMeds : List JsVal → Check
  | [] => .pass
  | med :: rest =>
    match medInvalid med with
    | none => .raise
    | some true => .reject
    | some false => validateMeds rest

/-- The callback `med => ({ name: med.name.trim(), dosage: med.dosage.trim(),
frequency: med.frequency.trim(), duration: med.duration.trim() })`; `none` is the
`TypeError` raised by a field that is not a string. -/
def normalizeMed : JsVal → Option JsVal
  | .obj fs =>
    match trimOf (getField "name" fs), trimOf (getField "dosage" fs),
          trimOf (getField "frequency" fs), trimOf (getField "duration" fs) with
    | some n, some d, some f, some r =>
      some (.obj [("name", .str n), ("dosage", .str d), ("frequency", .str f),
                  ("duration", .str r)])
    | _, _, _, _ => none
  | _ => none

/-- The call `medications.map(...)` with the callback `normalizeMed`. -/
def normalizeMeds : List JsVal → Option (List JsVal)
  | [] => some []
  | med :: rest =>
    match normalizeMed med, normalizeMeds rest with
    | some m, some ms => some (m :: ms)
    | _, _ => none

/-- The object `prescriptionData` persisted by `POST /prescriptions`. -/
def prescriptionData (env : Env) (u : Principal) (pid : String) (name : JsVal)
    (meds : List JsVal) (notes : String) : Fields :=
  [("patientId", .str pid),
   ("patientName", name),
   ("doctorId", .str u.uid),
   ("doctorName", .str u.name),
   ("medications", .arr meds),
   ("notes", .str notes),
   ("createdAt", .date env.t0),
   ("updatedAt", .date env.t1)]

/-- Handler of `POST /prescriptions`. -/
def createPrescriptionHandler (env : Env) (user : Option Principal) (body : Fields)
    (s : Store) : Store × Response :=
  let patientId := getField "patientId" body
  let patientName := getField "patientName" body
  let medications := getField "medications" body
  let notes := getField "notes" body
  if !truthy patientId || !truthy medications || !isArray medications ||
      (elems medications).length == 0 then
    (s, failure 400 "Patient ID and medications are required")
  else
    match patientId with
    | some (.str pid) =>
      match getDoc pid s.patients with
      | none => (s, failure 404 "Patient not found")
      | some patientDoc =>
        match validateMeds (elems medications) with
        | .raise => (s, failure 500 "Failed to create prescription")
        | .reject =>
          (s, failure 400 "Each medication must have name, dosage, frequency, and duration")
        | .pass =>
          match jsOr patientName (getField "name" patientDoc), user,
                normalizeMeds (elems medications), trimOrEmpty notes with
          | some name, some u, some stored, some notes' =>
            let data := prescriptionData env u pid name stored notes'
            match getDoc env.newId s.prescriptions with
            | some _ => (s, failure 500 "Failed to create prescription")
            | none =>
              ({ s with prescriptions := s.prescriptions ++ [(env.newId, data)] },
               { status := 201,
                 body := [("success", .bool true),
                          ("message", .str "Prescription created successfully"),
                          ("data", .obj (mergeFields [("id", .str env.newId)] data))] })
          | _, _, _, _ => (s, failure 500 "Failed to create prescription")
    | _ => (s, failure 500 "Failed to create prescription")

/-- The patch of `PUT /prescriptions/:id` after `delete updates.id`,
`delete updates.patientId`, `delete updates.doctorId`, `delete updates.createdAt`. -/
def stripRxProtected (body : Fields) : Fields :=
  deleteField "createdAt" (deleteField "doctorId" (deleteField "patientId"
    (deleteField "id" body)))

/-- The tail of the handler of `PUT /prescriptions/:id`: writes the patch and echoes
the document. -/
def finishRxUpdate (id : String) (updates : Fields) (s : Store) : Store × Response :=
  let s' := { s with prescriptions := updateDoc id updates s.prescriptions }
  match getDoc id s'.prescriptions with
  | none => (s', failure 500 "Failed to update prescription")
  | some updatedDoc =>
    match echoDoc id updatedDoc ["createdAt"] with
    | none => (s', failure 500 "Failed to update prescription")
    | some updatedData =>
      (s', { status := 200,
             body := [("success", .bool true),
                      ("message", .str "Prescription updated successfully"),
                      ("data", .obj updatedData)] })

/-- Handler of `PUT /prescriptions/:id`. -/
def updatePrescriptionHandler (env : Env) (user : Option Principal) (id : String)
    (body : Fields) (s : Store) : Store × Response :=
  match getDoc id s.prescriptions with
  | none => (s, failure 404 "Prescription not found")
  | some prescriptionDoc =>
    match user with
    | none => (s, failure 500 "Failed to update prescription")
    | some u =>
      if !isStr u.uid (getField "doctorId" prescriptionDoc) then
        (s, failure 403 "Access denied. You can only update your own prescriptions")
      else
        let updates := setField "updatedAt" (.date env.t0) (stripRxProtected body)
        let medications := getField "medications" updates
        if truthy medications then
          if !isArray medications || (elems medications).length == 0 then
            (s, failure 400 "Medications must be a non-empty array")
          else
            match validateMeds (elems medications) with
            | .raise => (s, failure 500 "Failed to update prescription")
            | .reject =>
              (s, failure 400
                "Each medication must have name, dosage, frequency, and duration")
            | .pass =>
              match normalizeMeds (elems medications) with
              | none => (s, failure 500 "Failed to update prescription")
              | some stored =>
                finishRxUpdate id (setField "medications" (.arr stored) updates) s
        else finishRxUpdate id updates s

/-- Handler of `DELETE /prescriptions/:id`. -/
def deletePrescriptionHandler (user : Option Principal) (id : String) (s : Store) :
    Store × Response :=
  match getDoc id s.prescriptions with
  | none => (s, failure 404 "Prescription not found")
  | some prescriptionDoc =>
    match user with
    | none => (s, failure 500 "Failed to delete prescription")
    | some u =>
      if !isStr u.uid (getField "doctorId" prescriptionDoc) then
        (s, failure 403 "Access denied. You can only delete your own prescriptions")
      else
        ({ s with prescriptions := deleteDoc id s.prescriptions },
         { status := 200,
           body := [("success", .bool true),
                    ("message", .str "Prescription deleted successfully")] })

/-- Route `GET /prescriptions/:id` (no role guard). -/
def getPrescription (user : Option Principal) (id : String) (s : Store) : Response :=
  match getDoc id s.prescriptions with
  | none => failure 404 "Prescription not found"
  | some prescriptionDoc =>
    match echoDoc id prescriptionDoc ["createdAt"], user with
    | some prescriptionData, some u =>
      if decide (u.role = "doctor") && !isStr u.uid (getField "doctorId" prescriptionData) then
        failure 403 "Access denied"
      else
        { status := 200,
          body := [("success", .bool true), ("data", .obj prescriptionData)] }
    | _, _ => failure 500 "Failed to fetch prescription"

/-- The value of a query-string parameter when it is truthy (present and not empty). -/
def truthyParam : Option String → Option String
  | some v => if v ≠ "" then some v else none
  | none => none

/-- Route `GET /prescriptions` with the query parameters `patientId` and `doctorId`
(no role guard). -/
def listPrescriptions (rt : Runtime) (user : Option Principal)
    (patientId doctorId : Option String) (s : Store) : Response :=
  let query := s.prescriptions
  let query :=
    match truthyParam patientId with
    | some p => whereStr "patientId" p query
    | none => query
  let filtered : Option Collection :=
    match truthyParam doctorId with
    | some d => some (whereStr "doctorId" d query)
    | none =>
      match user with
      | none => none
      | some u => some (if u.role = "doctor" then whereStr "doctorId" u.uid query else query)
  match filtered with
  | none => failure 500 "Failed to fetch prescriptions"
  | some query =>
    match echoAll ["createdAt"] (orderByDesc rt "createdAt" query) with
    | none => failure 500 "Failed to fetch prescriptions"
    | some prescriptions =>
      { status := 200,
        body := [("success", .bool true), ("data", .arr prescriptions),
                 ("count", .num prescriptions.length)] }

/-- The object `{ id, name, token }` of a patient; a field that is `undefined` is not
serialised. -/
def patientSummary (id : String) (patientDoc : Fields) : Fields :=
  [("id", JsVal.str id)] ++
    (match getField "name" patientDoc with
     | some v => [("name", v)]
     | none => []) ++
    (match getField "token" patientDoc with
     | some v => [("token", v)]
     | none => [])

/-- Route `GET /prescriptions/patient/:patientId` (no role guard). -/
def listPrescriptionsForPatient (rt : Runtime) (user : Option Principal)
    (patientId : String) (s : Store) : Response :=
  match getDoc patientId s.patients with
  | none => failure 404 "Patient not found"
  | some patientDoc =>
    let query := whereStr "patientId" patientId s.prescriptions
    match user with
    | none => failure 500 "Failed to fetch patient prescriptions"
    | some u =>
      let query := if u.role = "doctor" then whereStr "doctorId" u.uid query else query
      match echoAll ["createdAt"] (orderByDesc rt "createdAt" query) with
      | none => failure 500 "Failed to fetch patient prescriptions"
      | some prescriptions =>
        { status := 200,
          body := [("success", .bool true), ("data", .arr prescriptions),
                   ("count", .num prescriptions.length),
                   ("patient", .obj (patientSummary patientId patientDoc))] }

/-- Route `POST /prescriptions`: `requireRole('doctor')`, then the handler. -/
def createPrescription (env : Env) (user : Option Principal) (body : Fields) (s : Store) :
    Store × Response :=
  guarded "doctor" user (createPrescriptionHandler env user body) s

/-- Route `PUT /prescriptions/:id`. -/
def updatePrescription (env : Env) (user : Option Principal) (id : String) (body : Fields)
    (s : Store) : Store × Response :=
  guarded "doctor" user (updatePrescriptionHandler env user id body) s

/-- Route `DELETE /prescriptions/:id`. -/
def deletePrescription (user : Option Principal) (id : String) (s : Store) :
    Store × Response :=
  guarded "doctor" user (deletePrescriptionHandler user id) s

/-- A request to one of the mutating prescription endpoints. -/
inductive RxOp where
  | create (env : Env) (user : Option Principal) (body : Fields) : RxOp
  | update (env : Env) (user : Option Principal) (id : String) (body : Fields) : RxOp
  | delete (user : Option Principal) (id : String) : RxOp

/-- The effect of a prescription request on the store, with its response. -/
def RxOp.run : RxOp → Store → Store × Response
  | .create env user body => createPrescription env user body
  | .update env user id body => updatePrescription env user id body
  | .delete user id => deletePrescription user id

/-- The store after a sequence of prescription requests. -/
def runRxOps : List RxOp → Store → Store
  | [], s => s
  | op :: ops, s => runRxOps ops (op.run s).1

/-! ## Patients (`routes/patients.js`) -/

/-- The template string `PAT-${Date.now()}-${Math.random().toString(36).substr(2, 9)
.toUpperCase()}`. The digits produced by `toString(36)` are ASCII, on which
`toUpperCase` is `Char.toUpper`. -/
def makeToken (rt : Runtime) : String :=
  "PAT-" ++ toString rt.nowMs ++ "-" ++
    String.mk (((rt.random36.data.drop 2).take 9).map Char.toUpper)

/-- The object `patientData` persisted by `POST /patients`. -/
def patientData (env : Env) (rt : Runtime) (u : Principal) (name email phone address : String)
    (dateOfBirth : Int) (emergencyContact medicalHistory : String) : Fields :=
  [("name", .str name),
   ("email", .str email),
   ("phone", .str phone),
   ("address", .str address),
   ("dateOfBirth", .date dateOfBirth),
   ("emergencyContact", .str emergencyContact),
   ("medicalHistory", .str medicalHistory),
   ("token", .str (makeToken rt)),
   ("registeredBy", .str u.uid),
   ("createdAt", .date env.t0),
   ("updatedAt", .date env.t1)]

/-- The call `email.toLowerCase().trim()`; `none` is the `TypeError` raised when the
value is not a string. -/
def lowerTrimOf (rt : Runtime) : Option JsVal → Option String
  | some (.str s) => some (jsTrim (rt.toLowerCase s))
  | _ => none

/-- Handler of `POST /patients`. -/
def registerPatientHandler (env : Env) (rt : Runtime) (user : Option Principal)
    (body : Fields) (s : Store) : Store × Response :=
  let name := getField "name" body
  let email := getField "email" body
  let phone := getField "phone" body
  let address := getField "address" body
  let dateOfBirth := getField "dateOfBirth" body
  let emergencyContact := getField "emergencyContact" body
  let medicalHistory := getField "medicalHistory" body
  if !truthy name || !truthy email || !truthy phone || !truthy address ||
      !truthy dateOfBirth then
    (s, failure 400 "Name, email, phone, address, and date of birth are required")
  else
    match email, dateOfBirth with
    | some emailValue, some dobValue =>
      if !(whereEq rt "email" emailValue s.patients).isEmpty then
        (s, failure 400 "Patient with this email already exists")
      else
        match trimOf name, lowerTrimOf rt email, trimOf phone, trimOf address,
              rt.parseDate dobValue, trimOrEmpty emergencyContact,
              trimOrEmpty medicalHistory, user with
        | some n, some e, some p, some a, some dob, some ec, some mh, some u =>
          let data := patientData env rt u n e p a dob ec mh
          match getDoc env.newId s.patients with
          | some _ => (s, failure 500 "Failed to register patient")
          | none =>
            ({ s with patients := s.patients ++ [(env.newId, data)] },
             { status := 201,
               body := [("success", .bool true),
                        ("message", .str "Patient registered successfully"),
                        ("data", .obj (mergeFields [("id", .str env.newId)] data))] })
        | _, _, _, _, _, _, _, _ => (s, failure 500 "Failed to register patient")
    | _, _ => (s, failure 500 "Failed to register patient")

/-- Handler of `POST /patients/:id/token`. -/
def regenerateTokenHandler (env : Env) (rt : Runtime) (id : String) (s : Store) :
    Store × Response :=
  match getDoc id s.patients with
  | none => (s, failure 404 "Patient not found")
  | some _ =>
    ({ s with patients :=
        updateDoc id [("token", .str (makeToken rt)), ("updatedAt", .date env.t0)] s.patients },
     { status := 200,
       body := [("success", .bool true),
                ("message", .str "New token generated successfully"),
                ("data", .obj [("token", .str (makeToken rt))])] })

/-- Route `POST /patients`: `requireRole('receptionist')`, then the handler. -/
def registerPatient (env : Env) (rt : Runtime) (user : Option Principal) (body : Fields)
    (s : Store) : Store × Response :=
  guarded "receptionist" user (registerPatientHandler env rt user body) s

/-- Route `POST /patients/:id/token`. -/
def regenerateToken (env : Env) (rt : Runtime) (user : Option Principal) (id : String)
    (s : Store) : Store × Response :=
  guarded "receptionist" user (regenerateTokenHandler env rt id) s

/-! ## Statement vocabulary -/

/-- The stored value of field `key` of bill `id`, if the bill and the field exist. -/
def billField (key id : String) (s : Store) : Option JsVal :=
  (getDoc id s.bills).bind (getField key)

/-- An item that satisfies the rule of the endpoints: an object whose `description` is
a non-empty string and whose `amount` is a number greater than 0. -/
def ValidItem (item : JsVal) : Prop :=
  ∃ fs d a, item = .obj fs ∧ getField "description" fs = some (.str d) ∧ d ≠ "" ∧
    getField "amount" fs = some (.num a) ∧ 0 < a

/-- The stored form `i` of a submitted item: its description trimmed, its amount
rounded to two decimals, nothing else. -/
def StoredAs (item i : JsVal) : Prop :=
  ∃ fs d a, item = .obj fs ∧ getField "description" fs = some (.str d) ∧
    getField "amount" fs = some (.num a) ∧
    i = .obj [("description", .str (jsTrim d)), ("amount", .num (toFixed2 a))]

/-! ## Sample data -/

/-- A receptionist. -/
def rita : Principal :=
  { uid := "u1", email := "rita@clinic.test", name := "Rita", role := "receptionist" }

/-- A runtime whose `ToNumber` yields `NaN` on every non-numeric operand, with fixed
clock readings and generated id. -/
def env0 : Env := { t0 := 100, t1 := 101, newId := "b1", coerce := fun _ => .nan }

/-- A later request: other clock readings, another generated id. -/
def env1 : Env := { t0 := 200, t1 := 201, newId := "b2", coerce := fun _ => .nan }

/-- A store holding one patient and no bill. -/
def store0 : Store :=
  { users := [], prescriptions := [], bills := [],
    patients := [("p1", [("name", .str "Jane Doe"), ("email", .str "jane@x.com")])] }

/-- A store holding one patient and one paid bill. -/
def storePaid : Store :=
  { store0 with
    bills := [("b1", [("patientId", .str "p1"), ("patientName", .str "Jane Doe"),
      ("items", .arr [.obj [("description", .str "Consult"), ("amount", .num 50)]]),
      ("totalAmount", .num 50), ("status", .str "paid"), ("createdBy", .str "u1"),
      ("createdByName", .str "Rita"), ("createdAt", .date 10), ("updatedAt", .date 20),
      ("paidAt", .date 21)])] }

/-- A store holding one patient and one pending bill. -/
def storePending : Store :=
  { store0 with
    bills := [("b1", [("patientId", .str "p1"), ("patientName", .str "Jane Doe"),
      ("items", .arr [.obj [("description", .str "Consult"), ("amount", .num 50)]]),
      ("totalAmount", .num 50), ("status", .str "pending"), ("createdBy", .str "u1"),
      ("createdByName", .str "Rita"), ("createdAt", .date 10), ("updatedAt", .date 10)])] }

/-- The body of a bill creation: two items, no `totalAmount`. -/
def bodyCreate : Fields :=
  [("patientId", .str "p1"),
   ("items", .arr [.obj [("description", .str "Consult"), ("amount", .num 50)],
                   .obj [("description", .str "Lab"), ("amount", .num 30)]])]

/-- A creation whose `totalAmount` is 0 while its one item amounts to 50. -/
def bodyZeroTotal : Fields :=
  [("patientId", .str "p1"),
   ("items", .arr [.obj [("description", .str "Consult"), ("amount", .num 50)]]),
   ("totalAmount", .num 0)]

/-- The patch `{ status: 'archived' }`. -/
def bodyArchived : Fields := [("status", .str "archived")]

/-- The body `{ status: 'paid' }`. -/
def bodyPaid : Fields := [("status", .str "paid")]

/-- The body `{ status: 'pending' }`. -/
def bodyPending : Fields := [("status", .str "pending")]

/-! ## Sample data for prescriptions and patients -/

/-- A doctor. -/
def dan : Principal :=
  { uid := "d1", email := "dan@clinic.test", name := "Dan", role := "doctor" }

/-- Another doctor. -/
def eve : Principal :=
  { uid := "d2", email := "eve@clinic.test", name := "Eve", role := "doctor" }

/-- A runtime with ASCII lower-casing, a fixed clock and random draw, dates ordered by
their time value, and every date of birth that is not an object parsed to the same
day. -/
def rt0 : Runtime :=
  { toLowerCase := fun s => String.mk (s.data.map Char.toLower),
    parseDate := fun v =>
      match v with
      | .obj _ => none
      | _ => some 631152000000,
    toPrimitiveRaises := fun v =>
      match v with
      | .obj fs => (getField "toString" fs).isSome
      | _ => false,
    nowMs := 1700000000000,
    random36 := "0.4fzyo82mvyr",
    valueEq := fun _ _ => false,
    orderLe := fun a b =>
      match a, b with
      | .date x, .date y => decide (x ≤ y)
      | _, _ => true }

/-- The items of the `data` array of a response body. -/
def responseData (r : Response) : List JsVal := elems (getField "data" r.body)

/-- A prescription document is shown to doctor `uid` under the patient filter `p`: it
is his own and, when a filter is given, for that patient. -/
def VisibleTo (uid : String) (p : Option String) (doc : Fields) : Prop :=
  getField "doctorId" doc = some (.str uid) ∧
    ∀ pid, p = some pid → getField "patientId" doc = some (.str pid)

/-- The stored value of field `key` of prescription `id`. -/
def rxField (key id : String) (s : Store) : Option JsVal :=
  (getDoc id s.prescriptions).bind (getField key)

/-- The stored value of field `key` of patient `id`. -/
def patientField (key id : String) (s : Store) : Option JsVal :=
  (getDoc id s.patients).bind (getField key)

/-- Property `k` of a medication entry; a value that is not an object has none. -/
def medProp (k : String) : JsVal → Option JsVal
  | .obj fs => getField k fs
  | _ => none

/-- A medication entry lacks one of `name`, `dosage`, `frequency`, `duration`, or has
it empty. -/
def MedLacksField (m : JsVal) : Prop :=
  ∃ k, k ∈ ["name", "dosage", "frequency", "duration"] ∧
    (medProp k m = none ∨ medProp k m = some (.str ""))

/-- Prescription `id` exists before every request of the sequence and after the last. -/
def AliveAlong (id : String) : List RxOp → Store → Prop
  | [], s => (getDoc id s.prescriptions).isSome = true
  | op :: ops, s => (getDoc id s.prescriptions).isSome = true ∧ AliveAlong id ops (op.run s).1

/-- A medication entry with all four fields. -/
def medAmox : JsVal :=
  .obj [("name", .str " Amoxicillin "), ("dosage", .str "500mg"),
        ("frequency", .str "3x daily"), ("duration", .str "7 days")]

/-- A medication entry whose name is blank. -/
def medBlank : JsVal :=
  .obj [("name", .str "  "), ("dosage", .str "500mg"),
        ("frequency", .str "3x daily"), ("duration", .str "7 days")]

/-- A prescription creation for patient `p1` with one medication. -/
def bodyRx : Fields := [("patientId", .str "p1"), ("medications", .arr [medAmox])]

/-- A prescription creation whose one medication has a blank name. -/
def bodyRxBlank : Fields := [("patientId", .str "p1"), ("medications", .arr [medBlank])]

/-- A prescription creation whose one medication has no dosage. -/
def bodyRxNoDosage : Fields :=
  [("patientId", .str "p1"),
   ("medications", .arr [.obj [("name", .str "Amoxicillin"), ("frequency", .str "3x daily"),
                               ("duration", .str "7 days")]])]

/-- The patch `{ medications: null }`. -/
def bodyMedsNull : Fields := [("medications", .null)]

/-- A patch that tries to move a prescription to another doctor and patient. -/
def bodyTakeOver : Fields :=
  [("doctorId", .str "d2"), ("patientId", .str "p9"), ("createdAt", .num 0),
   ("notes", .str "changed")]

/-- A store with one patient and three prescriptions: `r1` and `r3` by doctor `d1`,
`r2` by doctor `d2`. -/
def storeRx : Store :=
  { store0 with
    prescriptions :=
      [("r1", [("patientId", .str "p1"), ("patientName", .str "Jane Doe"),
               ("doctorId", .str "d1"), ("doctorName", .str "Dan"),
               ("medications", .arr [.obj [("name", .str "Amoxicillin"),
                 ("dosage", .str "500mg"), ("frequency", .str "3x daily"),
                 ("duration", .str "7 days")]]),
               ("notes", .str ""), ("createdAt", .date 10), ("updatedAt", .date 10)]),
       ("r2", [("patientId", .str "p1"), ("patientName", .str "Jane Doe"),
               ("doctorId", .str "d2"), ("doctorName", .str "Eve"),
               ("medications", .arr [.obj [("name", .str "Ibuprofen"),
                 ("dosage", .str "200mg"), ("frequency", .str "2x daily"),
                 ("duration", .str "3 days")]]),
               ("notes", .str ""), ("createdAt", .date 20), ("updatedAt", .date 20)]),
       ("r3", [("patientId", .str "p2"), ("patientName", .str "John Roe"),
               ("doctorId", .str "d1"), ("doctorName", .str "Dan"),
               ("medications", .arr [.obj [("name", .str "Paracetamol"),
                 ("dosage", .str "1g"), ("frequency", .str "4x daily"),
                 ("duration", .str "2 days")]]),
               ("notes", .str ""), ("createdAt", .date 30), ("updatedAt", .date 30)])] }

/-- A store whose one patient has the stored email `jane@x.com`. -/
def storeJane : Store :=
  { users := [], prescriptions := [], bills := [],
    patients := [("p1", [("name", .str "Jane Doe"), ("email", .str "jane@x.com"),
      ("phone", .str "555-0100"), ("address", .str "1 Main St"),
      ("dateOfBirth", .date 631152000000), ("emergencyContact", .str ""),
      ("medicalHistory", .str ""), ("token", .str "PAT-1-AAAAAAAAA"),
      ("registeredBy", .str "u1"), ("createdAt", .date 10), ("updatedAt", .date 10)])] }

/-- A registration with the email of the stored patient in upper case. -/
def bodyJaneUpper : Fields :=
  [("name", .str " Jane Roe "), ("email", .str "JANE@X.COM"), ("phone", .str "555-0199"),
   ("address", .str "2 Side St"), ("dateOfBirth", .str "1990-01-01"),
   ("medicalHistory", .str " none ")]

/-- A request environment whose generated id is `p2`. -/
def env2 : Env := { t0 := 300, t1 := 301, newId := "p2", coerce := fun _ => .nan }

/-! ## Patients: update, reads and search (`routes/patients.js`) -/

/-- The patch of `PUT /patients/:id` after `delete updates.id`, `delete updates.token`,
`delete updates.createdAt`, `delete updates.registeredBy`. -/
def stripPatientProtected (body : Fields) : Fields :=
  deleteField "registeredBy" (deleteField "createdAt" (deleteField "token"
    (deleteField "id" body)))

/-- The statement `if (updates.dateOfBirth) updates.dateOfBirth =
new Date(updates.dateOfBirth)`. The outer `none` is the exception raised by the
construction; the inner `none` is a patch holding an invalid date, which the store
refuses when it is written. -/
def withDateOfBirth (rt : Runtime) (updates : Fields) : Option (Option Fields) :=
  match getField "dateOfBirth" updates with
  | some v =>
    if truthy (some v) then
      if rt.toPrimitiveRaises v then none
      else some ((rt.parseDate v).map (fun t => setField "dateOfBirth" (.date t) updates))
    else some (some updates)
  | none => some (some updates)

/-- Route `PUT /patients/:id` (no role guard). -/
def updatePatient (env : Env) (rt : Runtime) (id : String) (body : Fields) (s : Store) :
    Store × Response :=
  let updates := setField "updatedAt" (.date env.t0) (stripPatientProtected body)
  match withDateOfBirth rt updates with
  | none => (s, failure 500 "Failed to update patient")
  | some patch =>
    match getDoc id s.patients with
    | none => (s, failure 404 "Patient not found")
    | some _ =>
      match patch with
      | none => (s, failure 500 "Failed to update patient")
      | some updates =>
        let s' := { s with patients := updateDoc id updates s.patients }
        match getDoc id s'.patients with
        | none => (s', failure 500 "Failed to update patient")
        | some updatedDoc =>
          match echoDoc id updatedDoc ["createdAt", "dateOfBirth"] with
          | none => (s', failure 500 "Failed to update patient")
          | some updatedData =>
            (s', { status := 200,
                   body := [("success", .bool true),
                            ("message", .str "Patient updated successfully"),
                            ("data", .obj updatedData)] })

/-- Route `GET /patients`. -/
def listPatients (rt : Runtime) (s : Store) : Response :=
  match echoAll ["createdAt", "dateOfBirth"] (orderByDesc rt "createdAt" s.patients) with
  | none => failure 500 "Failed to fetch patients"
  | some patients =>
    { status := 200,
      body := [("success", .bool true), ("data", .arr patients),
               ("count", .num patients.length)] }

/-- Route `GET /patients/:id`. -/
def getPatient (id : String) (s : Store) : Response :=
  match getDoc id s.patients with
  | none => failure 404 "Patient not found"
  | some patientDoc =>
    match echoDoc id patientDoc ["createdAt", "dateOfBirth"] with
    | none => failure 500 "Failed to fetch patient"
    | some patientData =>
      { status := 200, body := [("success", .bool true), ("data", .obj patientData)] }

/-- The test `haystack.includes(needle)` on strings. -/
def includesStr (needle haystack : String) : Bool :=
  haystack.data.tails.any (fun t => needle.data.isPrefixOf t)

/-- The expression `v?.toLowerCase().includes(term)`; `none` is the `TypeError` raised
when `v` is neither nullish nor a string. A nullish `v` gives `undefined`, which is
falsy. -/
def lowerIncludes (rt : Runtime) (term : String) : Option JsVal → Option Bool
  | none => some false
  | some .null => some false
  | some (.str s) => some (includesStr term (rt.toLowerCase s))
  | some _ => none

/-- The expression `v?.includes(term)`: substring test on a string, membership test on
an array; `none` is the `TypeError` raised on any other value that is not nullish. -/
def plainIncludes (term : String) : Option JsVal → Option Bool
  | none => some false
  | some .null => some false
  | some (.str s) => some (includesStr term s)
  | some (.arr xs) => some (xs.any (fun x => isStr term (some x)))
  | some _ => none

/-- The operator `a || b` on two tests that may raise: `b` is evaluated only when `a`
is false. -/
def orElseTest (a : Option Bool) (b : Option Bool) : Option Bool :=
  match a with
  | none => none
  | some true => some true
  | some false => b

/-- The condition of the search: `data.name?.toLowerCase().includes(searchTerm) ||
data.email?.toLowerCase().includes(searchTerm) || data.phone?.includes(searchTerm) ||
data.token?.toLowerCase().includes(searchTerm)`. -/
def searchMatches (rt : Runtime) (searchTerm : String) (data : Fields) : Option Bool :=
  orElseTest (lowerIncludes rt searchTerm (getField "name" data))
    (orElseTest (lowerIncludes rt searchTerm (getField "email" data))
      (orElseTest (plainIncludes searchTerm (getField "phone" data))
        (lowerIncludes rt searchTerm (getField "token" data))))

/-- The loop of the search over the snapshot: each document is echoed, then tested, and
pushed when the test holds; `none` when an echo or a test raises. -/
def searchLoop (rt : Runtime) (searchTerm : String) : Collection → Option (List JsVal)
  | [] => some []
  | (id, data) :: rest =>
    match echoDoc id data ["createdAt", "dateOfBirth"], searchMatches rt searchTerm data,
          searchLoop rt searchTerm rest with
    | some patientData, some true, some found => some (.obj patientData :: found)
    | some _, some false, some found => some found
    | _, _, _ => none

/-- Route `GET /patients/search/:query`. -/
def searchPatients (rt : Runtime) (query : String) (s : Store) : Response :=
  let searchTerm := rt.toLowerCase query
  match searchLoop rt searchTerm s.patients with
  | none => failure 500 "Failed to search patients"
  | some patients =>
    { status := 200,
      body := [("success", .bool true), ("data", .arr patients),
               ("count", .num patients.length)] }

/-! ## Bills: reads and statistics (`routes/billing.js`) -/

/-- Route `GET /bills` with the query parameters `patientId` and `status`. -/
def listBills (rt : Runtime) (patientId status : Option String) (s : Store) : Response :=
  let query := s.bills
  let query :=
    match truthyParam patientId with
    | some p => whereStr "patientId" p query
    | none => query
  let query :=
    match truthyParam status with
    | some st =>
      if st = "pending" ∨ st = "paid" then whereStr "status" st query else query
    | none => query
  match echoAll ["createdAt", "updatedAt"] (orderByDesc rt "createdAt" query) with
  | none => failure 500 "Failed to fetch bills"
  | some bills =>
    { status := 200,
      body := [("success", .bool true), ("data", .arr bills), ("count", .num bills.length)] }

/-- Route `GET /bills/:id`. -/
def getBill (id : String) (s : Store) : Response :=
  match getDoc id s.bills with
  | none => failure 404 "Bill not found"
  | some billDoc =>
    match echoDoc id billDoc ["createdAt", "updatedAt"] with
    | none => failure 500 "Failed to fetch bill"
    | some billData =>
      { status := 200, body := [("success", .bool true), ("data", .obj billData)] }

/-- The value of a JavaScript accumulator started at the number 0 and fed with `+=`:
a number, `NaN` (or, in binary64, an infinity), a string (once `+` has concatenated),
or the exception raised by a conversion to a primitive. -/
inductive Acc where
  | num (q : ℚ) : Acc
  | nan : Acc
  | text : Acc
  | raised : Acc

/-- The step `sum + v` (`sum += v`) in exact decimal arithmetic (`Acc.addWith
Arith.exact`), with `v` a property value (`none` is `undefined`). -/
def Acc.add (rt : Runtime) : Acc → Option JsVal → Acc
  | .raised, _ => .raised
  | .text, some (.arr xs) => if rt.toPrimitiveRaises (.arr xs) then .raised else .text
  | .text, some (.obj fs) => if rt.toPrimitiveRaises (.obj fs) then .raised else .text
  | .text, _ => .text
  | .num q, some (.num x) => .num (q + x)
  | .num q, some .null => .num q
  | .num q, some (.bool b) => .num (q + if b then 1 else 0)
  | .num _, none => .nan
  | .nan, some (.num _) => .nan
  | .nan, some .null => .nan
  | .nan, some (.bool _) => .nan
  | .nan, none => .nan
  | _, some (.str _) => .text
  | _, some (.date _) => .text
  | _, some (.arr xs) => if rt.toPrimitiveRaises (.arr xs) then .raised else .text
  | _, some (.obj fs) => if rt.toPrimitiveRaises (.obj fs) then .raised else .text

/-- Property `k` of a value; a value that is not an object has none. -/
def propOf (k : String) : JsVal → Option JsVal
  | .obj fs => getField k fs
  | _ => none

/-- The fold `bills.reduce((sum, bill) => sum + bill.totalAmount, 0)` in exact decimal
arithmetic. -/
def sumTotals (rt : Runtime) (bills : List JsVal) : Acc :=
  bills.foldl (fun sum bill => Acc.add rt sum (propOf "totalAmount" bill)) (.num 0)

/-- The JSON form of a sum; `concat` is the string built when `+` has concatenated,
`NaN` is serialised as `null`, and `none` is the exception raised by the fold. -/
def Acc.toJson (concat : String) : Acc → Option JsVal
  | .num q => some (.num q)
  | .nan => some .null
  | .text => some (.str concat)
  | .raised => none

/-- Route `GET /bills/patient/:patientId`. `concat` gives, for a list of echoed bills,
the string that the fold over their `totalAmount` builds when it concatenates. -/
def listBillsForPatient (rt : Runtime) (concat : List JsVal → String) (patientId : String)
    (s : Store) : Response :=
  match getDoc patientId s.patients with
  | none => failure 404 "Patient not found"
  | some patientDoc =>
    match echoAll ["createdAt", "updatedAt"]
        (orderByDesc rt "createdAt" (whereStr "patientId" patientId s.bills)) with
    | none => failure 500 "Failed to fetch patient bills"
    | some bills =>
      let paid := bills.filter (fun bill => isStr "paid" (propOf "status" bill))
      let pending := bills.filter (fun bill => isStr "pending" (propOf "status" bill))
      match (sumTotals rt bills).toJson (concat bills), (sumTotals rt paid).toJson (concat paid),
            (sumTotals rt pending).toJson (concat pending) with
      | some totalAmount, some paidAmount, some pendingAmount =>
        { status := 200,
          body := [("success", .bool true), ("data", .arr bills),
                   ("count", .num bills.length),
                   ("summary", .obj [("totalAmount", totalAmount),
                                     ("paidAmount", paidAmount),
                                     ("pendingAmount", pendingAmount)]),
                   ("patient", .obj (patientSummary patientId patientDoc))] }
      | _, _, _ => failure 500 "Failed to fetch patient bills"

/-- The counters of `GET /bills/stats/summary`. -/
structure Tally where
  totalRevenue : Acc
  pendingAmount : Acc
  totalBills : Nat
  paidBills : Nat
  pendingBills : Nat

/-- The body of `billsSnapshot.forEach(doc => { ... })` in exact decimal arithmetic
(`tallyBillWith Arith.exact`): a bill whose status is `'paid'` counts as paid, every
other bill as pending. -/
def tallyBill (rt : Runtime) (t : Tally) (bill : Fields) : Tally :=
  if isStr "paid" (getField "status" bill) then
    { t with totalBills := t.totalBills + 1,
             totalRevenue := Acc.add rt t.totalRevenue (getField "totalAmount" bill),
             paidBills := t.paidBills + 1 }
  else
    { t with totalBills := t.totalBills + 1,
             pendingAmount := Acc.add rt t.pendingAmount (getField "totalAmount" bill),
             pendingBills := t.pendingBills + 1 }

/-- The counters after the scan of the whole collection, in exact decimal arithmetic. -/
def tallyBills (rt : Runtime) (bills : Collection) : Tally :=
  bills.foldl (fun t p => tallyBill rt t p.2)
    { totalRevenue := .num 0, pendingAmount := .num 0, totalBills := 0, paidBills := 0,
      pendingBills := 0 }

/-- The expression `parseFloat(x.toFixed(2))` on an accumulator, in exact decimal
arithmetic (`Acc.roundedWith Arith.exact`); `none` is the `TypeError` raised when the
accumulator holds a string (or the fold had raised), and `NaN` is serialised as
`null`. -/
def Acc.rounded : Acc → Option JsVal
  | .num q => some (.num (toFixed2 q))
  | .nan => some .null
  | _ => none

/-- The quotient `x / n` in exact decimal arithmetic; `none` when `n` is 0, where the
quotient is `NaN` or infinite, not a number. -/
def jsDivide (x : ℚ) (n : Nat) : Option ℚ :=
  if n = 0 then none else some (x / n)

/-- The expression `totalBills > 0 ? parseFloat(((totalRevenue + pendingAmount) /
totalBills).toFixed(2)) : 0` in exact decimal arithmetic (`averageBillAmountWith
Arith.exact`), for two accumulators that hold no string. -/
def averageBillAmount (t : Tally) : JsVal :=
  if t.totalBills > 0 then
    match t.totalRevenue, t.pendingAmount with
    | .num r, .num p =>
      match jsDivide (r + p) t.totalBills with
      | some q => .num (toFixed2 q)
      | none => .null
    | _, _ => .null
  else .num 0

/-- Route `GET /bills/stats/summary` in exact decimal arithmetic (`billStatsWith
Arith.exact`). -/
def billStats (rt : Runtime) (s : Store) : Response :=
  let t := tallyBills rt s.bills
  match t.totalRevenue.rounded, t.pendingAmount.rounded with
  | some totalRevenue, some pendingAmount =>
    { status := 200,
      body := [("success", .bool true),
               ("data", .obj [("totalRevenue", totalRevenue),
                              ("pendingAmount", pendingAmount),
                              ("totalBills", .num t.totalBills),
                              ("paidBills", .num t.paidBills),
                              ("pendingBills", .num t.pendingBills),
                              ("averageBillAmount", averageBillAmount t)])] }
  | _, _ => failure 500 "Failed to fetch billing statistics"

/-! ## Authentication (`middleware/auth.js`, `routes/auth.js`) -/

/-- Result of `auth.verifyIdToken(token)`: the decoded token (`email` is `none` when
the token carries none), or the rejection with its `code`. -/
inductive Verified where
  | decoded (uid : String) (email : Option String) : Verified
  | rejected (code : String) : Verified

/-- Result of `auth.createUser({ email, password, displayName })`: the `uid` of the
new record, or the error raised, with its `code` and `message`. -/
inductive Created where
  | record (uid : String) : Created
  | error (code : String) (message : Option JsVal) : Created

/-- The identity provider (Firebase Auth) as the handlers use it. -/
structure AuthProvider where
  verifyIdToken : String → Verified
  createUser : String → Created

/-- The call `s.split(' ')` on the characters of a string. -/
def splitOnSpace : List Char → List (List Char)
  | [] => [[]]
  | c :: cs =>
    match splitOnSpace cs with
    | [] => [[c]]
    | w :: ws => if c = ' ' then [] :: w :: ws else (c :: w) :: ws

/-- The token read from the `Authorization` header: `none` when `!authHeader ||
!authHeader.startsWith('Bearer ')`, else `authHeader.split(' ')[1]`. -/
def bearerToken (authHeader : Option String) : Option String :=
  match authHeader with
  | none => none
  | some h =>
    if "Bearer ".data.isPrefixOf h.data then
      match splitOnSpace h.data with
      | _ :: token :: _ => some (String.mk token)
      | _ => none
    else none

/-- The call `ref.set(data)`: the document is created or replaced. -/
def setDoc (id : String) (data : Fields) (c : Collection) : Collection := assocSet id data c

/-- The object `{ uid, email, ...userDoc.data() }`; an `email` that is `undefined` is
not serialised. -/
def userObject (uid : String) (email : Option String) (userDoc : Fields) : Fields :=
  let base : Fields :=
    match email with
    | some e => [("uid", .str uid), ("email", .str e)]
    | none => [("uid", .str uid)]
  mergeFields base userDoc

/-- Model of `authMiddleware`: the response it sends, or the object it attaches to the
request as `req.user` before `next()`. -/
def authMiddleware (ap : AuthProvider) (authHeader : Option String) (s : Store) :
    Except Response Fields :=
  match bearerToken authHeader with
  | none =>
    .error { status := 401, body := [("error", .str "Unauthorized"),
      ("message", .str "No valid authorization token provided")] }
  | some token =>
    match ap.verifyIdToken token with
    | .rejected code =>
      if code = "auth/id-token-expired" then
        .error { status := 401, body := [("error", .str "Token Expired"),
          ("message", .str "Authentication token has expired")] }
      else if code = "auth/argument-error" then
        .error { status := 401, body := [("error", .str "Invalid Token"),
          ("message", .str "Invalid authentication token format")] }
      else
        .error { status := 401, body := [("error", .str "Authentication Failed"),
          ("message", .str "Failed to authenticate user")] }
    | .decoded uid email =>
      match getDoc uid s.users with
      | none =>
        .error { status := 401, body := [("error", .str "Unauthorized"),
          ("message", .str "User not found in database")] }
      | some userDoc => .ok (userObject uid email userDoc)

/-- Route `GET /auth/verify`. -/
def verifyToken (ap : AuthProvider) (authHeader : Option String) (s : Store) : Response :=
  match bearerToken authHeader with
  | none => failure 401 "No authorization token provided"
  | some token =>
    match ap.verifyIdToken token with
    | .rejected _ => failure 401 "Invalid token"
    | .decoded uid email =>
      match getDoc uid s.users with
      | none => failure 404 "User not found"
      | some userDoc =>
        { status := 200,
          body := [("success", .bool true), ("user", .obj (userObject uid email userDoc))] }

/-- Route `POST /auth/profile`. The document is written with `set`, whether or not a
profile exists under the uid; an `email` that is `undefined` is refused by the store. -/
def createProfile (env : Env) (ap : AuthProvider) (authHeader : Option String)
    (body : Fields) (s : Store) : Store × Response :=
  match bearerToken authHeader with
  | none => (s, failure 401 "No authorization token provided")
  | some token =>
    match ap.verifyIdToken token with
    | .rejected _ => (s, failure 500 "Failed to create user profile")
    | .decoded uid email =>
      match getField "name" body, getField "role" body with
      | some name, some role =>
        if !truthy (some name) || !truthy (some role) then
          (s, failure 400 "Name and role are required")
        else if !(isStr "doctor" (some role) || isStr "receptionist" (some role)) then
          (s, failure 400 "Invalid role. Must be doctor or receptionist")
        else
          match email with
          | none => (s, failure 500 "Failed to create user profile")
          | some e =>
            let userData : Fields :=
              [("name", name), ("role", role), ("email", .str e), ("createdAt", .date env.t0)]
            ({ s with users := setDoc uid userData s.users },
             { status := 200,
               body := [("success", .bool true),
                        ("message", .str "User profile created successfully"),
                        ("user", .obj (mergeFields [("uid", .str uid)] userData))] })
      | _, _ => (s, failure 400 "Name and role are required")

/-- One round of the loop of `POST /auth/init-demo` for the demo user `(email, name,
role)`; `t` is the value of `new Date()`. -/
def initDemoUser (ap : AuthProvider) (t : Int) (email name role : String) (s : Store) :
    Store × JsVal :=
  match ap.createUser email with
  | .record uid =>
    ({ s with users := setDoc uid [("name", .str name), ("role", .str role),
                                    ("email", .str email), ("createdAt", .date t)] s.users },
     .obj [("email", .str email), ("role", .str role), ("status", .str "created")])
  | .error code message =>
    if code = "auth/email-already-exists" then
      (s, .obj [("email", .str email), ("role", .str role), ("status", .str "already exists")])
    else
      match message with
      | some m =>
        (s, .obj [("email", .str email), ("role", .str role), ("status", .str "error"),
                  ("error", m)])
      | none =>
        (s, .obj [("email", .str email), ("role", .str role), ("status", .str "error")])

/-- Route `POST /auth/init-demo`. -/
def initDemo (env : Env) (ap : AuthProvider) (s : Store) : Store × Response :=
  let r1 := initDemoUser ap env.t0 "doctor@clinic.com" "Dr. John Smith" "doctor" s
  let r2 := initDemoUser ap env.t1 "receptionist@clinic.com" "Sarah Johnson" "receptionist" r1.1
  (r2.1, { status := 200,
           body := [("success", .bool true),
                    ("message", .str "Demo users initialization completed"),
                    ("results", .arr [r1.2, r2.2])] })

/-! ## Catch-all error handler (`middleware/errorHandler.js`) -/

/-- The test `err.code && err.code.startsWith('auth/')`; `none` is the `TypeError`
raised when `code` is truthy and not a string. -/
def authCode : Option JsVal → Option Bool
  | some (.str c) => some ("auth/".data.isPrefixOf c.data)
  | v => if truthy v then none else some false

/-- The test `err.code === 11000`. -/
def isDuplicateKey : Option JsVal → Bool
  | some (.num q) => decide (q = 11000)
  | _ => false

/-- The object `{ success: false, error: error.message, ...(development &&
{ stack: err.stack }) }`; a `stack` that is `undefined` is not serialised. -/
def errorBody (development : Bool) (message : JsVal) (err : Fields) : Fields :=
  let stack : Fields :=
    if development then
      match getField "stack" err with
      | some st => [("stack", st)]
      | none => []
    else []
  [("success", .bool false), ("error", message)] ++ stack

/-- Model of `errorHandler(err, req, res, next)` on the properties of `err`;
`development` is `process.env.NODE_ENV === 'development'`, and `httpStatus v` is the
status code the HTTP layer sends for `res.status(v)`, `none` when it refuses `v`. The
result is `none` when the handler itself raises. The branch for `err.name ===
'ValidationError'` evaluates `Object.values(err.errors).map(val => val.message)`,
which raises when `errors` is nullish or holds a nullish value; its `details` are not
part of the response. -/
def errorHandler (httpStatus : JsVal → Option Nat) (development : Bool) (err : Fields) :
    Option Response :=
  let statusCode := (jsOr (getField "statusCode" err) (some (.num 500))).getD (.num 500)
  let message :=
    (jsOr (getField "message" err) (some (.str "Internal Server Error"))).getD (.str "")
  match authCode (getField "code" err) with
  | none => none
  | some isAuth =>
    let statusCode := if isAuth then .num 401 else statusCode
    let message := if isAuth then .str "Authentication error" else message
    let validation := isStr "ValidationError" (getField "name" err)
    let errorsOk : Bool :=
      match getField "errors" err with
      | none => false
      | some .null => false
      | some (.obj es) => es.all (fun e => match e.2 with | .null => false | _ => true)
      | some (.arr es) => es.all (fun e => match e with | .null => false | _ => true)
      | some _ => true
    if validation && !errorsOk then none
    else
      let statusCode := if validation then .num 400 else statusCode
      let message := if validation then .str "Validation Error" else message
      let duplicate := isDuplicateKey (getField "code" err)
      let statusCode := if duplicate then .num 400 else statusCode
      let message := if duplicate then .str "Duplicate field value entered" else message
      let cast := isStr "CastError" (getField "name" err)
      let statusCode := if cast then .num 400 else statusCode
      let message := if cast then .str "Resource not found" else message
      match httpStatus statusCode with
      | none => none
      | some code => some { status := code, body := errorBody development message err }

/-! ## The route handlers together -/

/-- One call of a route handler of the backend, past the authorization middleware and
the role guard of its route: the handler and what it reads from the request and from
its surroundings. -/
inductive HandlerCall where
  | createBill (env : Env) (user : Option Principal) (body : Fields)
  | updateBillStatus (env : Env) (user : Option Principal) (id : String) (body : Fields)
  | updateBill (env : Env) (user : Option Principal) (id : String) (body : Fields)
  | deleteBill (id : String)
  | listBills (rt : Runtime) (patientId status : Option String)
  | getBill (id : String)
  | listBillsForPatient (rt : Runtime) (concat : List JsVal → String) (patientId : String)
  | billStats (rt : Runtime)
  | createPrescription (env : Env) (user : Option Principal) (body : Fields)
  | updatePrescription (env : Env) (user : Option Principal) (id : String) (body : Fields)
  | deletePrescription (user : Option Principal) (id : String)
  | getPrescription (user : Option Principal) (id : String)
  | listPrescriptions (rt : Runtime) (user : Option Principal)
      (patientId doctorId : Option String)
  | listPrescriptionsForPatient (rt : Runtime) (user : Option Principal) (patientId : String)
  | registerPatient (env : Env) (rt : Runtime) (user : Option Principal) (body : Fields)
  | regenerateToken (env : Env) (rt : Runtime) (id : String)
  | updatePatient (env : Env) (rt : Runtime) (id : String) (body : Fields)
  | listPatients (rt : Runtime)
  | getPatient (id : String)
  | searchPatients (rt : Runtime) (query : String)
  | verifyToken (ap : AuthProvider) (authHeader : Option String)
  | createProfile (env : Env) (ap : AuthProvider) (authHeader : Option String) (body : Fields)
  | initDemo (env : Env) (ap : AuthProvider)

/-- The response of a handler call on a store. -/
def HandlerCall.response : HandlerCall → Store → Response
  | .createBill env user body, s => (createBillHandler env user body s).2
  | .updateBillStatus env user id body, s => (updateStatusHandler env user id body s).2
  | .updateBill env user id body, s => (updateBillHandler env user id body s).2
  | .deleteBill id, s => (deleteBillHandler id s).2
  | .listBills rt patientId status, s => Clinic.listBills rt patientId status s
  | .getBill id, s => Clinic.getBill id s
  | .listBillsForPatient rt concat patientId, s =>
    Clinic.listBillsForPatient rt concat patientId s
  | .billStats rt, s => Clinic.billStats rt s
  | .createPrescription env user body, s => (createPrescriptionHandler env user body s).2
  | .updatePrescription env user id body, s =>
    (updatePrescriptionHandler env user id body s).2
  | .deletePrescription user id, s => (deletePrescriptionHandler user id s).2
  | .getPrescription user id, s => Clinic.getPrescription user id s
  | .listPrescriptions rt user patientId doctorId, s =>
    Clinic.listPrescriptions rt user patientId doctorId s
  | .listPrescriptionsForPatient rt user patientId, s =>
    Clinic.listPrescriptionsForPatient rt user patientId s
  | .registerPatient env rt user body, s => (registerPatientHandler env rt user body s).2
  | .regenerateToken env rt id, s => (regenerateTokenHandler env rt id s).2
  | .updatePatient env rt id body, s => (Clinic.updatePatient env rt id body s).2
  | .listPatients rt, s => Clinic.listPatients rt s
  | .getPatient id, s => Clinic.getPatient id s
  | .searchPatients rt query, s => Clinic.searchPatients rt query s
  | .verifyToken ap authHeader, s => Clinic.verifyToken ap authHeader s
  | .createProfile env ap authHeader body, s =>
    (Clinic.createProfile env ap authHeader body s).2
  | .initDemo env ap, s => (Clinic.initDemo env ap s).2

/-! ## Statement vocabulary: tokens, statistics, search -/

/-- The part of a token after `PAT-<one or more decimal digits>-`, when the token has
that form and the part is made of characters from `0-9A-Z`. -/
def tokenSuffix (token : String) : Option (List Char) :=
  match token.data with
  | 'P' :: 'A' :: 'T' :: '-' :: rest =>
    match rest.takeWhile Char.isDigit, rest.dropWhile Char.isDigit with
    | _ :: _, '-' :: suffix =>
      if suffix.all (fun c => c.isDigit || c.isUpper) then some suffix else none
    | _, _ => none
  | _ => none

/-- The pattern `PAT-<one or more decimal digits>-<exactly 9 characters from 0-9A-Z>`. -/
def matchesTokenPattern (token : String) : Bool :=
  match tokenSuffix token with
  | some suffix => suffix.length == 9
  | none => false

/-- The stored bill has a number as `totalAmount`. -/
def NumericTotal (bill : Fields) : Prop := ∃ x, getField "totalAmount" bill = some (.num x)

/-- The stored bills whose `status` is the string `st`. -/
def billsWithStatus (st : String) (bills : Collection) : Collection :=
  bills.filter (fun p => isStr st (getField "status" p.2))

/-- The stored bills whose `status` is anything but the string `st`. -/
def billsWithoutStatus (st : String) (bills : Collection) : Collection :=
  bills.filter (fun p => !isStr st (getField "status" p.2))

/-- Field `key` of the object `data` of a response. -/
def dataField (key : String) (r : Response) : Option JsVal :=
  match getField "data" r.body with
  | some (.obj fs) => getField key fs
  | _ => none

/-- The string `t` occurs in the string `s`. -/
def Occurs (t s : String) : Prop := t.data <:+: s.data

/-- Field `key` of the document is a string in which `t` occurs once both are put in
lower case. -/
def OccursLowered (rt : Runtime) (t : String) (key : String) (doc : Fields) : Prop :=
  ∃ x, getField key doc = some (.str x) ∧ Occurs (rt.toLowerCase t) (rt.toLowerCase x)

/-- Field `key` of the document is absent or a string. -/
def TextOrAbsent (key : String) (doc : Fields) : Prop :=
  getField key doc = none ∨ ∃ x, getField key doc = some (.str x)

/-- The response carries `success: false` and a `message`. -/
def FailureShaped (r : Response) : Prop :=
  getField "success" r.body = some (.bool false) ∧ ∃ m, getField "message" r.body = some (.str m)

/-! ## Sample data for the remaining routes -/

/-- A runtime whose random draw is one half: `(0.5).toString(36)` is `'0.i'`. -/
def rtHalf : Runtime := { rt0 with random36 := "0.i" }

/-- An identity provider that knows the token `tok-rita`. -/
def ap0 : AuthProvider :=
  { verifyIdToken := fun t =>
      if t = "tok-rita" then .decoded "u1" (some "rita@clinic.test")
      else .rejected "auth/argument-error",
    createUser := fun _ => .error "auth/email-already-exists" none }

/-- The HTTP layer's reading of a status code: an integer from 100 to 999. -/
def statusOf : JsVal → Option Nat
  | .num q => if q.den = 1 ∧ 100 ≤ q.num ∧ q.num ≤ 999 then some q.num.toNat else none
  | _ => none

/-- A patch of a patient that carries the four protected keys. -/
def bodyOverwrite : Fields :=
  [("name", .str "Mallory"), ("token", .str "PAT-0-STOLEN000"), ("createdAt", .num 0),
   ("registeredBy", .str "u9"), ("id", .str "p7")]

/-- The digits `Number.prototype.toString(36)` writes. -/
def base36Digits : List Char := "0123456789abcdefghijklmnopqrstuvwxyz".data

/-- A registration of a patient whose email is not in the store. -/
def bodyNewPatient : Fields :=
  [("name", .str "Bob Roe"), ("email", .str "bob@x.com"), ("phone", .str "555-0142"),
   ("address", .str "3 Hill Rd"), ("dateOfBirth", .str "1990-01-01")]

/-- A bill document with the given status and total. -/
def billOf (status : String) (total : ℚ) : Fields :=
  [("patientId", .str "p1"), ("totalAmount", .num total), ("status", .str status)]

/-- A store with a paid bill of 50, a pending bill of 30 and an archived bill of 40. -/
def storeThreeBills : Store :=
  { store0 with
    bills := [("b1", billOf "paid" 50), ("b2", billOf "pending" 30),
              ("b3", billOf "archived" 40)] }

/-- Field `key` of the document is a string in which `t`, put in lower case, occurs. -/
def OccursStored (rt : Runtime) (t : String) (key : String) (doc : Fields) : Prop :=
  ∃ x, getField key doc = some (.str x) ∧ Occurs (rt.toLowerCase t) x

/-- The patient document is found by the search for `t`. -/
def SearchHit (rt : Runtime) (t : String) (doc : Fields) : Prop :=
  OccursLowered rt t "name" doc ∨ OccursLowered rt t "email" doc ∨
    OccursStored rt t "phone" doc ∨ OccursLowered rt t "token" doc

/-- The stored value of field `key` of the profile of user `uid`. -/
def userField (key uid : String) (s : Store) : Option JsVal :=
  (getDoc uid s.users).bind (getField key)

/-- A store holding the profile of the receptionist `u1`. -/
def storeProfile : Store :=
  { store0 with
    users := [("u1", [("name", .str "Rita"), ("role", .str "receptionist"),
      ("email", .str "rita@clinic.test"), ("createdAt", .date 5)])] }

/-- A profile request naming the role `doctor`. -/
def bodyDoctor : Fields := [("name", .str "Rita"), ("role", .str "doctor")]

/-- A store whose one patient has letters in the phone number. -/
def storeCall : Store :=
  { users := [], prescriptions := [], bills := [],
    patients := [("p1", [("name", .str "Jane Doe"), ("email", .str "jane@x.com"),
      ("phone", .str "555-CALL"), ("address", .str "1 Main St"),
      ("dateOfBirth", .date 631152000000), ("token", .str "PAT-1-AAAAAAAAA"),
      ("registeredBy", .str "u1"), ("createdAt", .date 10), ("updatedAt", .date 10)])] }

/-- A client error or server error status used by the backend. -/
def isFailureStatus (code : Nat) : Bool :=
  code == 400 || code == 401 || code == 403 || code == 404 || code == 500

/-- The response is a success (200 or 201), or a failure that carries `success: false`
and a `message`. -/
def Shaped (r : Response) : Prop :=
  r.status = 200 ∨ r.status = 201 ∨ (isFailureStatus r.status = true ∧ FailureShaped r)

/-- Two items priced in whole cents. -/
def twoItems : List JsVal :=
  [.obj [("description", .str "Consult"), ("amount", .num 50)],
   .obj [("description", .str "Lab"), ("amount", .num 30)]]

/-- A patch of a bill carrying the two items. -/
def bodyTwoItems : Fields := [("items", .arr twoItems)]

/-- The body of a request refused by the JSON body parser, as the catch-all error
handler receives it. -/
def parseError : Fields :=
  [("statusCode", .num 400), ("message", .str "Unexpected end of JSON input"),
   ("type", .str "entity.parse.failed")]

/-! ## Floating-point numbers

A JavaScript number is an IEEE 754 binary64 value. A number is modelled by the rational
it denotes; a request body carries, for a decimal literal, the binary64 number nearest
to it. The operators `+`, `-` and `/` return the binary64 number nearest to the exact
result, and `parseFloat(x.toFixed(2))` is the binary64 number nearest to the decimal
`toFixed2 x`. The infinities and `NaN` are not numbers of the model: `Arith.finite`
tells whether a rounded result is within the range of binary64; the statistics turn a
sum beyond it into the accumulator state `nan`, and what is stated about a stored
number is stated for sums within the range. -/

/-- Rounding of a non-negative rational to the nearest integer, a tie going to the even
one. -/
def roundHalfEven (x : ℚ) : ℤ :=
  let f := ⌊x⌋
  let r := x - f
  if r < 1 / 2 then f
  else if 1 / 2 < r then f + 1
  else if f % 2 = 0 then f else f + 1

/-- The spacing of the binary64 numbers around `x > 0`, searched from the spacing `u`
of the numbers in `[1, 2)`: it doubles with every halving of `x` down to `[1, 2)` and
halves with every doubling of `x` up to `[1, 2)`, and is never less than the spacing
`2 ^ (-1074)` of the subnormal numbers. -/
def spacing : Nat → ℚ → ℚ → ℚ
  | 0, _, u => u
  | fuel + 1, x, u =>
    if 2 ≤ x then spacing fuel (x / 2) (u * 2)
    else if x < 1 ∧ 1 / 2 ^ 1074 < u then spacing fuel (x * 2) (u / 2)
    else u

/-- The binary64 number nearest to the real `x`, a tie going to the even significand:
the rounding of IEEE 754 arithmetic, with the exponent unbounded above. -/
def roundDouble (x : ℚ) : ℚ :=
  if x = 0 then 0
  else
    let u := spacing 2200 |x| (1 / 2 ^ 52)
    if x < 0 then -((roundHalfEven (-x / u) : ℚ) * u) else (roundHalfEven (x / u) : ℚ) * u

/-- A number system: `round x` is the number nearest to the real `x`, and `finite x`
tells whether the rounded result `x` is a number of the system rather than an
infinity. -/
structure Arith where
  round : ℚ → ℚ
  finite : ℚ → Bool

/-- The arithmetic of the runtime: binary64, whose numbers are below `2 ^ 1024` in
magnitude. -/
def Arith.binary64 : Arith :=
  { round := roundDouble, finite := fun x => decide (|x| < 2 ^ 1024) }

/-- Exact decimal arithmetic: nothing is rounded and nothing overflows. -/
def Arith.exact : Arith := { round := fun x => x, finite := fun _ => true }

/-- The fold `items.reduce((sum, item) => sum + item.amount, 0)` in the arithmetic
`ar`. -/
def sumAmountsWith (ar : Arith) (items : List JsVal) : ℚ :=
  items.foldl (fun sum item => ar.round (sum + itemAmount item)) 0

/-- The callback `item => ({ description: item.description.trim(),
amount: parseFloat(item.amount.toFixed(2)) })` in the arithmetic `ar`; `none` is the
`TypeError` raised when `description` is not a string. -/
def normalizeItemWith (ar : Arith) : JsVal → Option JsVal
  | .obj fs =>
    match getField "description" fs, getField "amount" fs with
    | some (.str d), some (.num a) =>
      some (.obj [("description", .str (jsTrim d)), ("amount", .num (ar.round (toFixed2 a)))])
    | _, _ => none
  | _ => none

/-- The call `items.map(...)` with the callback `normalizeItemWith`. -/
def normalizeItemsWith (ar : Arith) : List JsVal → Option (List JsVal)
  | [] => some []
  | item :: rest =>
    match normalizeItemWith ar item, normalizeItemsWith ar rest with
    | some i, some is => some (i :: is)
    | _, _ => none

/-- The test `totalAmount && Math.abs(totalAmount - calculatedTotal) > 0.01` in the
arithmetic `ar`: the difference is rounded and compared with the number written
`0.01`; `none` when the coercion of `totalAmount` raises. -/
def totalMismatchWith (ar : Arith) (env : Env) (totalAmount : Option JsVal)
    (calculatedTotal : ℚ) : Option Bool :=
  match totalAmount with
  | none => some false
  | some v =>
    if truthy (some v) then
      match toNumber env v with
      | .number x => some (decide (|ar.round (x - calculatedTotal)| > ar.round (1 / 100)))
      | .nan => some false
      | .raises => none
    else some false

/-- The object `billData` persisted by `POST /bills`, in the arithmetic `ar`. -/
def billDataWith (ar : Arith) (env : Env) (u : Principal) (pid : String) (name : JsVal)
    (stored : List JsVal) (calculatedTotal : ℚ) : Fields :=
  [("patientId", .str pid),
   ("patientName", name),
   ("items", .arr stored),
   ("totalAmount", .num (ar.round (toFixed2 calculatedTotal))),
   ("status", .str "pending"),
   ("createdBy", .str u.uid),
   ("createdByName", .str u.name),
   ("createdAt", .date env.t0),
   ("updatedAt", .date env.t1)]

/-- Handler of `POST /bills` (the `try` block and its `catch`), computing in the
arithmetic `ar`. -/
def createBillHandlerWith (ar : Arith) (env : Env) (user : Option Principal) (body : Fields)
    (s : Store) : Store × Response :=
  let patientId := getField "patientId" body
  let patientName := getField "patientName" body
  let items := getField "items" body
  let totalAmount := getField "totalAmount" body
  if !truthy patientId || !truthy items || !isArray items || (elems items).length == 0 then
    (s, failure 400 "Patient ID and items are required")
  else
    match patientId with
    | some (.str pid) =>
      match getDoc pid s.patients with
      | none => (s, failure 404 "Patient not found")
      | some patientDoc =>
        match validateItems (elems items) with
        | .raise => (s, failure 500 "Failed to create bill")
        | .reject => (s, failure 400 "Each item must have a description and positive amount")
        | .pass =>
          let calculatedTotal := sumAmountsWith ar (elems items)
          match totalMismatchWith ar env totalAmount calculatedTotal with
          | none => (s, failure 500 "Failed to create bill")
          | some true => (s, failure 400 "Total amount does not match sum of items")
          | some false =>
            match jsOr patientName (getField "name" patientDoc),
                  normalizeItemsWith ar (elems items), user with
            | some name, some stored, some u =>
              let billData := billDataWith ar env u pid name stored calculatedTotal
              match getDoc env.newId s.bills with
              | some _ => (s, failure 500 "Failed to create bill")
              | none =>
                ({ s with bills := s.bills ++ [(env.newId, billData)] },
                 { status := 201,
                   body := [("success", .bool true),
                            ("message", .str "Bill created successfully"),
                            ("data", .obj (mergeFields [("id", .str env.newId)] billData))] })
            | _, _, _ => (s, failure 500 "Failed to create bill")
    | _ => (s, failure 500 "Failed to create bill")

/-- Handler of `PUT /bills/:id`, computing in the arithmetic `ar`. -/
def updateBillHandlerWith (ar : Arith) (env : Env) (user : Option Principal) (id : String)
    (body : Fields) (s : Store) : Store × Response :=
  match getDoc id s.bills with
  | none => (s, failure 404 "Bill not found")
  | some billDoc =>
    if isStr "paid" (getField "status" billDoc) then
      (s, failure 400 "Cannot update paid bills")
    else
      let updates := stripProtected body
      let items := getField "items" updates
      if truthy items then
        if !isArray items || (elems items).length == 0 then
          (s, failure 400 "Items must be a non-empty array")
        else
          match validateItems (elems items) with
          | .raise => (s, failure 500 "Failed to update bill")
          | .reject =>
            (s, failure 400 "Each item must have a description and positive amount")
          | .pass =>
            match normalizeItemsWith ar (elems items) with
            | none => (s, failure 500 "Failed to update bill")
            | some stored =>
              let updates := setField "items" (.arr stored) updates
              let updates :=
                setField "totalAmount"
                  (.num (ar.round (toFixed2 (sumAmountsWith ar stored)))) updates
              finishUpdate env user id updates s
      else finishUpdate env user id updates s

/-- Route `POST /bills` in the arithmetic `ar`: `requireRole('receptionist')`, then the
handler. -/
def createBillWith (ar : Arith) (env : Env) (user : Option Principal) (body : Fields)
    (s : Store) : Store × Response :=
  guarded "receptionist" user (createBillHandlerWith ar env user body) s

/-- Route `PUT /bills/:id` in the arithmetic `ar`. -/
def updateBillWith (ar : Arith) (env : Env) (user : Option Principal) (id : String)
    (body : Fields) (s : Store) : Store × Response :=
  guarded "receptionist" user (updateBillHandlerWith ar env user id body) s

/-- The accumulator holding the sum `r` once rounded: a number, or (`nan`) an infinity
when the sum leaves the range. -/
def Acc.ofSum (ar : Arith) (r : ℚ) : Acc :=
  if ar.finite (ar.round r) then .num (ar.round r) else .nan

/-- The step `sum + v` (`sum += v`) in the arithmetic `ar`, with `v` a property value
(`none` is `undefined`). The state `nan` stands for `NaN` and for the infinities: each
stays one of them when a number is added, and each is serialised as `null`. -/
def Acc.addWith (ar : Arith) (rt : Runtime) : Acc → Option JsVal → Acc
  | .raised, _ => .raised
  | .text, some (.arr xs) => if rt.toPrimitiveRaises (.arr xs) then .raised else .text
  | .text, some (.obj fs) => if rt.toPrimitiveRaises (.obj fs) then .raised else .text
  | .text, _ => .text
  | .num q, some (.num x) => Acc.ofSum ar (q + x)
  | .num q, some .null => .num q
  | .num q, some (.bool b) => Acc.ofSum ar (q + if b then 1 else 0)
  | .num _, none => .nan
  | .nan, some (.num _) => .nan
  | .nan, some .null => .nan
  | .nan, some (.bool _) => .nan
  | .nan, none => .nan
  | _, some (.str _) => .text
  | _, some (.date _) => .text
  | _, some (.arr xs) => if rt.toPrimitiveRaises (.arr xs) then .raised else .text
  | _, some (.obj fs) => if rt.toPrimitiveRaises (.obj fs) then .raised else .text

/-- The running sum of `totalAmount` over a list of stored bills, from 0, in the
arithmetic `ar`. -/
def accTotals (ar : Arith) (rt : Runtime) (bills : Collection) : Acc :=
  bills.foldl (fun sum p => Acc.addWith ar rt sum (getField "totalAmount" p.2)) (.num 0)

/-- The body of `billsSnapshot.forEach(doc => { ... })` in the arithmetic `ar`: a bill
whose status is `'paid'` counts as paid, every other bill as pending. -/
def tallyBillWith (ar : Arith) (rt : Runtime) (t : Tally) (bill : Fields) : Tally :=
  if isStr "paid" (getField "status" bill) then
    { t with totalBills := t.totalBills + 1,
             totalRevenue := Acc.addWith ar rt t.totalRevenue (getField "totalAmount" bill),
             paidBills := t.paidBills + 1 }
  else
    { t with totalBills := t.totalBills + 1,
             pendingAmount := Acc.addWith ar rt t.pendingAmount (getField "totalAmount" bill),
             pendingBills := t.pendingBills + 1 }

/-- The counters after the scan of the whole collection, in the arithmetic `ar`. -/
def tallyBillsWith (ar : Arith) (rt : Runtime) (bills : Collection) : Tally :=
  bills.foldl (fun t p => tallyBillWith ar rt t p.2)
    { totalRevenue := .num 0, pendingAmount := .num 0, totalBills := 0, paidBills := 0,
      pendingBills := 0 }

/-- The expression `parseFloat(x.toFixed(2))` on an accumulator, in the arithmetic
`ar`; `none` is the `TypeError` raised when the accumulator holds a string (or the fold
had raised), and `NaN` and the infinities are serialised as `null`. -/
def Acc.roundedWith (ar : Arith) : Acc → Option JsVal
  | .num q => some (.num (ar.round (toFixed2 q)))
  | .nan => some .null
  | _ => none

/-- The quotient `x / n` in the arithmetic `ar`; `none` when `n` is 0, where the
quotient is `NaN` or infinite, not a number. -/
def jsDivideWith (ar : Arith) (x : ℚ) (n : Nat) : Option ℚ :=
  if n = 0 then none else some (ar.round (x / n))

/-- The expression `totalBills > 0 ? parseFloat(((totalRevenue + pendingAmount) /
totalBills).toFixed(2)) : 0` in the arithmetic `ar`, for two accumulators that hold no
string. -/
def averageBillAmountWith (ar : Arith) (t : Tally) : JsVal :=
  if t.totalBills > 0 then
    match t.totalRevenue, t.pendingAmount with
    | .num r, .num p =>
      match Acc.ofSum ar (r + p) with
      | .num sum =>
        match jsDivideWith ar sum t.totalBills with
        | some q => .num (ar.round (toFixed2 q))
        | none => .null
      | _ => .null
    | _, _ => .null
  else .num 0

/-- Route `GET /bills/stats/summary`, computing in the arithmetic `ar`. -/
def billStatsWith (ar : Arith) (rt : Runtime) (s : Store) : Response :=
  let t := tallyBillsWith ar rt s.bills
  match t.totalRevenue.roundedWith ar, t.pendingAmount.roundedWith ar with
  | some totalRevenue, some pendingAmount =>
    { status := 200,
      body := [("success", .bool true),
               ("data", .obj [("totalRevenue", totalRevenue),
                              ("pendingAmount", pendingAmount),
                              ("totalBills", .num t.totalBills),
                              ("paidBills", .num t.paidBills),
                              ("pendingBills", .num t.pendingBills),
                              ("averageBillAmount", averageBillAmountWith ar t)])] }
  | _, _ => failure 500 "Failed to fetch billing statistics"

/-- The stored form `i` of a submitted item in the arithmetic `ar`: its description
trimmed, its amount `parseFloat(amount.toFixed(2))`, nothing else. -/
def StoredAsWith (ar : Arith) (item i : JsVal) : Prop :=
  ∃ fs d a, item = .obj fs ∧ getField "description" fs = some (.str d) ∧
    getField "amount" fs = some (.num a) ∧
    i = .obj [("description", .str (jsTrim d)), ("amount", .num (ar.round (toFixed2 a)))]

/-! ## Sample data in binary64

Each constant is the binary64 number nearest to the decimal in its name. -/

/-- The number written `0.004`. -/
def num0004 : ℚ := 1152921504606847 / 2 ^ 58

/-- The number written `0.005`. -/
def num0005 : ℚ := 5764607523034235 / 2 ^ 60

/-- The number written `0.01`. -/
def num001 : ℚ := 5764607523034235 / 2 ^ 59

/-- The number written `0.014`. -/
def num0014 : ℚ := 8070450532247929 / 2 ^ 59

/-- The number written `0.04`. -/
def num004 : ℚ := 5764607523034235 / 2 ^ 57

/-- The number written `0.06`. -/
def num006 : ℚ := 1080863910568919 / 2 ^ 54

/-- The number written `1.005`. -/
def num1005 : ℚ := 1131529406376837 / 2 ^ 50

/-- A creation with items of 1 and 0.005 and a supplied total of 1.005. -/
def bodyHalfCent : Fields :=
  [("patientId", .str "p1"),
   ("items", .arr [.obj [("description", .str "Consult"), ("amount", .num 1)],
                   .obj [("description", .str "Fee"), ("amount", .num num0005)]]),
   ("totalAmount", .num num1005)]

/-- Four items of 0.014 each. -/
def fourItems : List JsVal :=
  [.obj [("description", .str "Swab"), ("amount", .num num0014)],
   .obj [("description", .str "Swab"), ("amount", .num num0014)],
   .obj [("description", .str "Swab"), ("amount", .num num0014)],
   .obj [("description", .str "Swab"), ("amount", .num num0014)]]

/-- A creation with the four items and no `totalAmount`. -/
def bodyFourItems : Fields := [("patientId", .str "p1"), ("items", .arr fourItems)]

/-- A patch with the four items. -/
def patchFourItems : Fields := [("items", .arr fourItems)]

/-- A creation whose one item has a description of blanks and an amount of 0.004. -/
def bodyBlankSubCent : Fields :=
  [("patientId", .str "p1"),
   ("items", .arr [.obj [("description", .str "   "), ("amount", .num num0004)]])]

/-- A patch with one item of 1.005 and a `totalAmount` of its own. -/
def patchOneItem : Fields :=
  [("items", .arr [.obj [("description", .str " X-ray "), ("amount", .num num1005)]]),
   ("totalAmount", .num 999)]

/-- The number an accumulator holds, if it holds one. -/
def Acc.numValue : Acc → Option ℚ
  | .num q => some q
  | _ => none

/-- A store with a paid bill of 2 and a pending bill of 0.01. -/
def storeTwoBills : Store :=
  { store0 with bills := [("b1", billOf "paid" 2), ("b2", billOf "pending" num001)] }

/-- A patch that sets `totalAmount` to a string. -/
def patchTextTotal : Fields := [("totalAmount", .str "12")]

end Clinic

/-! # Properties -/

namespace Clinic

/-! ## Keyed lists -/

theorem assocGet_assocSet {β : Type} (k k' : String) (v : β) (l : List (String × β)) :
    assocGet k' (assocSet k v l) = if k = k' then some v else assocGet k' l := by
  induction l with
  | nil => simp [assocSet, assocGet]
  | cons p rest ih =>
    obtain ⟨k0, v0⟩ := p
    by_cases h0 : k0 = k
    · subst h0
      by_cases h1 : k0 = k' <;> simp [assocSet, assocGet, h1]
    · by_cases h1 : k0 = k'
      · subst h1
        have h2 : ¬ k = k0 := fun h => h0 h.symm
        simp [assocSet, assocGet, h0, h2]
      · simp [assocSet, assocGet, h0, h1, ih]

theorem assocGet_assocErase {β : Type} (k k' : String) (l : List (String × β)) :
    assocGet k' (assocErase k l) = if k = k' then none else assocGet k' l := by
  induction l with
  | nil => simp [assocErase, assocGet]
  | cons p rest ih =>
    obtain ⟨k0, v0⟩ := p
    by_cases h0 : k0 = k
    · subst h0
      by_cases h1 : k0 = k'
      · subst h1
        simpa [assocErase, assocGet] using ih
      · simp [assocErase, assocGet, h1, ih]
    · by_cases h1 : k0 = k'
      · subst h1
        have h2 : ¬ k = k0 := fun h => h0 h.symm
        simp [assocErase, assocGet, h0, h2]
      · simp [assocErase, assocGet, h0, h1, ih]

theorem assocGet_append {β : Type} (k : String) (l l' : List (String × β)) :
    assocGet k (l ++ l') = (assocGet k l).orElse (fun _ => assocGet k l') := by
  induction l with
  | nil => simp [assocGet]
  | cons p rest ih =>
    obtain ⟨k0, v0⟩ := p
    by_cases h0 : k0 = k <;> simp [assocGet, h0, ih]

theorem getField_mergeFields (k : String) (a b : Fields) :
    getField k (mergeFields a b) = (getField k b).orElse (fun _ => getField k a) := by
  induction b with
  | nil => simp [mergeFields, getField, assocGet]
  | cons p rest ih =>
    obtain ⟨k0, v0⟩ := p
    simp only [mergeFields, getField, setField] at ih ⊢
    rw [assocGet_assocSet]
    by_cases h0 : k0 = k <;> simp [assocGet, h0, ih]

theorem getDoc_updateDoc (id id' : String) (patch : Fields) (c : Collection) :
    getDoc id' (updateDoc id patch c) =
      if id = id' then (getDoc id c).map (fun d => mergeFields d patch) else getDoc id' c := by
  unfold updateDoc getDoc
  cases h : assocGet id c with
  | none =>
    by_cases h0 : id = id'
    · subst h0; simp [h]
    · simp [h0]
  | some d =>
    simp only [assocGet_assocSet]
    by_cases h0 : id = id' <;> simp [h0]

/-! ## Paid bills are closed to update and delete -/

theorem isStr_of_eq (t : String) (v : Option JsVal) (h : v = some (.str t)) :
    isStr t v = true := by
  subst h; simp [isStr]

theorem eq_of_isStr (t : String) (v : Option JsVal) (h : isStr t v = true) :
    v = some (.str t) := by
  unfold isStr at h
  split at h
  · simp at h; subst h; rfl
  · simp at h

/-- C1: for every store and every bill whose stored status is `'paid'`, a
receptionist's `PUT /bills/:id` (with any patch) and `DELETE /bills/:id` both answer
400 and return the store as it was. -/
theorem paid_bill_update_delete_rejected (env : Env) (u : Principal) (id : String)
    (body bill : Fields) (s : Store)
    (hrole : u.role = "receptionist")
    (hbill : getDoc id s.bills = some bill)
    (hpaid : getField "status" bill = some (.str "paid")) :
    (updateBill env (some u) id body s).2.status = 400 ∧
    (updateBill env (some u) id body s).1 = s ∧
    (deleteBill (some u) id s).2.status = 400 ∧
    (deleteBill (some u) id s).1 = s := by
  have hp := isStr_of_eq "paid" _ hpaid
  simp [updateBill, deleteBill, guarded, requireRole, hrole, updateBillHandler,
    deleteBillHandler, hbill, hp, failure]

theorem paid_bill_update_delete_rejected_witness :
    (updateBill env0 (some rita) "b1" [("totalAmount", .num 1)] storePaid).2.status = 400 ∧
    (updateBill env0 (some rita) "b1" [("totalAmount", .num 1)] storePaid).1 = storePaid ∧
    (deleteBill (some rita) "b1" storePaid).2.status = 400 ∧
    (deleteBill (some rita) "b1" storePaid).1 = storePaid :=
  paid_bill_update_delete_rejected env0 rita "b1" [("totalAmount", .num 1)]
    [("patientId", .str "p1"), ("patientName", .str "Jane Doe"),
      ("items", .arr [.obj [("description", .str "Consult"), ("amount", .num 50)]]),
      ("totalAmount", .num 50), ("status", .str "paid"), ("createdBy", .str "u1"),
      ("createdByName", .str "Rita"), ("createdAt", .date 10), ("updatedAt", .date 20),
      ("paidAt", .date 21)] storePaid rfl rfl rfl

/-! ## What each handler does to the store -/

/-- The handler of `POST /bills` either leaves the store as it is and does not answer
201, or passes every check and appends one new bill under the generated id. -/
theorem createBillHandler_spec (env : Env) (user : Option Principal) (body : Fields)
    (s : Store) :
    ((createBillHandler env user body s).1 = s ∧
      (createBillHandler env user body s).2.status ≠ 201) ∨
    ∃ pid patientDoc items name stored u,
      getField "patientId" body = some (.str pid) ∧
      getField "items" body = some (.arr items) ∧
      items ≠ [] ∧
      getDoc pid s.patients = some patientDoc ∧
      validateItems items = .pass ∧
      totalMismatch env (getField "totalAmount" body) (sumAmounts items) = some false ∧
      jsOr (getField "patientName" body) (getField "name" patientDoc) = some name ∧
      normalizeItems items = some stored ∧
      user = some u ∧
      getDoc env.newId s.bills = none ∧
      (createBillHandler env user body s).2.status = 201 ∧
      (createBillHandler env user body s).1 =
        { s with bills := s.bills ++
          [(env.newId, billData env u pid name stored (sumAmounts items))] } := by
  unfold createBillHandler
  simp only []
  split
  · left; simp [failure]
  · rename_i hcond
    split
    · rename_i pid hpid
      split
      · left; simp [failure]
      · rename_i patientDoc hpat
        split
        · left; simp [failure]
        · left; simp [failure]
        · rename_i hval
          split
          · left; simp [failure]
          · left; simp [failure]
          · rename_i hmis
            split
            · rename_i name stored u hname hstored
              split
              · left; simp [failure]
              · rename_i hnew
                right
                cases hitems : getField "items" body with
                | none => simp [hitems, truthy] at hcond
                | some v =>
                  cases v with
                  | arr items =>
                    refine ⟨pid, patientDoc, items, name, stored, u, hpid, rfl, ?_, hpat, ?_, ?_,
                      hname, ?_, rfl, hnew, rfl, ?_⟩
                    · intro h; subst h; simp [hitems, elems] at hcond
                    · simpa [hitems, elems] using hval
                    · simpa [hitems, elems] using hmis
                    · simpa [hitems, elems] using hstored
                    · simp [hitems, elems]
                  | _ => simp [hitems, isArray] at hcond
            · left; simp [failure]
    · left; simp [failure]

/-- The store written by the handler of `PUT /bills/:id/status` once the status is
accepted, the bill exists and a user is attached. -/
theorem updateStatusHandler_store (env : Env) (u : Principal) (id st : String)
    (body billDoc : Fields) (s : Store)
    (hst : getField "status" body = some (.str st)) (hok : st = "pending" ∨ st = "paid")
    (hbill : getDoc id s.bills = some billDoc) :
    (updateStatusHandler env (some u) id body s).1 =
      { s with bills := updateDoc id (statusUpdateData env u st billDoc) s.bills } := by
  have hcond : (!truthy (getField "status" body) ||
      !(isStr "pending" (getField "status" body) || isStr "paid" (getField "status" body)))
      = false := by
    rw [hst]
    rcases hok with h | h <;> subst h <;> simp [isStr, truthy]
  rw [hst] at hcond
  unfold updateStatusHandler
  simp only [hst, hcond, hbill, Bool.false_eq_true, ↓reduceIte]
  split
  · rfl
  · split <;> rfl

/-- The handler of `PUT /bills/:id/status` either leaves the store as it is, or merges
its `updateData` into the addressed bill. -/
theorem updateStatusHandler_spec (env : Env) (user : Option Principal) (id : String)
    (body : Fields) (s : Store) :
    (updateStatusHandler env user id body s).1 = s ∨
    ∃ st u billDoc,
      getField "status" body = some (.str st) ∧ (st = "pending" ∨ st = "paid") ∧
      user = some u ∧ getDoc id s.bills = some billDoc ∧
      (updateStatusHandler env user id body s).1 =
        { s with bills := updateDoc id (statusUpdateData env u st billDoc) s.bills } := by
  cases hc : (!truthy (getField "status" body) ||
      !(isStr "pending" (getField "status" body) || isStr "paid" (getField "status" body)))
  case true =>
    left
    unfold updateStatusHandler
    simp only [hc, ↓reduceIte]
  case false =>
    cases hbill : getDoc id s.bills with
    | none =>
      left
      unfold updateStatusHandler
      simp only [hc, hbill, Bool.false_eq_true, ↓reduceIte]
    | some billDoc =>
      cases user with
      | none =>
        left
        unfold updateStatusHandler
        simp only [hc, hbill, Bool.false_eq_true, ↓reduceIte]
        split <;> first | rfl | simp_all
      | some u =>
        have hc' : isStr "pending" (getField "status" body) = true ∨
            isStr "paid" (getField "status" body) = true := by
          cases h1 : isStr "pending" (getField "status" body)
          · cases h2 : isStr "paid" (getField "status" body)
            · simp [h1, h2] at hc
            · exact Or.inr rfl
          · exact Or.inl rfl
        right
        rcases hc' with h | h
        · have hst := eq_of_isStr _ _ h
          exact ⟨"pending", u, billDoc, hst, Or.inl rfl, rfl, rfl,
            updateStatusHandler_store env u id "pending" body billDoc s hst (Or.inl rfl) hbill⟩
        · have hst := eq_of_isStr _ _ h
          exact ⟨"paid", u, billDoc, hst, Or.inr rfl, rfl, rfl,
            updateStatusHandler_store env u id "paid" body billDoc s hst (Or.inr rfl) hbill⟩

theorem finishUpdate_store (env : Env) (u : Principal) (id : String) (updates : Fields)
    (s : Store) :
    (finishUpdate env (some u) id updates s).1 =
      { s with bills := updateDoc id (stampUpdate env u updates) s.bills } := by
  unfold finishUpdate
  simp only []
  split
  · rfl
  · split <;> rfl

theorem finishUpdate_none (env : Env) (id : String) (updates : Fields) (s : Store) :
    (finishUpdate env none id updates s).1 = s := rfl

/-- The handler of `PUT /bills/:id` either leaves the store as it is, or merges a
stamped patch into a bill that is not paid: the stripped body when it carries no
truthy `items`, else the stripped body with normalised items and recomputed total. -/
theorem updateBillHandler_spec (env : Env) (user : Option Principal) (id : String)
    (body : Fields) (s : Store) :
    (updateBillHandler env user id body s).1 = s ∨
    ∃ billDoc u patch,
      getDoc id s.bills = some billDoc ∧
      isStr "paid" (getField "status" billDoc) = false ∧
      user = some u ∧
      ((truthy (getField "items" (stripProtected body)) = false ∧
          patch = stripProtected body) ∨
        ∃ items stored,
          getField "items" (stripProtected body) = some (.arr items) ∧ items ≠ [] ∧
          validateItems items = .pass ∧ normalizeItems items = some stored ∧
          patch = setField "totalAmount" (.num (toFixed2 (sumAmounts stored)))
            (setField "items" (.arr stored) (stripProtected body))) ∧
      (updateBillHandler env user id body s).1 =
        { s with bills := updateDoc id (stampUpdate env u patch) s.bills } := by
  cases user with
  | none =>
    left
    unfold updateBillHandler
    simp only []
    split
    · rfl
    · split
      · rfl
      · split
        · split
          · rfl
          · split
            · rfl
            · rfl
            · split
              · rfl
              · exact finishUpdate_none _ _ _ _
        · exact finishUpdate_none _ _ _ _
  | some u =>
    unfold updateBillHandler
    simp only []
    split
    · left; rfl
    · rename_i billDoc hbill
      split
      · left; rfl
      · rename_i hpaid
        have hpaid' : isStr "paid" (getField "status" billDoc) = false := by
          simpa using hpaid
        split
        · rename_i htruthy
          split
          · left; rfl
          · rename_i hcond
            split
            · left; rfl
            · left; rfl
            · rename_i hval
              split
              · left; rfl
              · rename_i stored hstored
                right
                cases hitems : getField "items" (stripProtected body) with
                | none => simp [hitems, truthy] at htruthy
                | some v =>
                  cases v with
                  | arr items =>
                    refine ⟨billDoc, u, _, hbill, hpaid', rfl, Or.inr ⟨items, stored, rfl, ?_, ?_,
                      ?_, rfl⟩, finishUpdate_store _ _ _ _ _⟩
                    · intro h; subst h; simp [hitems, elems] at hcond
                    · simpa [hitems, elems] using hval
                    · simpa [hitems, elems] using hstored
                  | _ => simp [hitems, isArray] at hcond
        · rename_i htruthy
          right
          exact ⟨billDoc, u, _, hbill, hpaid', rfl, Or.inl ⟨by simpa using htruthy, rfl⟩,
            finishUpdate_store _ _ _ _ _⟩

/-- The handler of `DELETE /bills/:id` either leaves the store as it is, or removes a
bill that is not paid. -/
theorem deleteBillHandler_spec (id : String) (s : Store) :
    (deleteBillHandler id s).1 = s ∨
    ∃ billDoc, getDoc id s.bills = some billDoc ∧
      isStr "paid" (getField "status" billDoc) = false ∧
      (deleteBillHandler id s).1 = { s with bills := deleteDoc id s.bills } := by
  unfold deleteBillHandler
  split
  · left; rfl
  · rename_i billDoc hbill
    split
    · left; rfl
    · rename_i hpaid
      right
      exact ⟨billDoc, hbill, by simpa using hpaid, rfl⟩

/-- A guarded route answers with the gate's response and leaves the store alone, or
runs its handler for a user who holds the required role. -/
theorem guarded_spec (role : String) (user : Option Principal)
    (handler : Store → Store × Response) (s : Store) :
    ((guarded role user handler s).1 = s ∧
      ((guarded role user handler s).2.status = 401 ∨
        (guarded role user handler s).2.status = 403)) ∨
    ((∃ u, user = some u ∧ u.role = role) ∧ guarded role user handler s = handler s) := by
  unfold guarded requireRole
  cases user with
  | none => left; simp
  | some u =>
    by_cases h : u.role = role
    · right; simp [h]
    · left; simp [h]

/-! ## Fields of a stored bill across one request -/

theorem billField_updateDoc (key id id' : String) (patch : Fields) (s : Store) :
    billField key id' { s with bills := updateDoc id patch s.bills } =
      if id = id' then
        (getDoc id s.bills).bind (fun d => (getField key patch).orElse (fun _ => getField key d))
      else billField key id' s := by
  unfold billField
  simp only [getDoc_updateDoc]
  by_cases h : id = id'
  · simp only [h, ↓reduceIte]
    cases getDoc id' s.bills <;> simp [getField_mergeFields]
  · simp only [h, ↓reduceIte]

theorem billField_append (key id newId : String) (d : Fields) (s : Store)
    (v : JsVal) (h : billField key id s = some v) :
    billField key id { s with bills := s.bills ++ [(newId, d)] } = some v := by
  unfold billField getDoc at *
  simp only [assocGet_append]
  cases hb : assocGet id s.bills with
  | none => simp [hb] at h
  | some b => simpa [hb] using h

theorem billField_deleteDoc (key id id' : String) (s : Store) (hne : id ≠ id') :
    billField key id' { s with bills := deleteDoc id s.bills } = billField key id' s := by
  unfold billField getDoc deleteDoc
  simp [assocGet_assocErase, hne]

theorem getField_statusUpdateData_status (env : Env) (u : Principal) (st : String)
    (billDoc : Fields) :
    getField "status" (statusUpdateData env u st billDoc) = some (.str st) := by
  unfold statusUpdateData
  simp only []
  split <;> simp [getField, setField, assocSet, assocGet]

theorem getField_statusUpdateData_paidAt (env : Env) (u : Principal) (st : String)
    (billDoc : Fields) :
    getField "paidAt" (statusUpdateData env u st billDoc) =
      if (decide (st = "paid") && !isStr "paid" (getField "status" billDoc)) = true then
        some (.date env.t1) else none := by
  unfold statusUpdateData
  simp only []
  split <;> simp [getField, setField, assocSet, assocGet]

theorem getField_stampUpdate (env : Env) (u : Principal) (key : String) (updates : Fields)
    (h1 : key ≠ "updatedAt") (h2 : key ≠ "updatedBy") (h3 : key ≠ "updatedByName") :
    getField key (stampUpdate env u updates) = getField key updates := by
  unfold stampUpdate getField setField
  simp [assocGet_assocSet, h1.symm, h2.symm, h3.symm]

theorem isStr_false_of_ne (t : String) (v : Option JsVal) (h : isStr t v = false) :
    v ≠ some (.str t) := by
  intro hv; subst hv; simp [isStr] at h

/-- Bill creation leaves every field of every existing bill as it was. -/
theorem createBill_billField (env : Env) (user : Option Principal) (body : Fields)
    (s : Store) (key id : String) (v : JsVal) (h : billField key id s = some v) :
    billField key id (createBill env user body s).1 = some v := by
  unfold createBill
  rcases guarded_spec "receptionist" user (createBillHandler env user body) s with hg | hg
  · rw [hg.1]; exact h
  · rw [hg.2]
    rcases createBillHandler_spec env user body s with hc | hc
    · rw [hc.1]; exact h
    · obtain ⟨pid, patientDoc, items, name, stored, u, -, -, -, -, -, -, -, -, -, -, -, hs⟩ := hc
      rw [hs]
      exact billField_append key id env.newId _ s v h

/-- Update and delete leave every field of a paid bill as it was. -/
theorem updateBill_billField_paid (env : Env) (user : Option Principal) (id' : String)
    (body : Fields) (s : Store) (key id : String)
    (hpaid : billField "status" id s = some (.str "paid")) :
    billField key id (updateBill env user id' body s).1 = billField key id s := by
  unfold updateBill
  rcases guarded_spec "receptionist" user (updateBillHandler env user id' body) s with hg | hg
  · rw [hg.1]
  · rw [hg.2]
    rcases updateBillHandler_spec env user id' body s with hc | hc
    · rw [hc]
    · obtain ⟨billDoc, u, patch, hbill, hnp, -, -, hs⟩ := hc
      rw [hs, billField_updateDoc]
      by_cases hid : id' = id
      · subst hid
        exfalso
        apply isStr_false_of_ne _ _ hnp
        simpa [billField, hbill] using hpaid
      · simp [hid]

theorem deleteBill_billField_paid (user : Option Principal) (id' : String)
    (s : Store) (key id : String)
    (hpaid : billField "status" id s = some (.str "paid")) :
    billField key id (deleteBill user id' s).1 = billField key id s := by
  unfold deleteBill
  rcases guarded_spec "receptionist" user (deleteBillHandler id') s with hg | hg
  · rw [hg.1]
  · rw [hg.2]
    rcases deleteBillHandler_spec id' s with hc | hc
    · rw [hc]
    · obtain ⟨billDoc, hbill, hnp, hs⟩ := hc
      rw [hs]
      by_cases hid : id' = id
      · subst hid
        exfalso
        apply isStr_false_of_ne _ _ hnp
        simpa [billField, hbill] using hpaid
      · exact billField_deleteDoc key id' id s hid

/-! ## C2: leaving the status `paid` -/

/-- The status of a paid bill after a request to `PUT /bills/:id/status`: it is the
requested one when the request reaches the bill, else it stays `'paid'`. -/
theorem updateBillStatus_status_paid (env : Env) (user : Option Principal) (id' : String)
    (body : Fields) (s : Store) (id : String)
    (hpaid : billField "status" id s = some (.str "paid")) :
    billField "status" id (updateBillStatus env user id' body s).1 = some (.str "paid") ∨
    (id' = id ∧ getField "status" body = some (.str "pending") ∧
      billField "status" id (updateBillStatus env user id' body s).1 =
        some (.str "pending")) := by
  unfold updateBillStatus
  rcases guarded_spec "receptionist" user (updateStatusHandler env user id' body) s with hg | hg
  · left; rw [hg.1]; exact hpaid
  · rw [hg.2]
    rcases updateStatusHandler_spec env user id' body s with hc | hc
    · left; rw [hc]; exact hpaid
    · obtain ⟨st, u, billDoc, hst, hok, -, hbill, hs⟩ := hc
      rw [hs, billField_updateDoc]
      by_cases hid : id' = id
      · subst hid
        simp only [↓reduceIte, hbill, Option.bind_some, getField_statusUpdateData_status,
          Option.orElse]
        rcases hok with h | h
        · right; subst h; exact ⟨trivial, hst, rfl⟩
        · left; subst h; rfl
      · left; simpa [hid] using hpaid

/-- C2 (amended): a bill whose status is `'paid'` keeps that status across every
request to create, update, delete and across every status request other than one
asking for `'pending'` on that very bill; such a request, from a receptionist, does
move the bill back to `'pending'`. -/
theorem paid_status_left_only_by_updateStatus_pending (s : Store) (id : String)
    (hpaid : billField "status" id s = some (.str "paid")) :
    (∀ op : BillOp,
      billField "status" id (op.run s).1 = some (.str "paid") ∨
      ∃ env user body, op = .updateStatus env user id body ∧
        getField "status" body = some (.str "pending") ∧
        billField "status" id (op.run s).1 = some (.str "pending")) ∧
    (∀ (env : Env) (u : Principal) (body : Fields), u.role = "receptionist" →
      getField "status" body = some (.str "pending") →
      billField "status" id (updateBillStatus env (some u) id body s).1 =
        some (.str "pending")) := by
  constructor
  · intro op
    cases op with
    | create env user body =>
      left; exact createBill_billField env user body s "status" id _ hpaid
    | updateStatus env user id' body =>
      rcases updateBillStatus_status_paid env user id' body s id hpaid with h | ⟨h1, h2, h3⟩
      · left; exact h
      · right; subst h1; exact ⟨env, user, body, rfl, h2, h3⟩
    | update env user id' body =>
      left
      show billField "status" id (updateBill env user id' body s).1 = _
      rw [updateBill_billField_paid env user id' body s "status" id hpaid]; exact hpaid
    | delete user id' =>
      left
      show billField "status" id (deleteBill user id' s).1 = _
      rw [deleteBill_billField_paid user id' s "status" id hpaid]; exact hpaid
  · intro env u body hrole hst
    have hbill : ∃ billDoc, getDoc id s.bills = some billDoc := by
      unfold billField at hpaid
      cases hb : getDoc id s.bills with
      | none => simp [hb] at hpaid
      | some b => exact ⟨b, rfl⟩
    obtain ⟨billDoc, hbill⟩ := hbill
    have hg : updateBillStatus env (some u) id body s =
        updateStatusHandler env (some u) id body s := by
      simp [updateBillStatus, guarded, requireRole, hrole]
    rw [hg, updateStatusHandler_store env u id "pending" body billDoc s hst (Or.inl rfl) hbill,
      billField_updateDoc]
    simp [hbill, getField_statusUpdateData_status]

theorem paid_status_left_only_by_updateStatus_pending_witness :
    (∀ op : BillOp,
      billField "status" "b1" (op.run storePaid).1 = some (.str "paid") ∨
      ∃ env user body, op = .updateStatus env user "b1" body ∧
        getField "status" body = some (.str "pending") ∧
        billField "status" "b1" (op.run storePaid).1 = some (.str "pending")) ∧
    (∀ (env : Env) (u : Principal) (body : Fields), u.role = "receptionist" →
      getField "status" body = some (.str "pending") →
      billField "status" "b1" (updateBillStatus env (some u) "b1" body storePaid).1 =
        some (.str "pending")) :=
  paid_status_left_only_by_updateStatus_pending storePaid "b1" rfl

/-- C2 (as stated) fails: on a store whose bill `b1` is paid, a receptionist's
`PUT /bills/b1/status` with `{ status: 'pending' }` answers 200 and the stored status
is `'pending'` afterwards. -/
theorem paid_to_pending_counterexample :
    billField "status" "b1" storePaid = some (.str "paid") ∧
    (updateBillStatus env0 (some rita) "b1" [("status", .str "pending")] storePaid).2.status
      = 200 ∧
    billField "status" "b1"
      (updateBillStatus env0 (some rita) "b1" [("status", .str "pending")] storePaid).1
      = some (.str "pending") ∧
    billField "status" "b1"
      (updateBillStatus env0 (some rita) "b1" [("status", .str "pending")] storePaid).1
      ≠ some (.str "paid") := by
  refine ⟨rfl, rfl, rfl, ?_⟩
  intro h
  have h' : billField "status" "b1"
      (updateBillStatus env0 (some rita) "b1" [("status", .str "pending")] storePaid).1
      = some (.str "pending") := rfl
  rw [h'] at h
  simp at h

/-! ## C3, C4: the payment date -/

/-- C3: on an existing bill, a receptionist's `PUT /bills/:id/status` with status
`'paid'` stores `paidAt` = the date read for it when the stored status is not
`'paid'`, and leaves the stored `paidAt` as it was when the stored status is `'paid'`. -/
theorem updateStatus_paid_stamps_paidAt_once (env : Env) (u : Principal) (id : String)
    (body billDoc : Fields) (s : Store)
    (hrole : u.role = "receptionist")
    (hst : getField "status" body = some (.str "paid"))
    (hbill : getDoc id s.bills = some billDoc) :
    (getField "status" billDoc ≠ some (.str "paid") →
      billField "paidAt" id (updateBillStatus env (some u) id body s).1 =
        some (.date env.t1)) ∧
    (getField "status" billDoc = some (.str "paid") →
      billField "paidAt" id (updateBillStatus env (some u) id body s).1 =
        getField "paidAt" billDoc) := by
  have hg : updateBillStatus env (some u) id body s =
      updateStatusHandler env (some u) id body s := by
    simp [updateBillStatus, guarded, requireRole, hrole]
  rw [hg, updateStatusHandler_store env u id "paid" body billDoc s hst (Or.inr rfl) hbill,
    billField_updateDoc]
  simp only [↓reduceIte, hbill, Option.bind_some, getField_statusUpdateData_paidAt]
  constructor
  · intro hne
    have hfalse : isStr "paid" (getField "status" billDoc) = false := by
      cases h : isStr "paid" (getField "status" billDoc)
      · rfl
      · exact absurd (eq_of_isStr _ _ h) hne
    simp [hfalse]
  · intro heq
    simp [isStr_of_eq _ _ heq]

theorem updateStatus_paid_stamps_paidAt_once_witness :
    (getField "status" [("status", JsVal.str "pending"), ("paidAt", JsVal.date 5)]
        ≠ some (.str "paid") →
      billField "paidAt" "b7" (updateBillStatus env1 (some rita) "b7" bodyPaid
        { store0 with bills :=
            [("b7", [("status", JsVal.str "pending"), ("paidAt", JsVal.date 5)])] }).1 =
        some (.date 201)) ∧
    (getField "status" [("status", JsVal.str "pending"), ("paidAt", JsVal.date 5)]
        = some (.str "paid") →
      billField "paidAt" "b7" (updateBillStatus env1 (some rita) "b7" bodyPaid
        { store0 with bills :=
            [("b7", [("status", JsVal.str "pending"), ("paidAt", JsVal.date 5)])] }).1 =
        getField "paidAt" [("status", JsVal.str "pending"), ("paidAt", JsVal.date 5)]) :=
  updateStatus_paid_stamps_paidAt_once env1 rita "b7" bodyPaid
    [("status", .str "pending"), ("paidAt", .date 5)]
    { store0 with bills := [("b7", [("status", .str "pending"), ("paidAt", .date 5)])] }
    rfl rfl rfl

theorem billField_append_of_exists (key id newId : String) (d b : Fields) (s : Store)
    (hb : getDoc id s.bills = some b) :
    billField key id { s with bills := s.bills ++ [(newId, d)] } = billField key id s := by
  unfold billField getDoc at *
  simp [assocGet_append, hb]

theorem exists_bill_of_billField (key id : String) (s : Store) (v : JsVal)
    (h : billField key id s = some v) : ∃ b, getDoc id s.bills = some b := by
  unfold billField at h
  cases hb : getDoc id s.bills with
  | none => simp [hb] at h
  | some b => exact ⟨b, rfl⟩

/-- C4 (amended): while a bill's status is `'paid'`, no request to a bill endpoint
changes its `paidAt`: the stored value (or its absence) is the same after the request. -/
theorem paidAt_fixed_while_paid (op : BillOp) (s : Store) (id : String)
    (hpaid : billField "status" id s = some (.str "paid")) :
    billField "paidAt" id (op.run s).1 = billField "paidAt" id s := by
  obtain ⟨b, hb⟩ := exists_bill_of_billField _ _ _ _ hpaid
  cases op with
  | create env user body =>
    show billField "paidAt" id (createBill env user body s).1 = _
    unfold createBill
    rcases guarded_spec "receptionist" user (createBillHandler env user body) s with hg | hg
    · rw [hg.1]
    · rw [hg.2]
      rcases createBillHandler_spec env user body s with hc | hc
      · rw [hc.1]
      · obtain ⟨pid, patientDoc, items, name, stored, u, -, -, -, -, -, -, -, -, -, -, -, hs⟩ := hc
        rw [hs]
        exact billField_append_of_exists _ _ _ _ b s hb
  | updateStatus env user id' body =>
    show billField "paidAt" id (updateBillStatus env user id' body s).1 = _
    unfold updateBillStatus
    rcases guarded_spec "receptionist" user (updateStatusHandler env user id' body) s
      with hg | hg
    · rw [hg.1]
    · rw [hg.2]
      rcases updateStatusHandler_spec env user id' body s with hc | hc
      · rw [hc]
      · obtain ⟨st, u, billDoc, -, -, -, hbill, hs⟩ := hc
        rw [hs, billField_updateDoc]
        by_cases hid : id' = id
        · subst hid
          have hbb : billDoc = b := by rw [hb] at hbill; exact (Option.some.inj hbill).symm
          subst hbb
          have hp : isStr "paid" (getField "status" billDoc) = true := by
            apply isStr_of_eq
            simpa [billField, hb] using hpaid
          simp [hb, getField_statusUpdateData_paidAt, hp, billField]
        · simp [hid]
  | update env user id' body =>
    exact updateBill_billField_paid env user id' body s "paidAt" id hpaid
  | delete user id' =>
    exact deleteBill_billField_paid user id' s "paidAt" id hpaid

theorem paidAt_fixed_while_paid_witness :
    billField "paidAt" "b1" ((BillOp.updateStatus env1 (some rita) "b1" bodyPending).run
      storePaid).1 = billField "paidAt" "b1" storePaid :=
  paidAt_fixed_while_paid (BillOp.updateStatus env1 (some rita) "b1" bodyPending) storePaid
    "b1" rfl

/-- C4 (as stated) fails: after a bill is created and marked paid its `paidAt` is the
date 101; a status request for `'pending'` followed by one for `'paid'` stores a new
`paidAt`, the date 201. -/
theorem paidAt_restamped_counterexample :
    billField "paidAt" "b1"
      (runOps [BillOp.create env0 (some rita) bodyCreate,
               BillOp.updateStatus env0 (some rita) "b1" bodyPaid] store0)
      = some (.date 101) ∧
    billField "paidAt" "b1"
      (runOps [BillOp.create env0 (some rita) bodyCreate,
               BillOp.updateStatus env0 (some rita) "b1" bodyPaid,
               BillOp.updateStatus env0 (some rita) "b1" bodyPending,
               BillOp.updateStatus env1 (some rita) "b1" bodyPaid] store0)
      = some (.date 201) ∧
    JsVal.date 201 ≠ JsVal.date 101 := by
  refine ⟨rfl, rfl, ?_⟩
  simp

/-! ## Rounding to two decimals -/

theorem toFixed2_abs_sub_le (x : ℚ) : |toFixed2 x - x| ≤ 1 / 200 := by
  unfold toFixed2
  split
  · have h1 := Int.floor_le (x * 100 + 1 / 2)
    have h2 := Int.lt_floor_add_one (x * 100 + 1 / 2)
    rw [abs_le]
    constructor <;> linarith
  · have h1 := Int.floor_le (-x * 100 + 1 / 2)
    have h2 := Int.lt_floor_add_one (-x * 100 + 1 / 2)
    rw [abs_le]
    constructor <;> linarith

theorem toFixed2_cents (x : ℚ) : ∃ n : ℤ, toFixed2 x = (n : ℚ) / 100 := by
  unfold toFixed2
  split
  · exact ⟨⌊x * 100 + 1 / 2⌋, rfl⟩
  · exact ⟨-⌊-x * 100 + 1 / 2⌋, by push_cast; ring⟩

/-- Rounding leaves a whole number of cents as it is. -/
theorem toFixed2_of_cents (n : ℤ) : toFixed2 ((n : ℚ) / 100) = (n : ℚ) / 100 := by
  unfold toFixed2
  split
  · have : ⌊(n : ℚ) / 100 * 100 + 1 / 2⌋ = n := by
      rw [Int.floor_eq_iff]
      constructor <;> linarith
    rw [this]
  · have : ⌊-((n : ℚ) / 100) * 100 + 1 / 2⌋ = -n := by
      rw [Int.floor_eq_iff]
      constructor <;> push_cast <;> linarith
    rw [this]
    push_cast
    ring

theorem foldl_add_eq (f : JsVal → ℚ) (items : List JsVal) (acc : ℚ) :
    items.foldl (fun sum item => sum + f item) acc = acc + (items.map f).sum := by
  induction items generalizing acc with
  | nil => simp
  | cons i rest ih => simp [ih, add_assoc]

/-- The fold of the source is the sum of the item amounts. -/
theorem sumAmounts_eq_sum (items : List JsVal) :
    sumAmounts items = (items.map itemAmount).sum := by
  unfold sumAmounts
  rw [foldl_add_eq]
  simp

/-! ## Creation in exact arithmetic -/

theorem getDoc_append_new (newId : String) (d : Fields) (c : Collection)
    (hnew : getDoc newId c = none) : getDoc newId (c ++ [(newId, d)]) = some d := by
  unfold getDoc at *
  simp [assocGet_append, hnew, assocGet]

/-- The route `POST /bills` answers 201 only through the success branch of its handler. -/
theorem createBill_created (env : Env) (user : Option Principal) (body : Fields) (s : Store)
    (h : (createBill env user body s).2.status = 201) :
    ∃ pid patientDoc items name stored u,
      getField "patientId" body = some (.str pid) ∧
      getField "items" body = some (.arr items) ∧
      items ≠ [] ∧
      getDoc pid s.patients = some patientDoc ∧
      validateItems items = .pass ∧
      totalMismatch env (getField "totalAmount" body) (sumAmounts items) = some false ∧
      jsOr (getField "patientName" body) (getField "name" patientDoc) = some name ∧
      normalizeItems items = some stored ∧
      user = some u ∧
      getDoc env.newId s.bills = none ∧
      (createBill env user body s).1 =
        { s with bills := s.bills ++
          [(env.newId, billData env u pid name stored (sumAmounts items))] } := by
  unfold createBill at h ⊢
  rcases guarded_spec "receptionist" user (createBillHandler env user body) s with hg | hg
  · rcases hg.2 with h1 | h1 <;> rw [h1] at h <;> simp at h
  · rw [hg.2] at h ⊢
    rcases createBillHandler_spec env user body s with hc | hc
    · exact absurd h hc.2
    · obtain ⟨pid, patientDoc, items, name, stored, u, h1, h2, h3, h4, h5, h6, h7, h8, h9, h10,
        -, h12⟩ := hc
      exact ⟨pid, patientDoc, items, name, stored, u, h1, h2, h3, h4, h5, h6, h7, h8, h9, h10,
        h12⟩

/-! ## C6: the check of a supplied total -/

/-- C6 at the failing input: a creation with valid items summing to 50, an existing
patient and `totalAmount` = 0 is answered 201 and a bill with total 50 is persisted,
although 0 differs from 50 by more than 0.01. -/
theorem zero_total_not_checked :
    (createBill env0 (some rita) bodyZeroTotal store0).2.status = 201 ∧
    billField "totalAmount" "b1" (createBill env0 (some rita) bodyZeroTotal store0).1 =
      some (.num 50) ∧
    getField "totalAmount" bodyZeroTotal = some (.num 0) ∧
    sumAmounts (elems (getField "items" bodyZeroTotal)) = 50 ∧
    |(0 : ℚ) - 50| > 1 / 100 := by
  refine ⟨by with_unfolding_all rfl, by with_unfolding_all rfl, rfl,
    by with_unfolding_all rfl, ?_⟩
  norm_num

/-! ## Normalised items -/

theorem normalizeItem_spec (item i : JsVal) (h : normalizeItem item = some i) :
    ∃ fs d a, item = .obj fs ∧ getField "description" fs = some (.str d) ∧
      getField "amount" fs = some (.num a) ∧
      i = .obj [("description", .str (jsTrim d)), ("amount", .num (toFixed2 a))] := by
  unfold normalizeItem at h
  split at h
  · rename_i fs
    split at h
    · rename_i d a hd ha
      exact ⟨fs, d, a, rfl, hd, ha, (Option.some.inj h).symm⟩
    · simp at h
  · simp at h

theorem normalizeItem_amount (item i : JsVal) (h : normalizeItem item = some i) :
    itemAmount i = toFixed2 (itemAmount item) := by
  obtain ⟨fs, d, a, rfl, -, ha, rfl⟩ := normalizeItem_spec item i h
  simp only [getField] at ha
  simp [itemAmount, getField, assocGet, ha]

theorem normalizeItems_forall₂ (items stored : List JsVal)
    (h : normalizeItems items = some stored) :
    List.Forall₂ (fun item i => normalizeItem item = some i) items stored := by
  induction items generalizing stored with
  | nil =>
    simp [normalizeItems] at h
    subst h
    exact List.Forall₂.nil
  | cons item rest ih =>
    unfold normalizeItems at h
    split at h
    · rename_i i is hi his
      have := Option.some.inj h
      subst this
      exact List.Forall₂.cons hi (ih is his)
    · simp at h

theorem normalizeItems_amounts (items stored : List JsVal)
    (h : normalizeItems items = some stored) :
    stored.map itemAmount = (items.map itemAmount).map toFixed2 := by
  have hf := normalizeItems_forall₂ items stored h
  clear h
  induction hf with
  | nil => rfl
  | cons hi _ ih => simp [normalizeItem_amount _ _ hi, ih]

/-! ## The patch of an update -/

theorem getField_stripProtected (key : String) (body : Fields)
    (h1 : key ≠ "id") (h2 : key ≠ "patientId") (h3 : key ≠ "createdAt")
    (h4 : key ≠ "createdBy") (h5 : key ≠ "createdByName") :
    getField key (stripProtected body) = getField key body := by
  unfold stripProtected getField deleteField
  simp [assocGet_assocErase, h1.symm, h2.symm, h3.symm, h4.symm, h5.symm]

/-! ## C8: the stored status -/

/-- C8 at the failing input: a bill is created, then a receptionist's `PUT /bills/b1`
with the patch `{ status: 'archived' }` is answered 200 and the stored status is
`'archived'`, neither `'pending'` nor `'paid'`. -/
theorem update_stores_any_status :
    (updateBill env1 (some rita) "b1" bodyArchived
      (createBill env0 (some rita) bodyCreate store0).1).2.status = 200 ∧
    billField "status" "b1"
      (runOps [BillOp.create env0 (some rita) bodyCreate,
               BillOp.update env1 (some rita) "b1" bodyArchived] store0)
      = some (.str "archived") ∧
    "archived" ≠ "pending" ∧ "archived" ≠ "paid" := by
  refine ⟨rfl, rfl, by decide, by decide⟩

/-! ## Valid items -/

theorem itemInvalid_of_valid (item : JsVal) (h : ValidItem item) :
    itemInvalid item = some false := by
  obtain ⟨fs, d, a, rfl, hd, hne, ha, hpos⟩ := h
  simp [itemInvalid, hd, ha, truthy, hne, hpos]

theorem validateItems_of_valid (items : List JsVal) (h : ∀ item ∈ items, ValidItem item) :
    validateItems items = .pass := by
  induction items with
  | nil => rfl
  | cons i rest ih =>
    unfold validateItems
    rw [itemInvalid_of_valid i (h i (List.mem_cons_self _ _))]
    exact ih (fun x hx => h x (List.mem_cons_of_mem _ hx))

theorem normalizeItems_of_valid (items : List JsVal) (h : ∀ item ∈ items, ValidItem item) :
    ∃ stored, normalizeItems items = some stored := by
  induction items with
  | nil => exact ⟨[], rfl⟩
  | cons i rest ih =>
    obtain ⟨is, his⟩ := ih (fun x hx => h x (List.mem_cons_of_mem _ hx))
    obtain ⟨fs, d, a, rfl, hd, -, ha, -⟩ := h i (List.mem_cons_self _ _)
    exact ⟨.obj [("description", .str (jsTrim d)), ("amount", .num (toFixed2 a))] :: is,
      by simp [normalizeItems, normalizeItem, hd, ha, his]⟩

/-- The handler of `PUT /bills/:id` on a bill that is not paid, with items that pass
validation and normalisation. -/
theorem updateBillHandler_items (env : Env) (user : Option Principal) (id : String)
    (body billDoc : Fields) (s : Store) (items stored : List JsVal)
    (hbill : getDoc id s.bills = some billDoc)
    (hnp : isStr "paid" (getField "status" billDoc) = false)
    (hitems : getField "items" (stripProtected body) = some (.arr items))
    (hne : items ≠ [])
    (hval : validateItems items = .pass)
    (hstored : normalizeItems items = some stored) :
    updateBillHandler env user id body s =
      finishUpdate env user id
        (setField "totalAmount" (.num (toFixed2 (sumAmounts stored)))
          (setField "items" (.arr stored) (stripProtected body))) s := by
  have hlen : items.length ≠ 0 := fun h => hne (List.length_eq_zero.mp h)
  unfold updateBillHandler
  simp [hbill, hnp, hitems, truthy, isArray, elems, hlen, hval, hstored]

/-! ## C11, C12: the role guard -/

/-- C11: the gate `requireRole(r)` answers 401 when no user is attached, answers 403
when the attached user's role differs from `r`, and in the remaining case produces no
response and hands over to `next()`, which is its only other outcome. -/
theorem requireRole_outcomes (r : String) (u : Principal) :
    (requireRole r none).map (fun resp => resp.status) = some 401 ∧
    (requireRole r (some u)).map (fun resp => resp.status) =
      (if u.role = r then none else some 403) ∧
    (requireRole r (some u) = none ↔ u.role = r) := by
  refine ⟨rfl, ?_, ?_⟩
  · unfold requireRole
    by_cases h : u.role = r <;> simp [h]
  · unfold requireRole
    by_cases h : u.role = r <;> simp [h]

theorem guarded_forbidden (role : String) (u : Principal)
    (handler : Store → Store × Response) (s : Store) (h : u.role ≠ role) :
    (guarded role (some u) handler s).2.status = 403 ∧
      (guarded role (some u) handler s).1 = s := by
  simp [guarded, requireRole, h]

/-- C12: for every store and every attached user whose role is not the required one,
each guarded mutating endpoint answers 403 and returns the store as it was: the six
receptionist endpoints for a user who is not a receptionist, the three doctor
endpoints for a user who is not a doctor. -/
theorem wrong_role_forbidden (env : Env) (rt : Runtime) (u : Principal) (id : String)
    (body : Fields) (s : Store) :
    (u.role ≠ "receptionist" →
      ((registerPatient env rt (some u) body s).2.status = 403 ∧
        (registerPatient env rt (some u) body s).1 = s) ∧
      ((regenerateToken env rt (some u) id s).2.status = 403 ∧
        (regenerateToken env rt (some u) id s).1 = s) ∧
      ((createBill env (some u) body s).2.status = 403 ∧
        (createBill env (some u) body s).1 = s) ∧
      ((updateBillStatus env (some u) id body s).2.status = 403 ∧
        (updateBillStatus env (some u) id body s).1 = s) ∧
      ((updateBill env (some u) id body s).2.status = 403 ∧
        (updateBill env (some u) id body s).1 = s) ∧
      ((deleteBill (some u) id s).2.status = 403 ∧
        (deleteBill (some u) id s).1 = s)) ∧
    (u.role ≠ "doctor" →
      ((createPrescription env (some u) body s).2.status = 403 ∧
        (createPrescription env (some u) body s).1 = s) ∧
      ((updatePrescription env (some u) id body s).2.status = 403 ∧
        (updatePrescription env (some u) id body s).1 = s) ∧
      ((deletePrescription (some u) id s).2.status = 403 ∧
        (deletePrescription (some u) id s).1 = s)) := by
  constructor
  · intro h
    exact ⟨guarded_forbidden _ u _ s h, guarded_forbidden _ u _ s h,
      guarded_forbidden _ u _ s h, guarded_forbidden _ u _ s h,
      guarded_forbidden _ u _ s h, guarded_forbidden _ u _ s h⟩
  · intro h
    exact ⟨guarded_forbidden _ u _ s h, guarded_forbidden _ u _ s h,
      guarded_forbidden _ u _ s h⟩

theorem wrong_role_forbidden_witness :
    (((registerPatient env0 rt0 (some dan) bodyCreate storePending).2.status = 403 ∧
        (registerPatient env0 rt0 (some dan) bodyCreate storePending).1 = storePending) ∧
      ((regenerateToken env0 rt0 (some dan) "p1" storePending).2.status = 403 ∧
        (regenerateToken env0 rt0 (some dan) "p1" storePending).1 = storePending) ∧
      ((createBill env0 (some dan) bodyCreate storePending).2.status = 403 ∧
        (createBill env0 (some dan) bodyCreate storePending).1 = storePending) ∧
      ((updateBillStatus env0 (some dan) "p1" bodyCreate storePending).2.status = 403 ∧
        (updateBillStatus env0 (some dan) "p1" bodyCreate storePending).1 = storePending) ∧
      ((updateBill env0 (some dan) "p1" bodyCreate storePending).2.status = 403 ∧
        (updateBill env0 (some dan) "p1" bodyCreate storePending).1 = storePending) ∧
      ((deleteBill (some dan) "p1" storePending).2.status = 403 ∧
        (deleteBill (some dan) "p1" storePending).1 = storePending)) ∧
    (((createPrescription env0 (some rita) bodyCreate storePending).2.status = 403 ∧
        (createPrescription env0 (some rita) bodyCreate storePending).1 = storePending) ∧
      ((updatePrescription env0 (some rita) "p1" bodyCreate storePending).2.status = 403 ∧
        (updatePrescription env0 (some rita) "p1" bodyCreate storePending).1 = storePending) ∧
      ((deletePrescription (some rita) "p1" storePending).2.status = 403 ∧
        (deletePrescription (some rita) "p1" storePending).1 = storePending)) :=
  ⟨(wrong_role_forbidden env0 rt0 dan "p1" bodyCreate storePending).1 (by decide),
   (wrong_role_forbidden env0 rt0 rita "p1" bodyCreate storePending).2 (by decide)⟩

/-! ## C13: prescriptions of another doctor -/

theorem getField_echoFields (k : String) (doc : Fields) (keys : List String) (acc o : Fields)
    (hk : k ∉ keys) (h : echoFields doc acc keys = some o) :
    getField k o = getField k acc := by
  induction keys generalizing acc with
  | nil =>
    simp only [echoFields, Option.some.injEq] at h
    rw [← h]
  | cons key rest ih =>
    have hne : key ≠ k := fun e => hk (e ▸ List.mem_cons_self _ _)
    have hrest : k ∉ rest := fun hm => hk (List.mem_cons_of_mem _ hm)
    unfold echoFields at h
    split at h
    · simp at h
    · rw [ih _ hrest h]
      simp [getField, setField, assocGet_assocSet, hne]
    · rw [ih _ hrest h]
      simp [getField, deleteField, assocGet_assocErase, hne]

/-- Echoing a document changes none of its fields other than `id` and the converted
keys. -/
theorem getField_echoDoc (k id : String) (doc : Fields) (keys : List String) (o : Fields)
    (hid : k ≠ "id") (hk : k ∉ keys) (h : echoDoc id doc keys = some o) :
    getField k o = getField k doc := by
  unfold echoDoc at h
  rw [getField_echoFields k doc keys _ o hk h, getField_mergeFields]
  cases getField k doc <;> simp [getField, assocGet, hid.symm]

theorem echoDoc_createdAt_isSome (id : String) (doc : Fields)
    (h : toDateOr (getField "createdAt" doc) ≠ none) :
    ∃ o, echoDoc id doc ["createdAt"] = some o := by
  unfold echoDoc echoFields
  cases hc : toDateOr (getField "createdAt" doc) with
  | none => exact absurd hc h
  | some v => cases v <;> simp [echoFields]

theorem isStr_eq_false_of_ne (t : String) (v : Option JsVal) (h : v ≠ some (.str t)) :
    isStr t v = false := by
  cases hb : isStr t v
  · rfl
  · exact absurd (eq_of_isStr _ _ hb) h

theorem guarded_pass (role : String) (u : Principal) (handler : Store → Store × Response)
    (s : Store) (h : u.role = role) : guarded role (some u) handler s = handler s := by
  simp [guarded, requireRole, h]

/-- C13: for a doctor whose uid is not the stored `doctorId` of an existing
prescription (whose `createdAt` can be echoed, as every stored date can), `GET`, `PUT`
and `DELETE /prescriptions/:id` each answer 403, and `PUT` and `DELETE` return the
store as it was; on an id without prescription each of the three answers 404. -/
theorem foreign_prescription_forbidden (env : Env) (u : Principal) (id : String)
    (body : Fields) (s : Store) (hrole : u.role = "doctor") :
    (∀ doc, getDoc id s.prescriptions = some doc →
      getField "doctorId" doc ≠ some (.str u.uid) →
      (toDateOr (getField "createdAt" doc) ≠ none →
        (getPrescription (some u) id s).status = 403) ∧
      (updatePrescription env (some u) id body s).2.status = 403 ∧
      (updatePrescription env (some u) id body s).1 = s ∧
      (deletePrescription (some u) id s).2.status = 403 ∧
      (deletePrescription (some u) id s).1 = s) ∧
    (getDoc id s.prescriptions = none →
      (getPrescription (some u) id s).status = 404 ∧
      (updatePrescription env (some u) id body s).2.status = 404 ∧
      (deletePrescription (some u) id s).2.status = 404) := by
  constructor
  · intro doc hdoc hother
    have hfalse := isStr_eq_false_of_ne _ _ hother
    refine ⟨?_, ?_, ?_, ?_, ?_⟩
    · intro hcreated
      obtain ⟨o, ho⟩ := echoDoc_createdAt_isSome id doc hcreated
      have hd : getField "doctorId" o = getField "doctorId" doc :=
        getField_echoDoc _ id doc _ o (by decide) (by decide) ho
      simp [getPrescription, hdoc, ho, hd, hfalse, hrole, failure]
    · rw [updatePrescription, guarded_pass _ u _ s hrole]
      simp [updatePrescriptionHandler, hdoc, hfalse, failure]
    · rw [updatePrescription, guarded_pass _ u _ s hrole]
      simp [updatePrescriptionHandler, hdoc, hfalse]
    · rw [deletePrescription, guarded_pass _ u _ s hrole]
      simp [deletePrescriptionHandler, hdoc, hfalse, failure]
    · rw [deletePrescription, guarded_pass _ u _ s hrole]
      simp [deletePrescriptionHandler, hdoc, hfalse]
  · intro hnone
    refine ⟨?_, ?_, ?_⟩
    · simp [getPrescription, hnone, failure]
    · rw [updatePrescription, guarded_pass _ u _ s hrole]
      simp [updatePrescriptionHandler, hnone, failure]
    · rw [deletePrescription, guarded_pass _ u _ s hrole]
      simp [deletePrescriptionHandler, hnone, failure]

theorem foreign_prescription_forbidden_witness :
    ((getPrescription (some eve) "r1" storeRx).status = 403 ∧
      (updatePrescription env1 (some eve) "r1" bodyTakeOver storeRx).2.status = 403 ∧
      (updatePrescription env1 (some eve) "r1" bodyTakeOver storeRx).1 = storeRx ∧
      (deletePrescription (some eve) "r1" storeRx).2.status = 403 ∧
      (deletePrescription (some eve) "r1" storeRx).1 = storeRx) ∧
    ((getPrescription (some eve) "r9" storeRx).status = 404 ∧
      (updatePrescription env1 (some eve) "r9" bodyTakeOver storeRx).2.status = 404 ∧
      (deletePrescription (some eve) "r9" storeRx).2.status = 404) := by
  have h := (foreign_prescription_forbidden env1 eve "r1" bodyTakeOver storeRx rfl).1
      [("patientId", .str "p1"), ("patientName", .str "Jane Doe"),
       ("doctorId", .str "d1"), ("doctorName", .str "Dan"),
       ("medications", .arr [.obj [("name", .str "Amoxicillin"),
         ("dosage", .str "500mg"), ("frequency", .str "3x daily"),
         ("duration", .str "7 days")]]),
       ("notes", .str ""), ("createdAt", .date 10), ("updatedAt", .date 10)]
      rfl (by simp [getField, assocGet, eve])
  exact ⟨⟨h.1 (by simp [getField, assocGet, toDateOr]), h.2⟩,
    (foreign_prescription_forbidden env1 eve "r9" bodyTakeOver storeRx rfl).2 rfl⟩

/-! ## C14: what a doctor is listed -/

theorem mem_insertBy {α : Type} (le : α → α → Bool) (x y : α) (l : List α) :
    y ∈ insertBy le x l ↔ y = x ∨ y ∈ l := by
  induction l with
  | nil => simp [insertBy]
  | cons z zs ih =>
    unfold insertBy
    split
    · simp
    · simp only [List.mem_cons, ih]
      tauto

theorem mem_sortBy {α : Type} (le : α → α → Bool) (y : α) (l : List α) :
    y ∈ sortBy le l ↔ y ∈ l := by
  induction l with
  | nil => simp [sortBy]
  | cons z zs ih => simp [sortBy, mem_insertBy, ih]

theorem mem_orderByDesc (rt : Runtime) (key : String) (c : Collection) (p : String × Fields) :
    p ∈ orderByDesc rt key c ↔ p ∈ c ∧ (getField key p.2).isSome = true := by
  unfold orderByDesc
  rw [mem_sortBy, List.mem_filter]

theorem echoAll_mem (keys : List String) (c : Collection) (data : List JsVal)
    (h : echoAll keys c = some data) :
    (∀ e ∈ data, ∃ p o, p ∈ c ∧ echoDoc p.1 p.2 keys = some o ∧ e = .obj o) ∧
    (∀ p ∈ c, ∃ o, echoDoc p.1 p.2 keys = some o ∧ JsVal.obj o ∈ data) := by
  induction c generalizing data with
  | nil =>
    simp only [echoAll, Option.some.injEq] at h
    subst h
    simp
  | cons q rest ih =>
    obtain ⟨id, doc⟩ := q
    unfold echoAll at h
    split at h
    · rename_i o os ho hos
      have := Option.some.inj h
      subst this
      obtain ⟨ih1, ih2⟩ := ih os hos
      constructor
      · intro e he
        rcases List.mem_cons.mp he with rfl | he'
        · exact ⟨(id, doc), o, List.mem_cons_self _ _, ho, rfl⟩
        · obtain ⟨p, o', hp, hpo, rfl⟩ := ih1 e he'
          exact ⟨p, o', List.mem_cons_of_mem _ hp, hpo, rfl⟩
      · intro p hp
        rcases List.mem_cons.mp hp with rfl | hp'
        · exact ⟨o, ho, List.mem_cons_self _ _⟩
        · obtain ⟨o', hpo, hmem⟩ := ih2 p hp'
          exact ⟨o', hpo, List.mem_cons_of_mem _ hmem⟩
    · simp at h

theorem echoAll_isSome (keys : List String) (c : Collection)
    (h : ∀ p ∈ c, echoDoc p.1 p.2 keys ≠ none) : ∃ data, echoAll keys c = some data := by
  induction c with
  | nil => exact ⟨[], rfl⟩
  | cons q rest ih =>
    obtain ⟨id, doc⟩ := q
    obtain ⟨os, hos⟩ := ih (fun p hp => h p (List.mem_cons_of_mem _ hp))
    cases ho : echoDoc id doc keys with
    | none => exact absurd ho (h (id, doc) (List.mem_cons_self _ _))
    | some o => exact ⟨.obj o :: os, by simp [echoAll, ho, hos]⟩

/-- The documents echoed by a query are exactly the documents of the queried collection
that have a `createdAt` field. -/
theorem query_result (rt : Runtime) (c : Collection) (data : List JsVal)
    (h : echoAll ["createdAt"] (orderByDesc rt "createdAt" c) = some data) :
    (∀ e ∈ data, ∃ p o, p ∈ c ∧ echoDoc p.1 p.2 ["createdAt"] = some o ∧ e = .obj o) ∧
    (∀ p ∈ c, (getField "createdAt" p.2).isSome = true →
      ∃ o, echoDoc p.1 p.2 ["createdAt"] = some o ∧ JsVal.obj o ∈ data) := by
  obtain ⟨h1, h2⟩ := echoAll_mem _ _ _ h
  constructor
  · intro e he
    obtain ⟨p, o, hp, hpo, rfl⟩ := h1 e he
    exact ⟨p, o, ((mem_orderByDesc rt _ c p).mp hp).1, hpo, rfl⟩
  · intro p hp hc
    exact h2 p ((mem_orderByDesc rt _ c p).mpr ⟨hp, hc⟩)

theorem query_succeeds (rt : Runtime) (c : Collection)
    (h : ∀ p ∈ c, toDateOr (getField "createdAt" p.2) ≠ none) :
    ∃ data, echoAll ["createdAt"] (orderByDesc rt "createdAt" c) = some data := by
  apply echoAll_isSome
  intro p hp
  have hpc := ((mem_orderByDesc rt _ c p).mp hp).1
  obtain ⟨o, ho⟩ := echoDoc_createdAt_isSome p.1 p.2 (h p hpc)
  rw [ho]
  simp

theorem mem_whereStr (key value : String) (c : Collection) (p : String × Fields) :
    p ∈ whereStr key value c ↔ p ∈ c ∧ getField key p.2 = some (.str value) := by
  unfold whereStr
  rw [List.mem_filter]
  constructor
  · intro ⟨h1, h2⟩; exact ⟨h1, eq_of_isStr _ _ h2⟩
  · intro ⟨h1, h2⟩; exact ⟨h1, isStr_of_eq _ _ h2⟩

/-- The collection queried by `GET /prescriptions` for a doctor who gives no `doctorId`
parameter. -/
theorem mem_doctor_query (uid : String) (patientId : Option String) (c : Collection)
    (p : String × Fields) :
    p ∈ whereStr "doctorId" uid
        (match truthyParam patientId with
         | some v => whereStr "patientId" v c
         | none => c) ↔
      p ∈ c ∧ VisibleTo uid (truthyParam patientId) p.2 := by
  unfold VisibleTo
  rw [mem_whereStr]
  cases truthyParam patientId with
  | none => simp
  | some v =>
    simp only [mem_whereStr, Option.some.injEq, forall_eq']
    tauto

/-- What a 200 answer built from a query carries: the echoes of exactly the queried
documents that satisfy `P` and have a `createdAt` field. -/
theorem listed_exactly (rt : Runtime) (c q : Collection) (P : Fields → Prop)
    (hq : ∀ p, p ∈ q ↔ p ∈ c ∧ P p.2) (data : List JsVal)
    (h : echoAll ["createdAt"] (orderByDesc rt "createdAt" q) = some data) :
    (∀ e ∈ data, ∃ id doc o, (id, doc) ∈ c ∧ P doc ∧
      echoDoc id doc ["createdAt"] = some o ∧ e = .obj o) ∧
    (∀ id doc, (id, doc) ∈ c → P doc → (getField "createdAt" doc).isSome = true →
      ∃ o, echoDoc id doc ["createdAt"] = some o ∧ JsVal.obj o ∈ data) := by
  obtain ⟨h1, h2⟩ := query_result rt q data h
  constructor
  · intro e he
    obtain ⟨p, o, hp, hpo, rfl⟩ := h1 e he
    obtain ⟨hpc, hP⟩ := (hq p).mp hp
    exact ⟨p.1, p.2, o, hpc, hP, hpo, rfl⟩
  · intro id doc hmem hP hc
    exact h2 (id, doc) ((hq (id, doc)).mpr ⟨hmem, hP⟩) hc

/-- C14: for a doctor, `GET /prescriptions` without `doctorId` parameter and
`GET /prescriptions/patient/:patientId`, when they answer 200, return the echo of a
stored prescription only if its `doctorId` is the caller's uid and it matches the
patient filter, and return every such stored prescription that has a `createdAt`
field; they answer 200 whenever every stored `createdAt` can be echoed (and, for the
second route, the patient exists). -/
theorem doctor_listed_own_prescriptions (rt : Runtime) (u : Principal)
    (patientId : Option String) (pid : String) (s : Store) (hrole : u.role = "doctor") :
    ((listPrescriptions rt (some u) patientId none s).status = 200 →
      (∀ e ∈ responseData (listPrescriptions rt (some u) patientId none s),
        ∃ id doc o, (id, doc) ∈ s.prescriptions ∧
          VisibleTo u.uid (truthyParam patientId) doc ∧
          echoDoc id doc ["createdAt"] = some o ∧ e = .obj o ∧
          getField "doctorId" o = some (.str u.uid)) ∧
      (∀ id doc, (id, doc) ∈ s.prescriptions →
        VisibleTo u.uid (truthyParam patientId) doc →
        (getField "createdAt" doc).isSome = true →
        ∃ o, echoDoc id doc ["createdAt"] = some o ∧
          JsVal.obj o ∈ responseData (listPrescriptions rt (some u) patientId none s))) ∧
    ((listPrescriptionsForPatient rt (some u) pid s).status = 200 →
      (∀ e ∈ responseData (listPrescriptionsForPatient rt (some u) pid s),
        ∃ id doc o, (id, doc) ∈ s.prescriptions ∧ VisibleTo u.uid (some pid) doc ∧
          echoDoc id doc ["createdAt"] = some o ∧ e = .obj o ∧
          getField "doctorId" o = some (.str u.uid)) ∧
      (∀ id doc, (id, doc) ∈ s.prescriptions → VisibleTo u.uid (some pid) doc →
        (getField "createdAt" doc).isSome = true →
        ∃ o, echoDoc id doc ["createdAt"] = some o ∧
          JsVal.obj o ∈ responseData (listPrescriptionsForPatient rt (some u) pid s))) ∧
    ((∀ p ∈ s.prescriptions, toDateOr (getField "createdAt" p.2) ≠ none) →
      (listPrescriptions rt (some u) patientId none s).status = 200 ∧
      ((getDoc pid s.patients).isSome = true →
        (listPrescriptionsForPatient rt (some u) pid s).status = 200)) := by
  have hown : ∀ (id : String) (doc o : Fields) (p : Option String),
      VisibleTo u.uid p doc → echoDoc id doc ["createdAt"] = some o →
      getField "doctorId" o = some (.str u.uid) := by
    intro id doc o p hv ho
    rw [getField_echoDoc _ id doc _ o (by decide) (by decide) ho]
    exact hv.1
  have hq2 : ∀ p, p ∈ whereStr "doctorId" u.uid (whereStr "patientId" pid s.prescriptions) ↔
      p ∈ s.prescriptions ∧ VisibleTo u.uid (some pid) p.2 := by
    intro p
    unfold VisibleTo
    simp only [mem_whereStr, Option.some.injEq, forall_eq']
    tauto
  refine ⟨?_, ?_, ?_⟩
  · intro h200
    have hshape : listPrescriptions rt (some u) patientId none s =
        match echoAll ["createdAt"] (orderByDesc rt "createdAt"
          (whereStr "doctorId" u.uid
            (match truthyParam patientId with
             | some v => whereStr "patientId" v s.prescriptions
             | none => s.prescriptions))) with
        | none => failure 500 "Failed to fetch prescriptions"
        | some prescriptions =>
          { status := 200,
            body := [("success", .bool true), ("data", .arr prescriptions),
                     ("count", .num prescriptions.length)] } := by
      simp only [listPrescriptions, hrole, ↓reduceIte]
      all_goals rfl
    rw [hshape] at h200 ⊢
    cases hdata : echoAll ["createdAt"] (orderByDesc rt "createdAt"
          (whereStr "doctorId" u.uid
            (match truthyParam patientId with
             | some v => whereStr "patientId" v s.prescriptions
             | none => s.prescriptions))) with
    | none => simp [hdata, failure] at h200
    | some data =>
      simp only [hdata]
      have hd : responseData { status := 200, body := [("success", JsVal.bool true),
          ("data", JsVal.arr data), ("count", JsVal.num data.length)] } = data := by
        simp [responseData, getField, assocGet, elems]
      simp only [hd]
      obtain ⟨h1, h2⟩ := listed_exactly rt s.prescriptions _ _
        (mem_doctor_query u.uid patientId s.prescriptions) data hdata
      constructor
      · intro e he
        obtain ⟨id, doc, o, hm, hv, ho, rfl⟩ := h1 e he
        exact ⟨id, doc, o, hm, hv, ho, rfl, hown id doc o _ hv ho⟩
      · exact h2
  · intro h200
    cases hpat : getDoc pid s.patients with
    | none => simp [listPrescriptionsForPatient, hpat, failure] at h200
    | some patientDoc =>
      have hshape : listPrescriptionsForPatient rt (some u) pid s =
          match echoAll ["createdAt"] (orderByDesc rt "createdAt"
            (whereStr "doctorId" u.uid (whereStr "patientId" pid s.prescriptions))) with
          | none => failure 500 "Failed to fetch patient prescriptions"
          | some prescriptions =>
            { status := 200,
              body := [("success", .bool true), ("data", .arr prescriptions),
                       ("count", .num prescriptions.length),
                       ("patient", .obj (patientSummary pid patientDoc))] } := by
        simp only [listPrescriptionsForPatient, hpat, hrole, ↓reduceIte]
      rw [hshape] at h200 ⊢
      cases hdata : echoAll ["createdAt"] (orderByDesc rt "createdAt"
            (whereStr "doctorId" u.uid (whereStr "patientId" pid s.prescriptions))) with
      | none => simp [hdata, failure] at h200
      | some data =>
        simp only [hdata]
        have hd : responseData { status := 200, body := [("success", JsVal.bool true),
            ("data", JsVal.arr data), ("count", JsVal.num data.length),
            ("patient", JsVal.obj (patientSummary pid patientDoc))] } = data := by
          simp [responseData, getField, assocGet, elems]
        simp only [hd]
        obtain ⟨h1, h2⟩ := listed_exactly rt s.prescriptions _ _ hq2 data hdata
        constructor
        · intro e he
          obtain ⟨id, doc, o, hm, hv, ho, rfl⟩ := h1 e he
          exact ⟨id, doc, o, hm, hv, ho, rfl, hown id doc o _ hv ho⟩
        · exact h2
  · intro hall
    constructor
    · obtain ⟨data, hdata⟩ := query_succeeds rt
        (whereStr "doctorId" u.uid
          (match truthyParam patientId with
           | some v => whereStr "patientId" v s.prescriptions
           | none => s.prescriptions))
        (fun p hp => hall p ((mem_doctor_query u.uid patientId s.prescriptions p).mp hp).1)
      have hshape : listPrescriptions rt (some u) patientId none s =
          match echoAll ["createdAt"] (orderByDesc rt "createdAt"
            (whereStr "doctorId" u.uid
              (match truthyParam patientId with
               | some v => whereStr "patientId" v s.prescriptions
               | none => s.prescriptions))) with
          | none => failure 500 "Failed to fetch prescriptions"
          | some prescriptions =>
            { status := 200,
              body := [("success", .bool true), ("data", .arr prescriptions),
                       ("count", .num prescriptions.length)] } := by
        simp only [listPrescriptions, hrole, ↓reduceIte]
        all_goals rfl
      rw [hshape, hdata]
    · intro hsome
      cases hpat : getDoc pid s.patients with
      | none => simp [hpat] at hsome
      | some patientDoc =>
        obtain ⟨data, hdata⟩ := query_succeeds rt
          (whereStr "doctorId" u.uid (whereStr "patientId" pid s.prescriptions))
          (fun p hp => hall p ((hq2 p).mp hp).1)
        simp [listPrescriptionsForPatient, hpat, hrole, hdata]

theorem doctor_listed_own_prescriptions_witness :
    (listPrescriptions rt0 (some dan) none none storeRx).status = 200 ∧
    (responseData (listPrescriptions rt0 (some dan) none none storeRx)).length = 2 ∧
    (listPrescriptionsForPatient rt0 (some dan) "p1" storeRx).status = 200 ∧
    (responseData (listPrescriptionsForPatient rt0 (some dan) "p1" storeRx)).length = 1 ∧
    (∀ e ∈ responseData (listPrescriptions rt0 (some dan) none none storeRx),
        ∃ id doc o, (id, doc) ∈ storeRx.prescriptions ∧
          VisibleTo dan.uid (truthyParam none) doc ∧
          echoDoc id doc ["createdAt"] = some o ∧ e = .obj o ∧
          getField "doctorId" o = some (.str dan.uid)) ∧
    (∀ e ∈ responseData (listPrescriptionsForPatient rt0 (some dan) "p1" storeRx),
        ∃ id doc o, (id, doc) ∈ storeRx.prescriptions ∧ VisibleTo dan.uid (some "p1") doc ∧
          echoDoc id doc ["createdAt"] = some o ∧ e = .obj o ∧
          getField "doctorId" o = some (.str dan.uid)) :=
  ⟨rfl, rfl, rfl, rfl,
   ((doctor_listed_own_prescriptions rt0 dan none "p1" storeRx rfl).1 rfl).1,
   ((doctor_listed_own_prescriptions rt0 dan none "p1" storeRx rfl).2.1 rfl).1⟩

/-! ## What each prescription handler does to the store -/

/-- The handler of `POST /prescriptions` either leaves the store as it is and does not
answer 201, or passes every check and appends one new prescription. -/
theorem createPrescriptionHandler_spec (env : Env) (user : Option Principal) (body : Fields)
    (s : Store) :
    ((createPrescriptionHandler env user body s).1 = s ∧
      (createPrescriptionHandler env user body s).2.status ≠ 201) ∨
    ∃ pid patientDoc meds name stored notes u,
      getField "patientId" body = some (.str pid) ∧
      getField "medications" body = some (.arr meds) ∧
      meds ≠ [] ∧
      getDoc pid s.patients = some patientDoc ∧
      validateMeds meds = .pass ∧
      jsOr (getField "patientName" body) (getField "name" patientDoc) = some name ∧
      normalizeMeds meds = some stored ∧
      trimOrEmpty (getField "notes" body) = some notes ∧
      user = some u ∧
      getDoc env.newId s.prescriptions = none ∧
      (createPrescriptionHandler env user body s).2.status = 201 ∧
      (createPrescriptionHandler env user body s).1 =
        { s with prescriptions := s.prescriptions ++
          [(env.newId, prescriptionData env u pid name stored notes)] } := by
  unfold createPrescriptionHandler
  simp only []
  split
  · left; simp [failure]
  · rename_i hcond
    split
    · rename_i pid hpid
      split
      · left; simp [failure]
      · rename_i patientDoc hpat
        split
        · left; simp [failure]
        · left; simp [failure]
        · rename_i hval
          split
          · rename_i name u stored notes hname hstored hnotes
            split
            · left; simp [failure]
            · rename_i hnew
              right
              cases hmeds : getField "medications" body with
              | none => simp [hmeds, truthy] at hcond
              | some v =>
                cases v with
                | arr meds =>
                  refine ⟨pid, patientDoc, meds, name, stored, notes, u, hpid, rfl, ?_, hpat,
                    ?_, hname, ?_, hnotes, rfl, hnew, rfl, ?_⟩
                  · intro h; subst h; simp [hmeds, elems] at hcond
                  · simpa [hmeds, elems] using hval
                  · simpa [hmeds, elems] using hstored
                  · simp [hmeds, elems]
                | _ => simp [hmeds, isArray] at hcond
          · left; simp [failure]
    · left; simp [failure]

theorem finishRxUpdate_store (id : String) (updates : Fields) (s : Store) :
    (finishRxUpdate id updates s).1 =
      { s with prescriptions := updateDoc id updates s.prescriptions } := by
  unfold finishRxUpdate
  simp only []
  split
  · rfl
  · split <;> rfl

/-- The handler of `PUT /prescriptions/:id` either leaves the store as it is, or merges
a patch into a prescription owned by the caller: the stripped and stamped body when it
carries no truthy `medications`, else that body with the normalised medications. -/
theorem updatePrescriptionHandler_spec (env : Env) (user : Option Principal) (id : String)
    (body : Fields) (s : Store) :
    (updatePrescriptionHandler env user id body s).1 = s ∨
    ∃ doc u patch,
      getDoc id s.prescriptions = some doc ∧
      user = some u ∧
      getField "doctorId" doc = some (.str u.uid) ∧
      ((truthy (getField "medications" body) = false ∧
          patch = setField "updatedAt" (.date env.t0) (stripRxProtected body)) ∨
        ∃ meds stored,
          getField "medications" body = some (.arr meds) ∧ meds ≠ [] ∧
          validateMeds meds = .pass ∧ normalizeMeds meds = some stored ∧
          patch = setField "medications" (.arr stored)
            (setField "updatedAt" (.date env.t0) (stripRxProtected body))) ∧
      (updatePrescriptionHandler env user id body s).1 =
        { s with prescriptions := updateDoc id patch s.prescriptions } := by
  have hm : getField "medications" (setField "updatedAt" (.date env.t0)
      (stripRxProtected body)) = getField "medications" body := by
    simp [getField, setField, stripRxProtected, deleteField, assocGet_assocSet,
      assocGet_assocErase]
  unfold updatePrescriptionHandler
  simp only []
  split
  · left; rfl
  · rename_i doc hdoc
    split
    · left; rfl
    · rename_i u
      split
      · left; rfl
      · rename_i hown
        have hown' : getField "doctorId" doc = some (.str u.uid) := by
          apply eq_of_isStr
          simpa using hown
        split
        · rename_i htruthy
          split
          · left; rfl
          · rename_i hcond
            split
            · left; rfl
            · left; rfl
            · rename_i hval
              split
              · left; rfl
              · rename_i stored hstored
                right
                rw [hm] at htruthy hcond hval hstored
                cases hmeds : getField "medications" body with
                | none => simp [hmeds, truthy] at htruthy
                | some v =>
                  cases v with
                  | arr meds =>
                    refine ⟨doc, u, _, hdoc, rfl, hown', Or.inr ⟨meds, stored, rfl, ?_, ?_, ?_,
                      rfl⟩, finishRxUpdate_store _ _ _⟩
                    · intro h; subst h; simp [hmeds, elems] at hcond
                    · simpa [hmeds, elems] using hval
                    · simpa [hmeds, elems] using hstored
                  | _ => simp [hmeds, isArray] at hcond
        · rename_i htruthy
          right
          rw [hm] at htruthy
          exact ⟨doc, u, _, hdoc, rfl, hown', Or.inl ⟨by simpa using htruthy, rfl⟩,
            finishRxUpdate_store _ _ _⟩

/-- The handler of `DELETE /prescriptions/:id` either leaves the store as it is, or
removes a prescription owned by the caller. -/
theorem deletePrescriptionHandler_spec (user : Option Principal) (id : String) (s : Store) :
    (deletePrescriptionHandler user id s).1 = s ∨
    ∃ doc u, getDoc id s.prescriptions = some doc ∧ user = some u ∧
      getField "doctorId" doc = some (.str u.uid) ∧
      (deletePrescriptionHandler user id s).1 =
        { s with prescriptions := deleteDoc id s.prescriptions } := by
  unfold deletePrescriptionHandler
  split
  · left; rfl
  · rename_i doc hdoc
    split
    · left; rfl
    · rename_i u
      split
      · left; rfl
      · rename_i hown
        right
        refine ⟨doc, u, hdoc, rfl, ?_, rfl⟩
        apply eq_of_isStr
        simpa using hown

/-! ## C15: a medication without one of its fields -/

theorem medInvalid_of_lacks (m : JsVal) (hnull : m ≠ .null) (h : MedLacksField m) :
    medInvalid m = some true := by
  obtain ⟨k, hk, hv⟩ := h
  cases m with
  | null => exact absurd rfl hnull
  | obj fs =>
    simp only [medProp] at hv
    simp only [List.mem_cons, List.mem_singleton, List.not_mem_nil, or_false] at hk
    rcases hk with rfl | rfl | rfl | rfl <;> rcases hv with hv | hv <;>
      simp [medInvalid, hv, truthy]
  | _ => rfl

theorem validateMeds_reject (meds : List JsVal) (hnull : ∀ m ∈ meds, m ≠ .null)
    (h : ∃ m ∈ meds, medInvalid m = some true) : validateMeds meds = .reject := by
  induction meds with
  | nil => obtain ⟨m, hm, -⟩ := h; simp at hm
  | cons x rest ih =>
    obtain ⟨m, hm, hinv⟩ := h
    unfold validateMeds
    cases hx : medInvalid x with
    | none =>
      exfalso
      have hxn := hnull x (List.mem_cons_self _ _)
      cases x <;> simp [medInvalid] at hx
      exact hxn rfl
    | some b =>
      cases b with
      | true => rfl
      | false =>
        simp only []
        apply ih (fun y hy => hnull y (List.mem_cons_of_mem _ hy))
        rcases List.mem_cons.mp hm with rfl | hr
        · rw [hx] at hinv; simp at hinv
        · exact ⟨m, hr, hinv⟩

/-- C15: a doctor's `POST /prescriptions` for an existing patient whose `medications`
array has no `null` entry and has an entry that lacks `name`, `dosage`, `frequency` or
`duration` (or has it empty) is answered 400 and the store is returned as it was. -/
theorem incomplete_medication_rejected (env : Env) (u : Principal) (body : Fields)
    (s : Store) (pid : String) (patientDoc : Fields) (meds : List JsVal)
    (hrole : u.role = "doctor")
    (hpid : getField "patientId" body = some (.str pid))
    (hpat : getDoc pid s.patients = some patientDoc)
    (hmeds : getField "medications" body = some (.arr meds))
    (hnull : ∀ m ∈ meds, m ≠ .null)
    (hlack : ∃ m ∈ meds, MedLacksField m) :
    (createPrescription env (some u) body s).2.status = 400 ∧
    (createPrescription env (some u) body s).1 = s := by
  have hrej : validateMeds meds = .reject := by
    apply validateMeds_reject meds hnull
    obtain ⟨m, hm, hl⟩ := hlack
    exact ⟨m, hm, medInvalid_of_lacks m (hnull m hm) hl⟩
  rw [createPrescription, guarded_pass _ u _ s hrole]
  unfold createPrescriptionHandler
  simp only [hpid, hmeds, hpat, elems, hrej]
  split <;> simp [failure]

theorem incomplete_medication_rejected_witness :
    (createPrescription env0 (some dan) bodyRxNoDosage store0).2.status = 400 ∧
    (createPrescription env0 (some dan) bodyRxNoDosage store0).1 = store0 :=
  incomplete_medication_rejected env0 dan bodyRxNoDosage store0 "p1"
    [("name", .str "Jane Doe"), ("email", .str "jane@x.com")]
    [.obj [("name", .str "Amoxicillin"), ("frequency", .str "3x daily"),
           ("duration", .str "7 days")]]
    rfl rfl rfl rfl
    (by intro m hm; simp at hm; subst hm; simp)
    ⟨_, List.mem_cons_self _ _, "dosage", by simp, Or.inl rfl⟩

/-! ## C16: stored medication entries -/

/-- C16 at the failing input: a doctor's creation whose one medication has the name
`'  '` is answered 201 and the stored entry has the empty name. -/
theorem blank_medication_persisted :
    (createPrescription env0 (some dan) bodyRxBlank store0).2.status = 201 ∧
    rxField "medications" "b1"
      (runRxOps [RxOp.create env0 (some dan) bodyRxBlank] store0) =
      some (.arr [.obj [("name", .str ""), ("dosage", .str "500mg"),
        ("frequency", .str "3x daily"), ("duration", .str "7 days")]]) ∧
    ¬ ("" ≠ "") := by
  refine ⟨rfl, rfl, by simp⟩

/-! ## C17: fields fixed at creation -/

theorem rxField_updateDoc (key id id' : String) (patch : Fields) (s : Store) :
    rxField key id' { s with prescriptions := updateDoc id patch s.prescriptions } =
      if id = id' then
        (getDoc id s.prescriptions).bind
          (fun d => (getField key patch).orElse (fun _ => getField key d))
      else rxField key id' s := by
  unfold rxField
  simp only [getDoc_updateDoc]
  by_cases h : id = id'
  · simp only [h, ↓reduceIte]
    cases getDoc id' s.prescriptions <;> simp [getField_mergeFields]
  · simp only [h, ↓reduceIte]

/-- The patch written by `PUT /prescriptions/:id` carries none of the protected keys. -/
theorem rx_patch_protected (env : Env) (body : Fields) (key : String)
    (hkey : key = "doctorId" ∨ key = "patientId" ∨ key = "createdAt") (patch : Fields)
    (hpatch : patch = setField "updatedAt" (.date env.t0) (stripRxProtected body) ∨
      ∃ stored, patch = setField "medications" (.arr stored)
        (setField "updatedAt" (.date env.t0) (stripRxProtected body))) :
    getField key patch = none := by
  rcases hkey with rfl | rfl | rfl <;> rcases hpatch with rfl | ⟨stored, rfl⟩ <;>
    simp [getField, setField, stripRxProtected, deleteField, assocGet_assocSet,
      assocGet_assocErase]

/-- One prescription request leaves `doctorId`, `patientId` and `createdAt` of an
existing prescription as they were, unless it deletes the prescription. -/
theorem rx_protected_step (op : RxOp) (s : Store) (id key : String)
    (hkey : key = "doctorId" ∨ key = "patientId" ∨ key = "createdAt")
    (hex : (getDoc id s.prescriptions).isSome = true) :
    rxField key id (op.run s).1 = rxField key id s ∨
      getDoc id (op.run s).1.prescriptions = none := by
  obtain ⟨b, hb⟩ := Option.isSome_iff_exists.mp hex
  cases op with
  | create env user body =>
    left
    show rxField key id (createPrescription env user body s).1 = _
    unfold createPrescription
    rcases guarded_spec "doctor" user (createPrescriptionHandler env user body) s with hg | hg
    · rw [hg.1]
    · rw [hg.2]
      rcases createPrescriptionHandler_spec env user body s with hc | hc
      · rw [hc.1]
      · obtain ⟨pid, patientDoc, meds, name, stored, notes, u, -, -, -, -, -, -, -, -, -, -, -,
          hs⟩ := hc
        rw [hs]
        unfold rxField getDoc at *
        simp [assocGet_append, hb]
  | update env user id' body =>
    left
    show rxField key id (updatePrescription env user id' body s).1 = _
    unfold updatePrescription
    rcases guarded_spec "doctor" user (updatePrescriptionHandler env user id' body) s
      with hg | hg
    · rw [hg.1]
    · rw [hg.2]
      rcases updatePrescriptionHandler_spec env user id' body s with hc | hc
      · rw [hc]
      · obtain ⟨doc0, u, patch, hdoc0, -, -, hpatch, hs⟩ := hc
        rw [hs, rxField_updateDoc]
        have hnone : getField key patch = none := by
          apply rx_patch_protected env body key hkey
          rcases hpatch with ⟨-, h⟩ | ⟨meds, stored, -, -, -, -, h⟩
          · exact Or.inl h
          · exact Or.inr ⟨stored, h⟩
        by_cases hid : id' = id
        · subst hid
          simp [hdoc0, hnone, rxField]
        · simp [hid]
  | delete user id' =>
    show rxField key id (deletePrescription user id' s).1 = _ ∨
      getDoc id (deletePrescription user id' s).1.prescriptions = none
    unfold deletePrescription
    rcases guarded_spec "doctor" user (deletePrescriptionHandler user id') s with hg | hg
    · left; rw [hg.1]
    · rw [hg.2]
      rcases deletePrescriptionHandler_spec user id' s with hc | hc
      · left; rw [hc]
      · obtain ⟨doc0, u, -, -, -, hs⟩ := hc
        rw [hs]
        by_cases hid : id' = id
        · right
          subst hid
          simp [getDoc, deleteDoc, assocGet_assocErase]
        · left
          unfold rxField getDoc deleteDoc
          simp [assocGet_assocErase, hid]

theorem rx_protected_runRxOps (ops : List RxOp) (s : Store) (id key : String)
    (hkey : key = "doctorId" ∨ key = "patientId" ∨ key = "createdAt")
    (halive : AliveAlong id ops s) :
    rxField key id (runRxOps ops s) = rxField key id s := by
  induction ops generalizing s with
  | nil => rfl
  | cons op rest ih =>
    obtain ⟨hex, hrest⟩ := halive
    simp only [runRxOps]
    rw [ih _ hrest]
    rcases rx_protected_step op s id key hkey hex with h | h
    · exact h
    · exfalso
      have : (getDoc id (op.run s).1.prescriptions).isSome = true := by
        cases rest with
        | nil => exact hrest
        | cons o os => exact hrest.1
      rw [h] at this
      simp at this

/-- The route `POST /prescriptions` answers 201 only through the success branch of its
handler. -/
theorem createPrescription_created (env : Env) (user : Option Principal) (body : Fields)
    (s : Store) (h : (createPrescription env user body s).2.status = 201) :
    ∃ pid patientDoc meds name stored notes u,
      getField "patientId" body = some (.str pid) ∧
      getField "medications" body = some (.arr meds) ∧
      getDoc pid s.patients = some patientDoc ∧
      validateMeds meds = .pass ∧
      normalizeMeds meds = some stored ∧
      user = some u ∧ u.role = "doctor" ∧
      getDoc env.newId s.prescriptions = none ∧
      (createPrescription env user body s).1 =
        { s with prescriptions := s.prescriptions ++
          [(env.newId, prescriptionData env u pid name stored notes)] } := by
  unfold createPrescription at h ⊢
  rcases guarded_spec "doctor" user (createPrescriptionHandler env user body) s with hg | hg
  · rcases hg.2 with h1 | h1 <;> rw [h1] at h <;> simp at h
  · rw [hg.2] at h ⊢
    obtain ⟨⟨u0, hu0, hr0⟩, -⟩ := hg
    rcases createPrescriptionHandler_spec env user body s with hc | hc
    · exact absurd h hc.2
    · obtain ⟨pid, patientDoc, meds, name, stored, notes, u, h1, h2, -, h4, h5, -, h7, -, h9,
        h10, -, h12⟩ := hc
      have : u0 = u := by rw [h9] at hu0; exact (Option.some.inj hu0).symm
      subst this
      exact ⟨pid, patientDoc, meds, name, stored, notes, u0, h1, h2, h4, h5, h7, h9, hr0, h10,
        h12⟩

/-- C17: when `POST /prescriptions` answers 201 the new prescription's `doctorId` is the
uid of the calling doctor; and along every sequence of create, update and delete
requests, with arbitrary bodies, during which a prescription keeps existing, its
stored `doctorId`, `patientId` and `createdAt` stay what they were. -/
theorem prescription_owner_fixed (env : Env) (user : Option Principal) (body : Fields)
    (s : Store) (ops : List RxOp) (id : String) :
    ((createPrescription env user body s).2.status = 201 →
      ∃ u, user = some u ∧
        rxField "doctorId" env.newId (createPrescription env user body s).1 =
          some (.str u.uid)) ∧
    (AliveAlong id ops s →
      rxField "doctorId" id (runRxOps ops s) = rxField "doctorId" id s ∧
      rxField "patientId" id (runRxOps ops s) = rxField "patientId" id s ∧
      rxField "createdAt" id (runRxOps ops s) = rxField "createdAt" id s) := by
  constructor
  · intro h
    obtain ⟨pid, patientDoc, meds, name, stored, notes, u, -, -, -, -, -, hu, -, hnew, hs⟩ :=
      createPrescription_created env user body s h
    refine ⟨u, hu, ?_⟩
    rw [hs]
    simp only [rxField, getDoc_append_new _ _ _ hnew, Option.bind_some]
    rfl
  · intro halive
    exact ⟨rx_protected_runRxOps ops s id _ (Or.inl rfl) halive,
      rx_protected_runRxOps ops s id _ (Or.inr (Or.inl rfl)) halive,
      rx_protected_runRxOps ops s id _ (Or.inr (Or.inr rfl)) halive⟩

theorem prescription_owner_fixed_witness :
    ((createPrescription env0 (some dan) bodyRx storeRx).2.status = 201 ∧
      ∃ u, some dan = some u ∧
        rxField "doctorId" env0.newId (createPrescription env0 (some dan) bodyRx storeRx).1 =
          some (.str u.uid)) ∧
    (AliveAlong "r1" [RxOp.update env1 (some dan) "r1" bodyTakeOver,
        RxOp.create env0 (some eve) bodyRx, RxOp.delete (some dan) "r3"] storeRx ∧
      rxField "doctorId" "r1" (runRxOps [RxOp.update env1 (some dan) "r1" bodyTakeOver,
        RxOp.create env0 (some eve) bodyRx, RxOp.delete (some dan) "r3"] storeRx) =
        rxField "doctorId" "r1" storeRx ∧
      rxField "patientId" "r1" (runRxOps [RxOp.update env1 (some dan) "r1" bodyTakeOver,
        RxOp.create env0 (some eve) bodyRx, RxOp.delete (some dan) "r3"] storeRx) =
        rxField "patientId" "r1" storeRx ∧
      rxField "createdAt" "r1" (runRxOps [RxOp.update env1 (some dan) "r1" bodyTakeOver,
        RxOp.create env0 (some eve) bodyRx, RxOp.delete (some dan) "r3"] storeRx) =
        rxField "createdAt" "r1" storeRx) ∧
    rxField "notes" "r1" (runRxOps [RxOp.update env1 (some dan) "r1" bodyTakeOver,
        RxOp.create env0 (some eve) bodyRx, RxOp.delete (some dan) "r3"] storeRx) =
      some (.str "changed") ∧
    rxField "doctorId" "r1" storeRx = some (.str "d1") :=
  ⟨⟨rfl, (prescription_owner_fixed env0 (some dan) bodyRx storeRx [] "r1").1 rfl⟩,
   ⟨⟨rfl, rfl, rfl, rfl⟩,
    (prescription_owner_fixed env0 (some dan) bodyRx storeRx
      [RxOp.update env1 (some dan) "r1" bodyTakeOver,
       RxOp.create env0 (some eve) bodyRx, RxOp.delete (some dan) "r3"] "r1").2
      ⟨rfl, rfl, rfl, rfl⟩⟩,
   rfl, rfl⟩

/-! ## C18: a patch with `medications` -/

/-- C18 at the failing input: the owner's `PUT /prescriptions/r1` with the patch
`{ medications: null }` is answered 200, not 400, and the stored `medications` is
`null` afterwards, not a list. -/
theorem null_medications_stored :
    rxField "doctorId" "r1" storeRx = some (.str dan.uid) ∧
    (updatePrescription env1 (some dan) "r1" bodyMedsNull storeRx).2.status = 200 ∧
    rxField "medications" "r1" (updatePrescription env1 (some dan) "r1" bodyMedsNull storeRx).1
      = some .null ∧
    isArray (some JsVal.null) = false := by
  refine ⟨rfl, rfl, rfl, rfl⟩

/-! ## C19, C20: registration -/

theorem trimOf_some (v : Option JsVal) (t : String) (h : trimOf v = some t) :
    ∃ x, v = some (.str x) ∧ t = jsTrim x := by
  unfold trimOf at h
  split at h
  · rename_i x
    exact ⟨x, rfl, (Option.some.inj h).symm⟩
  · simp at h

theorem lowerTrimOf_some (rt : Runtime) (v : Option JsVal) (t : String)
    (h : lowerTrimOf rt v = some t) :
    ∃ x, v = some (.str x) ∧ t = jsTrim (rt.toLowerCase x) := by
  unfold lowerTrimOf at h
  split at h
  · rename_i x
    exact ⟨x, rfl, (Option.some.inj h).symm⟩
  · simp at h

/-- The handler of `POST /patients` either leaves the store as it is and does not
answer 201, or passes every check and appends one new patient. -/
theorem registerPatientHandler_spec (env : Env) (rt : Runtime) (user : Option Principal)
    (body : Fields) (s : Store) :
    ((registerPatientHandler env rt user body s).1 = s ∧
      (registerPatientHandler env rt user body s).2.status ≠ 201) ∨
    ∃ n e p a dobv dob ec mh u,
      getField "name" body = some (.str n) ∧
      getField "email" body = some (.str e) ∧
      getField "phone" body = some (.str p) ∧
      getField "address" body = some (.str a) ∧
      getField "dateOfBirth" body = some dobv ∧ rt.parseDate dobv = some dob ∧
      trimOrEmpty (getField "emergencyContact" body) = some ec ∧
      trimOrEmpty (getField "medicalHistory" body) = some mh ∧
      user = some u ∧
      whereEq rt "email" (.str e) s.patients = [] ∧
      getDoc env.newId s.patients = none ∧
      (registerPatientHandler env rt user body s).2.status = 201 ∧
      (registerPatientHandler env rt user body s).1 =
        { s with patients := s.patients ++
          [(env.newId, patientData env rt u (jsTrim n) (jsTrim (rt.toLowerCase e))
            (jsTrim p) (jsTrim a) dob ec mh)] } := by
  unfold registerPatientHandler
  simp only []
  split
  · left; simp [failure]
  · split
    · rename_i emailValue dobValue hemail hdob
      split
      · left; simp [failure]
      · rename_i hq
        split
        · rename_i n' e' p' a' dob ec mh u hn he hp ha hd hec hmh
          split
          · left; simp [failure]
          · rename_i hnew
            right
            obtain ⟨n, hn1, rfl⟩ := trimOf_some _ _ hn
            obtain ⟨p, hp1, rfl⟩ := trimOf_some _ _ hp
            obtain ⟨a, ha1, rfl⟩ := trimOf_some _ _ ha
            obtain ⟨e, he1, rfl⟩ := lowerTrimOf_some rt _ _ he
            have hev : emailValue = .str e := by
              rw [he1] at hemail
              exact (Option.some.inj hemail).symm
            subst hev
            exact ⟨n, e, p, a, dobValue, dob, ec, mh, u, hn1, he1, hp1, ha1, hdob, hd, hec,
              hmh, rfl, by simpa [List.isEmpty_iff] using hq, hnew, rfl, rfl⟩
        · left; simp [failure]
    · left; simp [failure]

/-- The route `POST /patients` answers 201 only through the success branch of its
handler. -/
theorem registerPatient_created (env : Env) (rt : Runtime) (user : Option Principal)
    (body : Fields) (s : Store)
    (h : (registerPatient env rt user body s).2.status = 201) :
    ∃ n e p a dobv dob ec mh u,
      getField "name" body = some (.str n) ∧
      getField "email" body = some (.str e) ∧
      getField "phone" body = some (.str p) ∧
      getField "address" body = some (.str a) ∧
      getField "dateOfBirth" body = some dobv ∧ rt.parseDate dobv = some dob ∧
      trimOrEmpty (getField "emergencyContact" body) = some ec ∧
      trimOrEmpty (getField "medicalHistory" body) = some mh ∧
      user = some u ∧
      whereEq rt "email" (.str e) s.patients = [] ∧
      getDoc env.newId s.patients = none ∧
      (registerPatient env rt user body s).1 =
        { s with patients := s.patients ++
          [(env.newId, patientData env rt u (jsTrim n) (jsTrim (rt.toLowerCase e))
            (jsTrim p) (jsTrim a) dob ec mh)] } := by
  unfold registerPatient at h ⊢
  rcases guarded_spec "receptionist" user (registerPatientHandler env rt user body) s
    with hg | hg
  · rcases hg.2 with h1 | h1 <;> rw [h1] at h <;> simp at h
  · rw [hg.2] at h ⊢
    rcases registerPatientHandler_spec env rt user body s with hc | hc
    · exact absurd h hc.2
    · obtain ⟨n, e, p, a, dobv, dob, ec, mh, u, h1, h2, h3, h4, h5, h6, h7, h8, h9, h10, h11,
        -, h13⟩ := hc
      exact ⟨n, e, p, a, dobv, dob, ec, mh, u, h1, h2, h3, h4, h5, h6, h7, h8, h9, h10, h11,
        h13⟩

/-- C19 at the failing input: the store holds a patient with email `jane@x.com`; a
receptionist's registration with email `JANE@X.COM` is answered 201 and a second
patient with the stored email `jane@x.com` is persisted. -/
theorem duplicate_email_by_case :
    patientField "email" "p1" storeJane = some (.str "jane@x.com") ∧
    getField "email" bodyJaneUpper = some (.str "JANE@X.COM") ∧
    rt0.toLowerCase "JANE@X.COM" = "jane@x.com" ∧
    (registerPatient env2 rt0 (some rita) bodyJaneUpper storeJane).2.status = 201 ∧
    patientField "email" "p2" (registerPatient env2 rt0 (some rita) bodyJaneUpper storeJane).1
      = some (.str "jane@x.com") ∧
    patientField "email" "p1" (registerPatient env2 rt0 (some rita) bodyJaneUpper storeJane).1
      = some (.str "jane@x.com") := by
  refine ⟨rfl, rfl, rfl, rfl, rfl, rfl⟩

theorem trimOrEmpty_cases (v : Option JsVal) (t : String) (h : trimOrEmpty v = some t) :
    (∀ x, v = some (.str x) → t = jsTrim x) ∧ (v = none → t = "") ∧
      (v = some .null → t = "") := by
  refine ⟨?_, ?_, ?_⟩
  · intro x hx
    subst hx
    simpa [trimOrEmpty] using h.symm
  · intro hx
    subst hx
    simpa [trimOrEmpty] using h.symm
  · intro hx
    subst hx
    simpa [trimOrEmpty] using h.symm

/-- C20: whenever `POST /patients` answers 201, the submitted `name`, `email`, `phone`
and `address` are strings and the patient persisted under the generated id has `name`,
`phone` and `address` trimmed, `email` lower-cased then trimmed, `emergencyContact` and
`medicalHistory` trimmed when submitted as strings and empty when absent, and
`registeredBy` = the uid of the calling user. -/
theorem registered_patient_normalised (env : Env) (rt : Runtime) (user : Option Principal)
    (body : Fields) (s : Store)
    (h : (registerPatient env rt user body s).2.status = 201) :
    ∃ n e p a u,
      getField "name" body = some (.str n) ∧ getField "email" body = some (.str e) ∧
      getField "phone" body = some (.str p) ∧ getField "address" body = some (.str a) ∧
      user = some u ∧
      patientField "name" env.newId (registerPatient env rt user body s).1 =
        some (.str (jsTrim n)) ∧
      patientField "phone" env.newId (registerPatient env rt user body s).1 =
        some (.str (jsTrim p)) ∧
      patientField "address" env.newId (registerPatient env rt user body s).1 =
        some (.str (jsTrim a)) ∧
      patientField "email" env.newId (registerPatient env rt user body s).1 =
        some (.str (jsTrim (rt.toLowerCase e))) ∧
      (∀ x, getField "emergencyContact" body = some (.str x) →
        patientField "emergencyContact" env.newId (registerPatient env rt user body s).1 =
          some (.str (jsTrim x))) ∧
      (getField "emergencyContact" body = none →
        patientField "emergencyContact" env.newId (registerPatient env rt user body s).1 =
          some (.str "")) ∧
      (∀ x, getField "medicalHistory" body = some (.str x) →
        patientField "medicalHistory" env.newId (registerPatient env rt user body s).1 =
          some (.str (jsTrim x))) ∧
      (getField "medicalHistory" body = none →
        patientField "medicalHistory" env.newId (registerPatient env rt user body s).1 =
          some (.str "")) ∧
      patientField "registeredBy" env.newId (registerPatient env rt user body s).1 =
        some (.str u.uid) := by
  obtain ⟨n, e, p, a, dobv, dob, ec, mh, u, hn, he, hp, ha, -, -, hec, hmh, hu, -, hnew, hs⟩ :=
    registerPatient_created env rt user body s h
  obtain ⟨hec1, hec2, -⟩ := trimOrEmpty_cases _ _ hec
  obtain ⟨hmh1, hmh2, -⟩ := trimOrEmpty_cases _ _ hmh
  have hf : ∀ key, patientField key env.newId (registerPatient env rt user body s).1 =
      getField key (patientData env rt u (jsTrim n) (jsTrim (rt.toLowerCase e))
        (jsTrim p) (jsTrim a) dob ec mh) := by
    intro key
    rw [hs]
    simp only [patientField, getDoc_append_new _ _ _ hnew]
    rfl
  refine ⟨n, e, p, a, u, hn, he, hp, ha, hu, ?_, ?_, ?_, ?_, ?_, ?_, ?_, ?_, ?_⟩
  · rw [hf]; rfl
  · rw [hf]; rfl
  · rw [hf]; rfl
  · rw [hf]; rfl
  · intro x hx
    rw [hf, ← hec1 x hx]; rfl
  · intro hx
    rw [hf, ← hec2 hx]; rfl
  · intro x hx
    rw [hf, ← hmh1 x hx]; rfl
  · intro hx
    rw [hf, ← hmh2 hx]; rfl
  · rw [hf]; rfl

theorem registered_patient_normalised_witness :
    (registerPatient env2 rt0 (some rita) bodyJaneUpper store0).2.status = 201 ∧
    (∃ n e p a u,
      getField "name" bodyJaneUpper = some (.str n) ∧
      getField "email" bodyJaneUpper = some (.str e) ∧
      getField "phone" bodyJaneUpper = some (.str p) ∧
      getField "address" bodyJaneUpper = some (.str a) ∧
      some rita = some u ∧
      patientField "name" env2.newId
        (registerPatient env2 rt0 (some rita) bodyJaneUpper store0).1 =
        some (.str (jsTrim n)) ∧
      patientField "phone" env2.newId
        (registerPatient env2 rt0 (some rita) bodyJaneUpper store0).1 =
        some (.str (jsTrim p)) ∧
      patientField "address" env2.newId
        (registerPatient env2 rt0 (some rita) bodyJaneUpper store0).1 =
        some (.str (jsTrim a)) ∧
      patientField "email" env2.newId
        (registerPatient env2 rt0 (some rita) bodyJaneUpper store0).1 =
        some (.str (jsTrim (rt0.toLowerCase e))) ∧
      (∀ x, getField "emergencyContact" bodyJaneUpper = some (.str x) →
        patientField "emergencyContact" env2.newId
          (registerPatient env2 rt0 (some rita) bodyJaneUpper store0).1 =
          some (.str (jsTrim x))) ∧
      (getField "emergencyContact" bodyJaneUpper = none →
        patientField "emergencyContact" env2.newId
          (registerPatient env2 rt0 (some rita) bodyJaneUpper store0).1 =
          some (.str "")) ∧
      (∀ x, getField "medicalHistory" bodyJaneUpper = some (.str x) →
        patientField "medicalHistory" env2.newId
          (registerPatient env2 rt0 (some rita) bodyJaneUpper store0).1 =
          some (.str (jsTrim x))) ∧
      (getField "medicalHistory" bodyJaneUpper = none →
        patientField "medicalHistory" env2.newId
          (registerPatient env2 rt0 (some rita) bodyJaneUpper store0).1 =
          some (.str "")) ∧
      patientField "registeredBy" env2.newId
        (registerPatient env2 rt0 (some rita) bodyJaneUpper store0).1 =
        some (.str u.uid)) ∧
    patientField "name" "p2" (registerPatient env2 rt0 (some rita) bodyJaneUpper store0).1 =
      some (.str "Jane Roe") ∧
    patientField "medicalHistory" "p2"
      (registerPatient env2 rt0 (some rita) bodyJaneUpper store0).1 = some (.str "none") ∧
    patientField "emergencyContact" "p2"
      (registerPatient env2 rt0 (some rita) bodyJaneUpper store0).1 = some (.str "") :=
  ⟨rfl, registered_patient_normalised env2 rt0 (some rita) bodyJaneUpper store0 rfl,
   rfl, rfl, rfl⟩

/-! ## C21: required registration fields -/

/-- C21: a receptionist's `POST /patients` whose body lacks one of `name`, `email`,
`phone`, `address`, `dateOfBirth`, or has it as the empty string, is answered 400 and
the store is returned as it was. -/
theorem registration_requires_fields (env : Env) (rt : Runtime) (u : Principal)
    (body : Fields) (s : Store) (key : String)
    (hrole : u.role = "receptionist")
    (hkey : key ∈ ["name", "email", "phone", "address", "dateOfBirth"])
    (hmissing : getField key body = none ∨ getField key body = some (.str "")) :
    (registerPatient env rt (some u) body s).2.status = 400 ∧
    (registerPatient env rt (some u) body s).1 = s := by
  have hf : truthy (getField key body) = false := by
    rcases hmissing with h | h <;> rw [h] <;> simp [truthy]
  rw [registerPatient, guarded_pass _ u _ s hrole]
  unfold registerPatientHandler
  simp only [List.mem_cons, List.mem_singleton, List.not_mem_nil, or_false] at hkey
  have hcond : (!truthy (getField "name" body) || !truthy (getField "email" body) ||
      !truthy (getField "phone" body) || !truthy (getField "address" body) ||
      !truthy (getField "dateOfBirth" body)) = true := by
    rcases hkey with rfl | rfl | rfl | rfl | rfl <;> simp [hf]
  simp [hcond, failure]

theorem registration_requires_fields_witness :
    (registerPatient env2 rt0 (some rita)
      [("name", .str "Jane"), ("email", .str ""), ("phone", .str "1"),
       ("address", .str "x"), ("dateOfBirth", .str "1990-01-01")] store0).2.status = 400 ∧
    (registerPatient env2 rt0 (some rita)
      [("name", .str "Jane"), ("email", .str ""), ("phone", .str "1"),
       ("address", .str "x"), ("dateOfBirth", .str "1990-01-01")] store0).1 = store0 :=
  registration_requires_fields env2 rt0 rita _ store0 "email" rfl (by simp) (Or.inr rfl)

/-! ## C22: the protected fields of a patient -/

theorem getField_stripPatientProtected (key : String) (body : Fields)
    (hkey : key ∈ ["token", "createdAt", "registeredBy", "id"]) :
    getField key (stripPatientProtected body) = none := by
  unfold stripPatientProtected getField deleteField
  simp only [List.mem_cons, List.mem_singleton, List.not_mem_nil, or_false] at hkey
  rcases hkey with h | h | h | h <;> subst h <;> simp [assocGet_assocErase]

theorem withDateOfBirth_spec (rt : Runtime) (updates patch : Fields)
    (h : withDateOfBirth rt updates = some (some patch)) :
    patch = updates ∨ ∃ t, patch = setField "dateOfBirth" (.date t) updates := by
  unfold withDateOfBirth at h
  split at h
  · split at h
    · split at h
      · simp at h
      · rename_i v _ _ _
        cases hp : rt.parseDate v with
        | none => simp [hp] at h
        | some t =>
          simp only [hp, Option.map_some', Option.some.injEq] at h
          exact Or.inr ⟨t, h.symm⟩
    · simp only [Option.some.injEq] at h
      exact Or.inl h.symm
  · simp only [Option.some.injEq] at h
    exact Or.inl h.symm

/-- What `PUT /patients/:id` does to the store: nothing, or one merge into the patient
of a patch that carries none of the protected keys. -/
theorem updatePatient_spec (env : Env) (rt : Runtime) (id : String) (body : Fields)
    (s : Store) :
    (updatePatient env rt id body s).1 = s ∨
    ∃ patch, (∀ key ∈ ["token", "createdAt", "registeredBy", "id"],
        getField key patch = none) ∧
      (getDoc id s.patients).isSome ∧
      (updatePatient env rt id body s).1 =
        { s with patients := updateDoc id patch s.patients } := by
  unfold updatePatient
  simp only []
  cases hw : withDateOfBirth rt (setField "updatedAt" (.date env.t0)
      (stripPatientProtected body)) with
  | none => left; rfl
  | some patch =>
    cases hd : getDoc id s.patients with
    | none => left; rfl
    | some d =>
      cases patch with
      | none => left; rfl
      | some updates =>
        right
        refine ⟨updates, ?_, rfl, ?_⟩
        · intro key hkey
          have hstrip := getField_stripPatientProtected key body hkey
          have hne : "updatedAt" ≠ key := by
            simp only [List.mem_cons, List.mem_singleton, List.not_mem_nil, or_false] at hkey
            rcases hkey with h | h | h | h <;> subst h <;> decide
          have hne2 : "dateOfBirth" ≠ key := by
            simp only [List.mem_cons, List.mem_singleton, List.not_mem_nil, or_false] at hkey
            rcases hkey with h | h | h | h <;> subst h <;> decide
          have hbase : getField key (setField "updatedAt" (.date env.t0)
              (stripPatientProtected body)) = none := by
            unfold getField at hstrip ⊢
            unfold setField
            rw [assocGet_assocSet, if_neg hne, hstrip]
          rcases withDateOfBirth_spec rt _ _ hw with h | ⟨t, h⟩
          · rw [h]; exact hbase
          · rw [h]
            unfold getField setField at hbase ⊢
            rw [assocGet_assocSet, if_neg hne2, hbase]
        · dsimp only
          split <;> [rfl; (split <;> rfl)]

theorem map_fst_assocSet {β : Type} (k : String) (v : β) (l : List (String × β))
    (h : (assocGet k l).isSome) : (assocSet k v l).map Prod.fst = l.map Prod.fst := by
  induction l with
  | nil => simp [assocGet] at h
  | cons p rest ih =>
    obtain ⟨k0, v0⟩ := p
    by_cases h0 : k0 = k
    · simp [assocSet, h0]
    · simp only [assocGet, h0, ↓reduceIte] at h
      simp [assocSet, h0, ih h]

theorem map_fst_updateDoc (id : String) (patch : Fields) (c : Collection) :
    (updateDoc id patch c).map Prod.fst = c.map Prod.fst := by
  unfold updateDoc
  cases h : assocGet id c with
  | none => rfl
  | some d => exact map_fst_assocSet id _ c (by simp [h])

/-- C22: for every patch, `PUT /patients/:id` leaves the stored `token`, `createdAt`,
`registeredBy` and `id` fields of the patient as they were, also when the patch
carries those keys, and leaves the document ids of the collection as they were; on an
id without patient the store is returned as it was, and the answer is 404 whenever
the conversion of the patch's `dateOfBirth` to a date does not raise. -/
theorem updatePatient_keeps_protected (env : Env) (rt : Runtime) (id : String)
    (body : Fields) (s : Store) :
    (∀ key ∈ ["token", "createdAt", "registeredBy", "id"],
      patientField key id (updatePatient env rt id body s).1 = patientField key id s) ∧
    (updatePatient env rt id body s).1.patients.map Prod.fst = s.patients.map Prod.fst ∧
    (getDoc id s.patients = none →
      (updatePatient env rt id body s).1 = s ∧
      (withDateOfBirth rt (setField "updatedAt" (.date env.t0)
          (stripPatientProtected body)) ≠ none →
        (updatePatient env rt id body s).2 = failure 404 "Patient not found")) := by
  refine ⟨?_, ?_, ?_⟩
  · intro key hkey
    rcases updatePatient_spec env rt id body s with h | ⟨patch, hp, -, h⟩
    · rw [h]
    · rw [h]
      unfold patientField
      simp only [getDoc_updateDoc, ↓reduceIte]
      cases getDoc id s.patients with
      | none => rfl
      | some d => simp [getField_mergeFields, hp key hkey]
  · rcases updatePatient_spec env rt id body s with h | ⟨patch, -, -, h⟩
    · rw [h]
    · rw [h]; exact map_fst_updateDoc id patch s.patients
  · intro hnone
    refine ⟨?_, ?_⟩
    · rcases updatePatient_spec env rt id body s with h | ⟨patch, -, hsome, h⟩
      · exact h
      · rw [hnone] at hsome; simp at hsome
    · intro hw
      unfold updatePatient
      simp only []
      cases hw2 : withDateOfBirth rt (setField "updatedAt" (.date env.t0)
          (stripPatientProtected body)) with
      | none => exact absurd hw2 hw
      | some patch => simp only [hnone]

/-- C22, counterexample to the answer on an id without patient: the store holds no
patient `p9`; a patch whose `dateOfBirth` is an object with an own `toString` property
makes `new Date(...)` raise before the patient is looked up, and the answer is 500. -/
theorem updatePatient_missing_counterexample :
    getDoc "p9" storeJane.patients = none ∧
    (updatePatient env2 rt0 "p9" [("dateOfBirth", .obj [("toString", .num 1)])]
      storeJane).2.status = 500 := by
  exact ⟨rfl, rfl⟩

theorem updatePatient_keeps_protected_witness :
    (updatePatient env2 rt0 "p1" bodyOverwrite storeJane).2.status = 200 ∧
    patientField "name" "p1" (updatePatient env2 rt0 "p1" bodyOverwrite storeJane).1 =
      some (.str "Mallory") ∧
    patientField "token" "p1" (updatePatient env2 rt0 "p1" bodyOverwrite storeJane).1 =
      patientField "token" "p1" storeJane ∧
    (updatePatient env2 rt0 "p9" bodyOverwrite storeJane).2 = failure 404 "Patient not found" :=
  ⟨rfl, rfl,
    (updatePatient_keeps_protected env2 rt0 "p1" bodyOverwrite storeJane).1 "token" (by simp),
    ((updatePatient_keeps_protected env2 rt0 "p9" bodyOverwrite storeJane).2.2 rfl).2
      (by
        rw [show withDateOfBirth rt0 (setField "updatedAt" (.date env2.t0)
          (stripPatientProtected bodyOverwrite)) = some (some (setField "updatedAt"
            (.date env2.t0) (stripPatientProtected bodyOverwrite))) from rfl]
        exact Option.some_ne_none _)⟩

/-! ## C23: the form of a generated token -/

theorem digitChar_isDigit (d : Nat) (h : d < 10) : (Nat.digitChar d).isDigit = true := by
  interval_cases d <;> decide

theorem toDigitsCore_isDigit (fuel n : Nat) (ds : List Char)
    (h : ∀ c ∈ ds, c.isDigit = true) :
    ∀ c ∈ Nat.toDigitsCore 10 fuel n ds, c.isDigit = true := by
  induction fuel generalizing n ds with
  | zero => simpa [Nat.toDigitsCore] using h
  | succ fuel ih =>
    have hd : (Nat.digitChar (n % 10)).isDigit = true :=
      digitChar_isDigit _ (Nat.mod_lt _ (by decide))
    have hcons : ∀ c ∈ Nat.digitChar (n % 10) :: ds, c.isDigit = true := by
      intro c hc
      rcases List.mem_cons.mp hc with hc | hc
      · rw [hc]; exact hd
      · exact h c hc
    unfold Nat.toDigitsCore
    simp only []
    split
    · exact hcons
    · exact ih _ _ hcons

theorem toDigitsCore_ne_nil (fuel n : Nat) (ds : List Char) (h : ds ≠ [] ∨ 0 < fuel) :
    Nat.toDigitsCore 10 fuel n ds ≠ [] := by
  induction fuel generalizing n ds with
  | zero =>
    rcases h with h | h
    · simpa [Nat.toDigitsCore] using h
    · exact absurd h (by decide)
  | succ fuel ih =>
    unfold Nat.toDigitsCore
    simp only []
    split
    · simp
    · exact ih _ _ (Or.inl (by simp))

/-- The decimal form of a clock reading that is not negative: one or more digits. -/
theorem toString_nonneg_digits (t : Int) (h : 0 ≤ t) :
    (toString t).data ≠ [] ∧ ∀ c ∈ (toString t).data, c.isDigit = true := by
  obtain ⟨n, rfl⟩ := Int.eq_ofNat_of_zero_le h
  show (Nat.repr n).data ≠ [] ∧ ∀ c ∈ (Nat.repr n).data, c.isDigit = true
  unfold Nat.repr Nat.toDigits
  simp only [List.asString]
  exact ⟨toDigitsCore_ne_nil _ _ _ (Or.inr (Nat.succ_pos _)),
    toDigitsCore_isDigit _ _ _ (by simp)⟩

theorem takeWhile_digits_append (ds rest : List Char) (h : ∀ c ∈ ds, c.isDigit = true) :
    (ds ++ '-' :: rest).takeWhile Char.isDigit = ds ∧
    (ds ++ '-' :: rest).dropWhile Char.isDigit = '-' :: rest := by
  induction ds with
  | nil =>
    have hdash : Char.isDigit '-' = false := by decide
    simp [List.takeWhile, List.dropWhile, hdash]
  | cons d ds ih =>
    have hd := h d (List.mem_cons_self _ _)
    have ih2 := ih (fun c hc => h c (List.mem_cons_of_mem _ hc))
    simp [List.takeWhile, List.dropWhile, hd, ih2.1, ih2.2]

theorem base36_upper (c : Char) (h : c ∈ base36Digits) :
    (c.toUpper.isDigit || c.toUpper.isUpper) = true := by
  revert c
  decide

/-- The token built from a clock reading that is not negative and a draw written in
base 36 has the form `PAT-<digits>-<suffix>`, the suffix being the first nine
characters after `0.` of the draw, in upper case. -/
theorem tokenSuffix_makeToken (rt : Runtime) (hclock : 0 ≤ rt.nowMs)
    (hdraw : ∀ c ∈ rt.random36.data.drop 2, c ∈ base36Digits) :
    tokenSuffix (makeToken rt) =
      some (((rt.random36.data.drop 2).take 9).map Char.toUpper) := by
  obtain ⟨hne, hdig⟩ := toString_nonneg_digits rt.nowMs hclock
  have hdata : (makeToken rt).data = 'P' :: 'A' :: 'T' :: '-' ::
      ((toString rt.nowMs).data ++ '-' ::
        ((rt.random36.data.drop 2).take 9).map Char.toUpper) := by
    unfold makeToken
    simp [String.data_append]
  obtain ⟨ht, hd⟩ := takeWhile_digits_append (toString rt.nowMs).data
    (((rt.random36.data.drop 2).take 9).map Char.toUpper) hdig
  unfold tokenSuffix
  rw [hdata]
  simp only [ht, hd]
  cases hds : (toString rt.nowMs).data with
  | nil => exact absurd hds hne
  | cons d ds =>
    simp only []
    rw [if_pos]
    rw [List.all_eq_true]
    intro c hc
    obtain ⟨c0, hc0, rfl⟩ := List.mem_map.mp hc
    exact base36_upper c0 (hdraw c0 (List.mem_of_mem_take hc0))

/-- C23, counterexample: the random draw one half is written `0.i` in base 36, so the
token generated at registration and at regeneration ends in the single character
`I`, not in nine. -/
theorem short_token_counterexample :
    (registerPatient env2 rtHalf (some rita) bodyNewPatient store0).2.status = 201 ∧
    patientField "token" "p2" (registerPatient env2 rtHalf (some rita) bodyNewPatient store0).1
      = some (.str "PAT-1700000000000-I") ∧
    patientField "token" "p1" (regenerateToken env2 rtHalf (some rita) "p1" store0).1
      = some (.str "PAT-1700000000000-I") ∧
    matchesTokenPattern "PAT-1700000000000-I" = false := by
  refine ⟨rfl, rfl, rfl, ?_⟩
  decide

/-- C23 (amended): for every clock reading that is not negative and every random draw
written in base 36, the token stored by a registration answered 201 and the token
stored by a regeneration on an existing patient is `PAT-`, one or more decimal
digits, `-`, and at most 9 characters from `0-9A-Z`: the first nine characters of the
draw after `0.`, in upper case. The pattern with exactly 9 characters is matched when
the draw has at least nine characters after `0.`. -/
theorem generated_token_form (env : Env) (rt : Runtime) (user : Option Principal)
    (u : Principal) (body : Fields) (id : String) (s : Store)
    (hclock : 0 ≤ rt.nowMs) (hdraw : ∀ c ∈ rt.random36.data.drop 2, c ∈ base36Digits) :
    (∃ suffix, tokenSuffix (makeToken rt) = some suffix ∧ suffix.length ≤ 9 ∧
      suffix = ((rt.random36.data.drop 2).take 9).map Char.toUpper) ∧
    (11 ≤ rt.random36.data.length → matchesTokenPattern (makeToken rt) = true) ∧
    ((registerPatient env rt user body s).2.status = 201 →
      patientField "token" env.newId (registerPatient env rt user body s).1 =
        some (.str (makeToken rt))) ∧
    (u.role = "receptionist" → (getDoc id s.patients).isSome = true →
      patientField "token" id (regenerateToken env rt (some u) id s).1 =
        some (.str (makeToken rt))) := by
  have hsuffix := tokenSuffix_makeToken rt hclock hdraw
  refine ⟨⟨_, hsuffix, ?_, rfl⟩, ?_, ?_, ?_⟩
  · simp only [List.length_map, List.length_take]
    exact Nat.min_le_left _ _
  · intro hlen
    unfold matchesTokenPattern
    rw [hsuffix]
    simp only [List.length_map, List.length_take, List.length_drop, beq_iff_eq]
    omega
  · intro h201
    obtain ⟨n, e, p, a, dobv, dob, ec, mh, u0, -, -, -, -, -, -, -, -, -, -, hnew, hst⟩ :=
      registerPatient_created env rt user body s h201
    rw [hst]
    unfold patientField
    simp only []
    rw [getDoc_append_new _ _ _ hnew]
    rfl
  · intro hrole hsome
    unfold regenerateToken
    rw [guarded_pass _ _ _ _ hrole]
    unfold regenerateTokenHandler
    cases hd : getDoc id s.patients with
    | none => rw [hd] at hsome; simp at hsome
    | some d =>
      simp only []
      unfold patientField
      simp only [getDoc_updateDoc, ↓reduceIte, hd, Option.map_some', Option.some_bind]
      rw [getField_mergeFields]
      rfl

theorem generated_token_form_witness :
    (0 ≤ rt0.nowMs ∧ 11 ≤ rt0.random36.data.length) ∧
    matchesTokenPattern (makeToken rt0) = true ∧
    patientField "token" "p2" (registerPatient env2 rt0 (some rita) bodyNewPatient store0).1 =
      some (.str (makeToken rt0)) :=
  have h := generated_token_form env2 rt0 (some rita) rita bodyNewPatient "p1" store0
    (by decide) (by decide)
  ⟨⟨by decide, by decide⟩, h.2.1 (by decide), h.2.2.1 rfl⟩

/-! ## C26: the role of a profile -/

/-- C26 at the failing input: the profile of `u1` has the role `receptionist`; a
`POST /auth/profile` with the token of `u1` and the role `doctor` is answered 200
and the stored role is `doctor`. -/
theorem profile_role_overwritten :
    userField "role" "u1" storeProfile = some (.str "receptionist") ∧
    (createProfile env0 ap0 (some "Bearer tok-rita") bodyDoctor storeProfile).2.status = 200 ∧
    userField "role" "u1"
      (createProfile env0 ap0 (some "Bearer tok-rita") bodyDoctor storeProfile).1 =
        some (.str "doctor") := by
  exact ⟨rfl, rfl, rfl⟩

/-! ## C27: search -/

theorem includesStr_iff (t s : String) : includesStr t s = true ↔ Occurs t s := by
  unfold includesStr Occurs
  rw [List.any_eq_true]
  constructor
  · rintro ⟨x, hx, hp⟩
    rw [List.mem_tails] at hx
    rw [List.isPrefixOf_iff_prefix] at hp
    exact List.infix_iff_prefix_suffix.mpr ⟨x, hp, hx⟩
  · intro h
    obtain ⟨x, hp, hx⟩ := List.infix_iff_prefix_suffix.mp h
    exact ⟨x, (List.mem_tails _ _).mpr hx, List.isPrefixOf_iff_prefix.mpr hp⟩

theorem lowerIncludes_spec (rt : Runtime) (term key : String) (doc : Fields)
    (h : TextOrAbsent key doc) :
    ∃ b, lowerIncludes rt term (getField key doc) = some b ∧
      (b = true ↔ ∃ x, getField key doc = some (.str x) ∧ Occurs term (rt.toLowerCase x)) := by
  rcases h with h | ⟨x, h⟩
  · rw [h]; exact ⟨false, rfl, by simp⟩
  · rw [h]
    refine ⟨includesStr term (rt.toLowerCase x), rfl, ?_⟩
    rw [includesStr_iff]
    simp

theorem plainIncludes_spec (term key : String) (doc : Fields) (h : TextOrAbsent key doc) :
    ∃ b, plainIncludes term (getField key doc) = some b ∧
      (b = true ↔ ∃ x, getField key doc = some (.str x) ∧ Occurs term x) := by
  rcases h with h | ⟨x, h⟩
  · rw [h]; exact ⟨false, rfl, by simp⟩
  · rw [h]
    refine ⟨includesStr term x, rfl, ?_⟩
    rw [includesStr_iff]
    simp

theorem orElseTest_spec (a b : Option Bool) (x y : Bool) (ha : a = some x) (hb : b = some y) :
    orElseTest a b = some (x || y) := by
  subst ha hb
  cases x <;> rfl

/-- The condition of the search on a document whose four searched fields are strings
or absent. -/
theorem searchMatches_spec (rt : Runtime) (query : String) (doc : Fields)
    (h : ∀ key ∈ ["name", "email", "phone", "token"], TextOrAbsent key doc) :
    ∃ b, searchMatches rt (rt.toLowerCase query) doc = some b ∧
      (b = true ↔ SearchHit rt query doc) := by
  obtain ⟨b1, h1, e1⟩ := lowerIncludes_spec rt (rt.toLowerCase query) "name" doc
    (h _ (by simp))
  obtain ⟨b2, h2, e2⟩ := lowerIncludes_spec rt (rt.toLowerCase query) "email" doc
    (h _ (by simp))
  obtain ⟨b3, h3, e3⟩ := plainIncludes_spec (rt.toLowerCase query) "phone" doc
    (h _ (by simp))
  obtain ⟨b4, h4, e4⟩ := lowerIncludes_spec rt (rt.toLowerCase query) "token" doc
    (h _ (by simp))
  refine ⟨b1 || (b2 || (b3 || b4)), ?_, ?_⟩
  · unfold searchMatches
    exact orElseTest_spec _ _ _ _ h1
      (orElseTest_spec _ _ _ _ h2 (orElseTest_spec _ _ _ _ h3 h4))
  · unfold SearchHit OccursLowered OccursStored
    simp only [Bool.or_eq_true, e1, e2, e3, e4]

theorem searchLoop_spec (rt : Runtime) (query : String) (patients : Collection)
    (htext : ∀ p ∈ patients, ∀ key ∈ ["name", "email", "phone", "token"],
      TextOrAbsent key p.2)
    (hecho : ∀ p ∈ patients, (echoDoc p.1 p.2 ["createdAt", "dateOfBirth"]).isSome = true) :
    ∃ found, searchLoop rt (rt.toLowerCase query) patients = some found ∧
      ∀ v, v ∈ found ↔ ∃ p data, p ∈ patients ∧
        echoDoc p.1 p.2 ["createdAt", "dateOfBirth"] = some data ∧ v = .obj data ∧
        SearchHit rt query p.2 := by
  induction patients with
  | nil => exact ⟨[], rfl, by simp⟩
  | cons p rest ih =>
    obtain ⟨found, hf, hmem⟩ := ih (fun q hq => htext q (List.mem_cons_of_mem _ hq))
      (fun q hq => hecho q (List.mem_cons_of_mem _ hq))
    obtain ⟨b, hb, hiff⟩ := searchMatches_spec rt query p.2 (htext p (List.mem_cons_self _ _))
    obtain ⟨data, hdata⟩ := Option.isSome_iff_exists.mp (hecho p (List.mem_cons_self _ _))
    obtain ⟨id, doc⟩ := p
    cases b with
    | true =>
      refine ⟨.obj data :: found, ?_, ?_⟩
      · simp only [searchLoop, hdata, hb, hf]
      · intro v
        simp only [List.mem_cons, hmem]
        constructor
        · rintro (h | ⟨q, d, hq, hd, hv, hh⟩)
          · exact ⟨(id, doc), data, Or.inl rfl, hdata, h, hiff.mp rfl⟩
          · exact ⟨q, d, Or.inr hq, hd, hv, hh⟩
        · rintro ⟨q, d, hq | hq, hd, hv, hh⟩
          · subst hq
            rw [hdata] at hd
            left
            rw [hv, ← Option.some.inj hd]
          · exact Or.inr ⟨q, d, hq, hd, hv, hh⟩
    | false =>
      refine ⟨found, ?_, ?_⟩
      · simp only [searchLoop, hdata, hb, hf]
      · intro v
        simp only [List.mem_cons, hmem]
        constructor
        · rintro ⟨q, d, hq, hd, hv, hh⟩
          exact ⟨q, d, Or.inr hq, hd, hv, hh⟩
        · rintro ⟨q, d, hq | hq, hd, hv, hh⟩
          · subst hq
            have := hiff.mpr hh
            simp at this
          · exact ⟨q, d, hq, hd, hv, hh⟩

theorem searchHit_of_echo_eq (rt : Runtime) (query : String) (id id' : String)
    (doc doc' data : Fields)
    (h : echoDoc id doc ["createdAt", "dateOfBirth"] = some data)
    (h' : echoDoc id' doc' ["createdAt", "dateOfBirth"] = some data)
    (hit : SearchHit rt query doc') : SearchHit rt query doc := by
  have hk : ∀ k ∈ ["name", "email", "phone", "token"], getField k doc = getField k doc' := by
    intro k hk
    simp only [List.mem_cons, List.mem_singleton, List.not_mem_nil, or_false] at hk
    have hid : k ≠ "id" := by rcases hk with e | e | e | e <;> subst e <;> decide
    have hkeys : k ∉ ["createdAt", "dateOfBirth"] := by
      rcases hk with e | e | e | e <;> subst e <;> decide
    rw [← getField_echoDoc k id doc _ data hid hkeys h,
      ← getField_echoDoc k id' doc' _ data hid hkeys h']
  unfold SearchHit OccursLowered OccursStored at hit ⊢
  rw [hk "name" (by simp), hk "email" (by simp), hk "phone" (by simp), hk "token" (by simp)]
  exact hit

/-- C27, counterexample: the stored phone is `555-CALL` and the term `CALL` occurs in
it as written, yet the search for `CALL` returns no patient: the phone is compared
with the term in lower case. -/
theorem search_phone_counterexample :
    patientField "phone" "p1" storeCall = some (.str "555-CALL") ∧
    Occurs "CALL" "555-CALL" ∧
    (searchPatients rt0 "CALL" storeCall).status = 200 ∧
    responseData (searchPatients rt0 "CALL" storeCall) = [] := by
  exact ⟨rfl, ⟨"555-".data, [], rfl⟩, rfl, rfl⟩

/-- C27 (amended): on a store whose patients have strings (or nothing) as `name`,
`email`, `phone` and `token` and can be echoed, the search for `t` answers 200 and
returns a stored patient exactly when `t` in lower case occurs in the lower-cased
`name`, `email` or `token`, or occurs in the `phone` as stored; and it returns stored
patients only. -/
theorem search_returns_matching (rt : Runtime) (query : String) (s : Store)
    (htext : ∀ p ∈ s.patients, ∀ key ∈ ["name", "email", "phone", "token"],
      TextOrAbsent key p.2)
    (hecho : ∀ p ∈ s.patients,
      (echoDoc p.1 p.2 ["createdAt", "dateOfBirth"]).isSome = true) :
    (searchPatients rt query s).status = 200 ∧
    (∀ p ∈ s.patients, ∀ data, echoDoc p.1 p.2 ["createdAt", "dateOfBirth"] = some data →
      (.obj data ∈ responseData (searchPatients rt query s) ↔ SearchHit rt query p.2)) ∧
    (∀ v ∈ responseData (searchPatients rt query s), ∃ p data, p ∈ s.patients ∧
      echoDoc p.1 p.2 ["createdAt", "dateOfBirth"] = some data ∧ v = .obj data) := by
  obtain ⟨found, hf, hmem⟩ := searchLoop_spec rt query s.patients htext hecho
  have hresp : responseData (searchPatients rt query s) = found := by
    unfold searchPatients responseData
    simp only [hf]
    rfl
  have hstatus : (searchPatients rt query s).status = 200 := by
    unfold searchPatients
    simp only [hf]
  refine ⟨hstatus, ?_, ?_⟩
  · intro p hp data hdata
    rw [hresp, hmem]
    constructor
    · rintro ⟨q, d, hq, hd, hv, hh⟩
      have hdd : data = d := by injection hv
      subst hdd
      exact searchHit_of_echo_eq rt query p.1 q.1 p.2 q.2 data hdata hd hh
    · intro hh
      exact ⟨p, data, hp, hdata, rfl, hh⟩
  · intro v hv
    rw [hresp, hmem] at hv
    obtain ⟨q, d, hq, hd, hv, -⟩ := hv
    exact ⟨q, d, hq, hd, hv⟩

theorem search_returns_matching_witness :
    (searchPatients rt0 "JANE" storeJane).status = 200 ∧
    (responseData (searchPatients rt0 "JANE" storeJane)).length = 1 ∧
    responseData (searchPatients rt0 "bob" storeJane) = [] := by
  have htext : ∀ p ∈ storeJane.patients, ∀ key ∈ ["name", "email", "phone", "token"],
      TextOrAbsent key p.2 := by
    intro p hp key hkey
    simp only [storeJane, List.mem_singleton] at hp
    subst hp
    simp only [List.mem_cons, List.mem_singleton, List.not_mem_nil, or_false] at hkey
    rcases hkey with h | h | h | h <;> subst h <;> exact Or.inr ⟨_, rfl⟩
  have hecho : ∀ p ∈ storeJane.patients,
      (echoDoc p.1 p.2 ["createdAt", "dateOfBirth"]).isSome = true := by
    intro p hp
    simp only [storeJane, List.mem_singleton] at hp
    subst hp
    rfl
  exact ⟨(search_returns_matching rt0 "JANE" storeJane htext hecho).1, rfl, rfl⟩

/-! ## C28: the form of a failure response -/

theorem shaped_failure (code : Nat) (message : String) (h : isFailureStatus code = true) :
    Shaped (failure code message) :=
  Or.inr (Or.inr ⟨h, rfl, message, rfl⟩)

theorem shaped_createBillHandler (env : Env) (user : Option Principal) (body : Fields) (s : Store) :
    Shaped (createBillHandler env user body s).2 := by
  unfold createBillHandler
  simp only []
  repeat' split
  all_goals first
    | exact shaped_failure _ _ rfl
    | exact Or.inl rfl
    | exact Or.inr (Or.inl rfl)

theorem shaped_updateStatusHandler (env : Env) (user : Option Principal) (id : String)
    (body : Fields) (s : Store) :
    Shaped (updateStatusHandler env user id body s).2 := by
  unfold updateStatusHandler
  simp only []
  repeat' split
  all_goals first
    | exact shaped_failure _ _ rfl
    | exact Or.inl rfl

theorem shaped_updateBillHandler (env : Env) (user : Option Principal) (id : String)
    (body : Fields) (s : Store) :
    Shaped (updateBillHandler env user id body s).2 := by
  unfold updateBillHandler finishUpdate
  simp only []
  repeat' split
  all_goals first
    | exact shaped_failure _ _ rfl
    | exact Or.inl rfl

theorem shaped_deleteBillHandler (id : String) (s : Store) :
    Shaped (deleteBillHandler id s).2 := by
  unfold deleteBillHandler
  repeat' split
  all_goals first
    | exact shaped_failure _ _ rfl
    | exact Or.inl rfl

theorem shaped_listBills (rt : Runtime) (patientId status : Option String) (s : Store) :
    Shaped (listBills rt patientId status s) := by
  unfold listBills
  simp only []
  repeat' split
  all_goals first
    | exact shaped_failure _ _ rfl
    | exact Or.inl rfl

theorem shaped_getBill (id : String) (s : Store) :
    Shaped (getBill id s) := by
  unfold getBill
  repeat' split
  all_goals first
    | exact shaped_failure _ _ rfl
    | exact Or.inl rfl

theorem shaped_listBillsForPatient (rt : Runtime) (concat : List JsVal → String)
    (patientId : String) (s : Store) :
    Shaped (listBillsForPatient rt concat patientId s) := by
  unfold listBillsForPatient
  simp only []
  repeat' split
  all_goals first
    | exact shaped_failure _ _ rfl
    | exact Or.inl rfl

theorem shaped_billStats (rt : Runtime) (s : Store) :
    Shaped (billStats rt s) := by
  unfold billStats
  simp only []
  repeat' split
  all_goals first
    | exact shaped_failure _ _ rfl
    | exact Or.inl rfl

theorem shaped_createPrescriptionHandler (env : Env) (user : Option Principal)
    (body : Fields) (s : Store) :
    Shaped (createPrescriptionHandler env user body s).2 := by
  unfold createPrescriptionHandler
  simp only []
  repeat' split
  all_goals first
    | exact shaped_failure _ _ rfl
    | exact Or.inl rfl
    | exact Or.inr (Or.inl rfl)

theorem shaped_updatePrescriptionHandler (env : Env) (user : Option Principal) (id : String)
    (body : Fields) (s : Store) :
    Shaped (updatePrescriptionHandler env user id body s).2 := by
  unfold updatePrescriptionHandler finishRxUpdate
  simp only []
  repeat' split
  all_goals first
    | exact shaped_failure _ _ rfl
    | exact Or.inl rfl

theorem shaped_deletePrescriptionHandler (user : Option Principal) (id : String) (s : Store) :
    Shaped (deletePrescriptionHandler user id s).2 := by
  unfold deletePrescriptionHandler
  repeat' split
  all_goals first
    | exact shaped_failure _ _ rfl
    | exact Or.inl rfl

theorem shaped_getPrescription (user : Option Principal) (id : String) (s : Store) :
    Shaped (getPrescription user id s) := by
  unfold getPrescription
  repeat' split
  all_goals first
    | exact shaped_failure _ _ rfl
    | exact Or.inl rfl

theorem shaped_listPrescriptions (rt : Runtime) (user : Option Principal)
    (patientId doctorId : Option String) (s : Store) :
    Shaped (listPrescriptions rt user patientId doctorId s) := by
  unfold listPrescriptions
  simp only []
  repeat' split
  all_goals first
    | exact shaped_failure _ _ rfl
    | exact Or.inl rfl

theorem shaped_listPrescriptionsForPatient (rt : Runtime) (user : Option Principal)
    (patientId : String) (s : Store) :
    Shaped (listPrescriptionsForPatient rt user patientId s) := by
  unfold listPrescriptionsForPatient
  simp only []
  repeat' split
  all_goals first
    | exact shaped_failure _ _ rfl
    | exact Or.inl rfl

theorem shaped_registerPatientHandler (env : Env) (rt : Runtime) (user : Option Principal)
    (body : Fields) (s : Store) :
    Shaped (registerPatientHandler env rt user body s).2 := by
  unfold registerPatientHandler
  simp only []
  repeat' split
  all_goals first
    | exact shaped_failure _ _ rfl
    | exact Or.inl rfl
    | exact Or.inr (Or.inl rfl)

theorem shaped_regenerateTokenHandler (env : Env) (rt : Runtime) (id : String) (s : Store) :
    Shaped (regenerateTokenHandler env rt id s).2 := by
  unfold regenerateTokenHandler
  repeat' split
  all_goals first
    | exact shaped_failure _ _ rfl
    | exact Or.inl rfl

theorem shaped_updatePatient (env : Env) (rt : Runtime) (id : String) (body : Fields) (s : Store) :
    Shaped (updatePatient env rt id body s).2 := by
  unfold updatePatient
  simp only []
  repeat' split
  all_goals first
    | exact shaped_failure _ _ rfl
    | exact Or.inl rfl

theorem shaped_listPatients (rt : Runtime) (s : Store) :
    Shaped (listPatients rt s) := by
  unfold listPatients
  repeat' split
  all_goals first
    | exact shaped_failure _ _ rfl
    | exact Or.inl rfl

theorem shaped_getPatient (id : String) (s : Store) :
    Shaped (getPatient id s) := by
  unfold getPatient
  repeat' split
  all_goals first
    | exact shaped_failure _ _ rfl
    | exact Or.inl rfl

theorem shaped_searchPatients (rt : Runtime) (query : String) (s : Store) :
    Shaped (searchPatients rt query s) := by
  unfold searchPatients
  simp only []
  repeat' split
  all_goals first
    | exact shaped_failure _ _ rfl
    | exact Or.inl rfl

theorem shaped_verifyToken (ap : AuthProvider) (authHeader : Option String) (s : Store) :
    Shaped (verifyToken ap authHeader s) := by
  unfold verifyToken
  repeat' split
  all_goals first
    | exact shaped_failure _ _ rfl
    | exact Or.inl rfl

theorem shaped_createProfile (env : Env) (ap : AuthProvider) (authHeader : Option String)
    (body : Fields) (s : Store) :
    Shaped (createProfile env ap authHeader body s).2 := by
  unfold createProfile
  simp only []
  repeat' split
  all_goals first
    | exact shaped_failure _ _ rfl
    | exact Or.inl rfl

theorem shaped_initDemo (env : Env) (ap : AuthProvider) (s : Store) :
    Shaped (initDemo env ap s).2 := by
  unfold initDemo
  simp only []
  all_goals first
    | exact shaped_failure _ _ rfl
    | exact Or.inl rfl

theorem errorBody_fields (development : Bool) (message : JsVal) (err : Fields) :
    getField "success" (errorBody development message err) = some (.bool false) ∧
    getField "message" (errorBody development message err) = none ∧
    (getField "error" (errorBody development message err)).isSome = true := by
  unfold errorBody
  simp only []
  split
  · split <;> exact ⟨rfl, rfl, rfl⟩
  · exact ⟨rfl, rfl, rfl⟩

/-- C28, counterexample: the failure responses of the role guard and of the
authorization middleware carry `error` and `message` and no `success` field, and the
failure response of the catch-all error handler carries `success: false` and `error`
and no `message` field. -/
theorem middleware_failure_counterexample :
    (requireRole "doctor" none).map (fun r => (r.status, getField "success" r.body)) =
      some (401, none) ∧
    (requireRole "doctor" (some rita)).map (fun r => (r.status, getField "success" r.body)) =
      some (403, none) ∧
    (match authMiddleware ap0 none store0 with
      | .error r => some (r.status, getField "success" r.body)
      | .ok _ => none) = some (401, none) ∧
    (errorHandler statusOf false parseError).map
      (fun r => (r.status, getField "message" r.body)) = some (400, none) := by
  refine ⟨rfl, rfl, rfl, ?_⟩
  with_unfolding_all rfl

/-- C28 (amended): every response of a route handler is a success (200 or 201) or has
status 400, 401, 403, 404 or 500 and carries `success: false` and a `message`. The
responses sent by the role guard and by the authorization middleware carry a `message`
and no `success` field; the response sent by the catch-all error handler carries
`success: false` and `error`, and no `message` field. -/
theorem handler_failures_shaped (c : HandlerCall) (s : Store) (role : String)
    (user : Option Principal) (ap : AuthProvider) (authHeader : Option String)
    (httpStatus : JsVal → Option Nat) (development : Bool) (err : Fields) :
    Shaped (c.response s) ∧
    (∀ r, requireRole role user = some r →
      (r.status = 401 ∨ r.status = 403) ∧ getField "success" r.body = none ∧
        ∃ m, getField "message" r.body = some (.str m)) ∧
    (∀ r, authMiddleware ap authHeader s = .error r →
      r.status = 401 ∧ getField "success" r.body = none ∧
        ∃ m, getField "message" r.body = some (.str m)) ∧
    (∀ r, errorHandler httpStatus development err = some r →
      getField "success" r.body = some (.bool false) ∧ getField "message" r.body = none ∧
        (getField "error" r.body).isSome = true) := by
  refine ⟨?_, ?_, ?_, ?_⟩
  · cases c with
    | createBill env user body => exact shaped_createBillHandler env user body s
    | updateBillStatus env user id body => exact shaped_updateStatusHandler env user id body s
    | updateBill env user id body => exact shaped_updateBillHandler env user id body s
    | deleteBill id => exact shaped_deleteBillHandler id s
    | listBills rt patientId status => exact shaped_listBills rt patientId status s
    | getBill id => exact shaped_getBill id s
    | listBillsForPatient rt concat patientId =>
      exact shaped_listBillsForPatient rt concat patientId s
    | billStats rt => exact shaped_billStats rt s
    | createPrescription env user body => exact shaped_createPrescriptionHandler env user body s
    | updatePrescription env user id body =>
      exact shaped_updatePrescriptionHandler env user id body s
    | deletePrescription user id => exact shaped_deletePrescriptionHandler user id s
    | getPrescription user id => exact shaped_getPrescription user id s
    | listPrescriptions rt user patientId doctorId =>
      exact shaped_listPrescriptions rt user patientId doctorId s
    | listPrescriptionsForPatient rt user patientId =>
      exact shaped_listPrescriptionsForPatient rt user patientId s
    | registerPatient env rt user body => exact shaped_registerPatientHandler env rt user body s
    | regenerateToken env rt id => exact shaped_regenerateTokenHandler env rt id s
    | updatePatient env rt id body => exact shaped_updatePatient env rt id body s
    | listPatients rt => exact shaped_listPatients rt s
    | getPatient id => exact shaped_getPatient id s
    | searchPatients rt query => exact shaped_searchPatients rt query s
    | verifyToken ap authHeader => exact shaped_verifyToken ap authHeader s
    | createProfile env ap authHeader body => exact shaped_createProfile env ap authHeader body s
    | initDemo env ap => exact shaped_initDemo env ap s
  · intro r hr
    unfold requireRole at hr
    split at hr
    · simp only [Option.some.injEq] at hr
      subst hr
      exact ⟨Or.inl rfl, rfl, _, rfl⟩
    · split at hr
      · simp only [Option.some.injEq] at hr
        subst hr
        exact ⟨Or.inr rfl, rfl, _, rfl⟩
      · simp at hr
  · intro r hr
    unfold authMiddleware at hr
    repeat' split at hr
    all_goals first
      | (injection hr with hr; subst hr; exact ⟨rfl, rfl, _, rfl⟩)
      | cases hr
  · intro r hr
    unfold errorHandler at hr
    simp only [] at hr
    repeat' split at hr
    all_goals first
      | (simp only [Option.some.injEq] at hr
         subst hr
         exact errorBody_fields _ _ _)
      | cases hr

theorem handler_failures_shaped_witness :
    (getBill "b9" store0).status = 404 ∧ FailureShaped (getBill "b9" store0) := by
  have h := (handler_failures_shaped (.getBill "b9") store0 "doctor" none ap0 none statusOf
    false parseError).1
  refine ⟨rfl, ?_⟩
  rcases h with h | h | h
  · exact absurd h (by decide)
  · exact absurd h (by decide)
  · exact h.2

/-! ## C29: what a status update touches -/

theorem getField_statusUpdateData_other (env : Env) (u : Principal) (st : String)
    (billDoc : Fields) (key : String)
    (hkey : key ∉ ["status", "updatedAt", "updatedBy", "updatedByName", "paidAt"]) :
    getField key (statusUpdateData env u st billDoc) = none := by
  simp only [List.mem_cons, List.mem_singleton, List.not_mem_nil, or_false, not_or] at hkey
  obtain ⟨h1, h2, h3, h4, h5⟩ := hkey
  unfold statusUpdateData
  simp only []
  split <;>
    simp [getField, setField, assocSet, assocGet, Ne.symm h1, Ne.symm h2, Ne.symm h3,
      Ne.symm h4, Ne.symm h5]

/-- C29: a receptionist's `PUT /bills/:id/status` with status `'pending'` or `'paid'` on
an existing bill leaves every field of that bill other than `status`, `updatedAt`,
`updatedBy`, `updatedByName` and `paidAt` as it was (so `items`, `totalAmount`,
`patientId`, `patientName`, `createdBy`, `createdAt`), leaves every other bill and every
other collection as it was; with any other status value it answers 400 and returns the
store as it was, whether the bill exists or not. -/
theorem updateStatus_frame (env : Env) (u : Principal) (id : String) (body : Fields)
    (s : Store) (hrole : u.role = "receptionist") :
    (∀ bill st, getDoc id s.bills = some bill →
      getField "status" body = some (.str st) → (st = "pending" ∨ st = "paid") →
      (∀ key, key ∉ ["status", "updatedAt", "updatedBy", "updatedByName", "paidAt"] →
        billField key id (updateBillStatus env (some u) id body s).1 = billField key id s) ∧
      (∀ id', id' ≠ id →
        getDoc id' (updateBillStatus env (some u) id body s).1.bills = getDoc id' s.bills) ∧
      (updateBillStatus env (some u) id body s).1.patients = s.patients ∧
      (updateBillStatus env (some u) id body s).1.prescriptions = s.prescriptions ∧
      (updateBillStatus env (some u) id body s).1.users = s.users) ∧
    (getField "status" body ≠ some (.str "pending") →
      getField "status" body ≠ some (.str "paid") →
      (updateBillStatus env (some u) id body s).2.status = 400 ∧
      (updateBillStatus env (some u) id body s).1 = s) := by
  have hg : updateBillStatus env (some u) id body s =
      updateStatusHandler env (some u) id body s := by
    rw [updateBillStatus, guarded_pass _ u _ s hrole]
  constructor
  · intro bill st hbill hst hok
    rw [hg, updateStatusHandler_store env u id st body bill s hst hok hbill]
    refine ⟨?_, ?_, rfl, rfl, rfl⟩
    · intro key hkey
      rw [billField_updateDoc]
      simp [hbill, getField_statusUpdateData_other env u st bill key hkey, billField]
    · intro id' hne
      simp only [getDoc_updateDoc]
      simp [Ne.symm hne]
  · intro h1 h2
    have hcond : (!truthy (getField "status" body) ||
        !(isStr "pending" (getField "status" body) || isStr "paid" (getField "status" body)))
        = true := by
      simp [isStr_eq_false_of_ne _ _ h1, isStr_eq_false_of_ne _ _ h2]
    rw [hg]
    unfold updateStatusHandler
    simp only []
    rw [if_pos hcond]
    exact ⟨rfl, rfl⟩

theorem updateStatus_frame_witness :
    ((∀ key, key ∉ ["status", "updatedAt", "updatedBy", "updatedByName", "paidAt"] →
        billField key "b1" (updateBillStatus env1 (some rita) "b1" bodyPaid storePending).1 =
          billField key "b1" storePending) ∧
      (∀ id', id' ≠ "b1" →
        getDoc id' (updateBillStatus env1 (some rita) "b1" bodyPaid storePending).1.bills =
          getDoc id' storePending.bills) ∧
      (updateBillStatus env1 (some rita) "b1" bodyPaid storePending).1.patients =
        storePending.patients ∧
      (updateBillStatus env1 (some rita) "b1" bodyPaid storePending).1.prescriptions =
        storePending.prescriptions ∧
      (updateBillStatus env1 (some rita) "b1" bodyPaid storePending).1.users =
        storePending.users) ∧
    ((updateBillStatus env1 (some rita) "nope" bodyArchived storePending).2.status = 400 ∧
      (updateBillStatus env1 (some rita) "nope" bodyArchived storePending).1 = storePending) ∧
    billField "status" "b1" (updateBillStatus env1 (some rita) "b1" bodyPaid storePending).1 =
      some (.str "paid") :=
  ⟨(updateStatus_frame env1 rita "b1" bodyPaid storePending rfl).1
      [("patientId", .str "p1"), ("patientName", .str "Jane Doe"),
       ("items", .arr [.obj [("description", .str "Consult"), ("amount", .num 50)]]),
       ("totalAmount", .num 50), ("status", .str "pending"), ("createdBy", .str "u1"),
       ("createdByName", .str "Rita"), ("createdAt", .date 10), ("updatedAt", .date 10)]
      "paid" rfl rfl (Or.inr rfl),
   (updateStatus_frame env1 rita "nope" bodyArchived storePending rfl).2
      (by simp [bodyArchived, getField, assocGet]) (by simp [bodyArchived, getField, assocGet]),
   rfl⟩

/-! ## C30: create and update agree on whole cents -/

theorem sum_cents (l : List ℚ) (h : ∀ a ∈ l, ∃ n : ℤ, a = (n : ℚ) / 100) :
    ∃ n : ℤ, l.sum = (n : ℚ) / 100 := by
  induction l with
  | nil => exact ⟨0, by simp⟩
  | cons a rest ih =>
    obtain ⟨n, hn⟩ := ih (fun x hx => h x (List.mem_cons_of_mem _ hx))
    obtain ⟨m, hm⟩ := h a (List.mem_cons_self _ _)
    exact ⟨m + n, by simp [hn, hm]; ring⟩

theorem map_toFixed2_cents (l : List ℚ) (h : ∀ a ∈ l, ∃ n : ℤ, a = (n : ℚ) / 100) :
    l.map toFixed2 = l := by
  induction l with
  | nil => rfl
  | cons a rest ih =>
    obtain ⟨m, hm⟩ := h a (List.mem_cons_self _ _)
    simp only [List.map_cons]
    rw [ih (fun x hx => h x (List.mem_cons_of_mem _ hx)), hm, toFixed2_of_cents]

theorem storedAs_of_normalizeItems (items stored : List JsVal)
    (h : normalizeItems items = some stored) : List.Forall₂ StoredAs items stored := by
  have hf := normalizeItems_forall₂ items stored h
  clear h
  induction hf with
  | nil => exact List.Forall₂.nil
  | @cons item i rest is hi _ ih =>
    obtain ⟨fs, d, a, h1, h2, h3, h4⟩ := normalizeItem_spec item i hi
    exact List.Forall₂.cons ⟨fs, d, a, h1, h2, h3, h4⟩ ih

/-- What a receptionist's `PUT /bills/:id` on a pending bill stores for valid items:
the normalised items and the rounded sum of their amounts. -/
theorem updateBill_items_store (env : Env) (u : Principal) (id : String)
    (body billDoc : Fields) (s : Store) (items : List JsVal)
    (hrole : u.role = "receptionist")
    (hbill : getDoc id s.bills = some billDoc)
    (hpending : getField "status" billDoc = some (.str "pending"))
    (hitems : getField "items" body = some (.arr items))
    (hne : items ≠ [])
    (hvalid : ∀ item ∈ items, ValidItem item) :
    ∃ stored, normalizeItems items = some stored ∧
      billField "items" id (updateBill env (some u) id body s).1 = some (.arr stored) ∧
      billField "totalAmount" id (updateBill env (some u) id body s).1 =
        some (.num (toFixed2 ((stored.map itemAmount).sum))) := by
  obtain ⟨stored, hstored⟩ := normalizeItems_of_valid items hvalid
  have hval := validateItems_of_valid items hvalid
  have hnp : isStr "paid" (getField "status" billDoc) = false := by
    rw [hpending]; simp [isStr]
  have hib : getField "items" (stripProtected body) = some (.arr items) := by
    rw [getField_stripProtected _ _ (by decide) (by decide) (by decide) (by decide)
      (by decide)]
    exact hitems
  rw [updateBill, guarded_pass _ u _ s hrole,
    updateBillHandler_items env (some u) id body billDoc s items stored hbill hnp hib hne
      hval hstored, finishUpdate_store]
  refine ⟨stored, hstored, ?_, ?_⟩
  · rw [billField_updateDoc]
    simp only [↓reduceIte, hbill, Option.bind_some]
    rw [getField_stampUpdate _ _ _ _ (by decide) (by decide) (by decide)]
    simp [getField, setField, assocGet_assocSet]
  · rw [billField_updateDoc]
    simp only [↓reduceIte, hbill, Option.bind_some]
    rw [getField_stampUpdate _ _ _ _ (by decide) (by decide) (by decide)]
    simp [getField, setField, assocGet_assocSet, sumAmounts_eq_sum]

/-- C30: for a non-empty list of valid items whose amounts are whole numbers of cents,
a successful `POST /bills` and a receptionist's `PUT /bills/:id` on a pending bill,
given the same items, store the same items and the same `totalAmount`, which is
exactly the sum of the stored item amounts. -/
theorem create_update_agree_on_cents (env env' : Env) (user : Option Principal)
    (u : Principal) (id : String) (body body' billDoc : Fields) (s s' : Store)
    (items : List JsVal)
    (hne : items ≠ [])
    (hvalid : ∀ item ∈ items, ValidItem item)
    (hcents : ∀ item ∈ items, ∃ n : ℤ, itemAmount item = (n : ℚ) / 100)
    (hbody : getField "items" body = some (.arr items))
    (h201 : (createBill env user body s).2.status = 201)
    (hrole : u.role = "receptionist")
    (hbill : getDoc id s'.bills = some billDoc)
    (hpending : getField "status" billDoc = some (.str "pending"))
    (hbody' : getField "items" body' = some (.arr items)) :
    ∃ stored,
      billField "items" env.newId (createBill env user body s).1 = some (.arr stored) ∧
      billField "items" id (updateBill env' (some u) id body' s').1 = some (.arr stored) ∧
      List.Forall₂ StoredAs items stored ∧
      billField "totalAmount" env.newId (createBill env user body s).1 =
        some (.num ((stored.map itemAmount).sum)) ∧
      billField "totalAmount" id (updateBill env' (some u) id body' s').1 =
        some (.num ((stored.map itemAmount).sum)) := by
  obtain ⟨pid, patientDoc, items0, name, stored, u0, -, hitems0, -, -, -, -, -, hstored, -, hnew,
    hs⟩ := createBill_created env user body s h201
  have hi : items0 = items := by
    rw [hbody] at hitems0
    simpa using hitems0.symm
  subst hi
  obtain ⟨stored', hst1, hst2, hst3⟩ :=
    updateBill_items_store env' u id body' billDoc s' items0 hrole hbill
      hpending hbody' hne hvalid
  have hsame : stored' = stored := by
    rw [hstored] at hst1
    exact (Option.some.inj hst1).symm
  subst hsame
  have hcl : ∀ a ∈ items0.map itemAmount, ∃ n : ℤ, a = (n : ℚ) / 100 := by
    intro a ha
    obtain ⟨item, hitem, rfl⟩ := List.mem_map.mp ha
    exact hcents item hitem
  have hamt : stored'.map itemAmount = items0.map itemAmount := by
    rw [normalizeItems_amounts items0 stored' hstored, map_toFixed2_cents _ hcl]
  obtain ⟨n, hn⟩ := sum_cents _ hcl
  refine ⟨stored', ?_, hst2, ?_, ?_, ?_⟩
  · rw [hs]
    simp only [billField, getDoc_append_new _ _ _ hnew]
    rfl
  · exact storedAs_of_normalizeItems items0 stored' hstored
  · rw [hs]
    simp only [billField, getDoc_append_new _ _ _ hnew]
    show some (JsVal.num (toFixed2 (sumAmounts items0))) = _
    rw [sumAmounts_eq_sum, hamt, hn, toFixed2_of_cents]
  · rw [hst3, hamt, hn, toFixed2_of_cents]

theorem create_update_agree_on_cents_witness :
    (createBill env0 (some rita) bodyCreate store0).2.status = 201 ∧
    ∃ stored,
      billField "items" "b1" (createBill env0 (some rita) bodyCreate store0).1 =
        some (.arr stored) ∧
      billField "items" "b1" (updateBill env1 (some rita) "b1" bodyTwoItems storePending).1 =
        some (.arr stored) ∧
      List.Forall₂ StoredAs twoItems stored ∧
      billField "totalAmount" "b1" (createBill env0 (some rita) bodyCreate store0).1 =
        some (.num ((stored.map itemAmount).sum)) ∧
      billField "totalAmount" "b1"
        (updateBill env1 (some rita) "b1" bodyTwoItems storePending).1 =
        some (.num ((stored.map itemAmount).sum)) :=
  ⟨rfl, create_update_agree_on_cents env0 env1 (some rita) rita "b1" bodyCreate bodyTwoItems
    [("patientId", .str "p1"), ("patientName", .str "Jane Doe"),
      ("items", .arr [.obj [("description", .str "Consult"), ("amount", .num 50)]]),
      ("totalAmount", .num 50), ("status", .str "pending"), ("createdBy", .str "u1"),
      ("createdByName", .str "Rita"), ("createdAt", .date 10), ("updatedAt", .date 10)]
    store0 storePending twoItems (by simp [twoItems])
    (by
      intro item hitem
      simp only [twoItems, List.mem_cons, List.mem_singleton, List.not_mem_nil,
        or_false] at hitem
      rcases hitem with rfl | rfl
      · exact ⟨_, "Consult", 50, rfl, rfl, by decide, rfl, by norm_num⟩
      · exact ⟨_, "Lab", 30, rfl, rfl, by decide, rfl, by norm_num⟩)
    (by
      intro item hitem
      simp only [twoItems, List.mem_cons, List.mem_singleton, List.not_mem_nil,
        or_false] at hitem
      rcases hitem with rfl | rfl
      · exact ⟨5000, by simp [itemAmount, getField, assocGet]; norm_num⟩
      · exact ⟨3000, by simp [itemAmount, getField, assocGet]; norm_num⟩)
    rfl rfl rfl rfl rfl rfl⟩

/-! ## Exact arithmetic as an instance

The handlers without an arithmetic argument are the handlers in exact decimal
arithmetic. -/

theorem sumAmountsWith_exact (items : List JsVal) :
    sumAmountsWith Arith.exact items = sumAmounts items := rfl

theorem normalizeItemWith_exact (item : JsVal) :
    normalizeItemWith Arith.exact item = normalizeItem item := by
  cases item <;> rfl

theorem normalizeItemsWith_exact (items : List JsVal) :
    normalizeItemsWith Arith.exact items = normalizeItems items := by
  induction items with
  | nil => rfl
  | cons item rest ih =>
    simp only [normalizeItemsWith, normalizeItems, ih, normalizeItemWith_exact]

theorem totalMismatchWith_exact (env : Env) (totalAmount : Option JsVal) (total : ℚ) :
    totalMismatchWith Arith.exact env totalAmount total = totalMismatch env totalAmount total :=
  rfl

theorem billDataWith_exact (env : Env) (u : Principal) (pid : String) (name : JsVal)
    (stored : List JsVal) (total : ℚ) :
    billDataWith Arith.exact env u pid name stored total =
      billData env u pid name stored total := rfl

theorem createBillHandlerWith_exact (env : Env) (user : Option Principal) (body : Fields)
    (s : Store) :
    createBillHandlerWith Arith.exact env user body s = createBillHandler env user body s := by
  unfold createBillHandlerWith createBillHandler
  simp only [sumAmountsWith_exact, normalizeItemsWith_exact, totalMismatchWith_exact,
    billDataWith_exact]

theorem updateBillHandlerWith_exact (env : Env) (user : Option Principal) (id : String)
    (body : Fields) (s : Store) :
    updateBillHandlerWith Arith.exact env user id body s =
      updateBillHandler env user id body s := by
  unfold updateBillHandlerWith updateBillHandler
  simp only [sumAmountsWith_exact, normalizeItemsWith_exact]
  rfl

theorem Acc.addWith_exact (rt : Runtime) (a : Acc) (v : Option JsVal) :
    Acc.addWith Arith.exact rt a v = Acc.add rt a v := by
  cases a <;> cases v with
    | none => rfl
    | some x => cases x <;> rfl

theorem billStatsWith_exact (rt : Runtime) (s : Store) :
    billStatsWith Arith.exact rt s = billStats rt s := by
  have htally : ∀ t bill, tallyBillWith Arith.exact rt t bill = tallyBill rt t bill := by
    intro t bill
    unfold tallyBillWith tallyBill
    simp only [Acc.addWith_exact]
  have hfold : tallyBillsWith Arith.exact rt s.bills = tallyBills rt s.bills := by
    unfold tallyBillsWith tallyBills
    simp only [htally]
  have hround : ∀ a, Acc.roundedWith Arith.exact a = Acc.rounded a := by
    intro a; cases a <;> rfl
  have havg : ∀ t, averageBillAmountWith Arith.exact t = averageBillAmount t := by
    intro t
    unfold averageBillAmountWith averageBillAmount
    cases t.totalRevenue <;> cases t.pendingAmount <;> rfl
  unfold billStatsWith billStats
  simp only [hfold, hround, havg]

/-! ## Binary64 -/

/-- The sample numbers are the binary64 numbers nearest to the decimals they are named
after. -/
theorem sample_numbers_binary64 :
    roundDouble (4 / 1000) = num0004 ∧ roundDouble (5 / 1000) = num0005 ∧
    roundDouble (1 / 100) = num001 ∧ roundDouble (14 / 1000) = num0014 ∧
    roundDouble (4 / 100) = num004 ∧ roundDouble (6 / 100) = num006 ∧
    roundDouble (1005 / 1000) = num1005 := by
  decide!

theorem roundDouble_zero : roundDouble 0 = 0 := by
  simp [roundDouble]

/-! ## What the handlers do in an arithmetic -/

theorem createBillHandlerWith_spec (ar : Arith) (env : Env) (user : Option Principal)
    (body : Fields) (s : Store) :
    ((createBillHandlerWith ar env user body s).1 = s ∧
      (createBillHandlerWith ar env user body s).2.status ≠ 201) ∨
    ∃ pid patientDoc items name stored u,
      getField "patientId" body = some (.str pid) ∧
      getField "items" body = some (.arr items) ∧
      items ≠ [] ∧
      getDoc pid s.patients = some patientDoc ∧
      validateItems items = .pass ∧
      totalMismatchWith ar env (getField "totalAmount" body) (sumAmountsWith ar items) =
        some false ∧
      jsOr (getField "patientName" body) (getField "name" patientDoc) = some name ∧
      normalizeItemsWith ar items = some stored ∧
      user = some u ∧
      getDoc env.newId s.bills = none ∧
      (createBillHandlerWith ar env user body s).2.status = 201 ∧
      (createBillHandlerWith ar env user body s).1 =
        { s with bills := s.bills ++
          [(env.newId, billDataWith ar env u pid name stored (sumAmountsWith ar items))] } := by
  unfold createBillHandlerWith
  simp only []
  split
  · left; simp [failure]
  · rename_i hcond
    split
    · rename_i pid hpid
      split
      · left; simp [failure]
      · rename_i patientDoc hpat
        split
        · left; simp [failure]
        · left; simp [failure]
        · rename_i hval
          split
          · left; simp [failure]
          · left; simp [failure]
          · rename_i hmis
            split
            · rename_i name stored u hname hstored
              split
              · left; simp [failure]
              · rename_i hnew
                right
                cases hitems : getField "items" body with
                | none => simp [hitems, truthy] at hcond
                | some v =>
                  cases v with
                  | arr items =>
                    refine ⟨pid, patientDoc, items, name, stored, u, hpid, rfl, ?_, hpat, ?_, ?_,
                      hname, ?_, rfl, hnew, rfl, ?_⟩
                    · intro h; subst h; simp [hitems, elems] at hcond
                    · simpa [hitems, elems] using hval
                    · simpa [hitems, elems] using hmis
                    · simpa [hitems, elems] using hstored
                    · simp [hitems, elems]
                  | _ => simp [hitems, isArray] at hcond
            · left; simp [failure]
    · left; simp [failure]

/-- The route `POST /bills` answers 201 only through the success branch of its handler. -/
theorem createBillWith_created (ar : Arith) (env : Env) (user : Option Principal)
    (body : Fields) (s : Store) (h : (createBillWith ar env user body s).2.status = 201) :
    ∃ pid patientDoc items name stored u,
      getField "patientId" body = some (.str pid) ∧
      getField "items" body = some (.arr items) ∧
      items ≠ [] ∧
      getDoc pid s.patients = some patientDoc ∧
      validateItems items = .pass ∧
      totalMismatchWith ar env (getField "totalAmount" body) (sumAmountsWith ar items) =
        some false ∧
      jsOr (getField "patientName" body) (getField "name" patientDoc) = some name ∧
      normalizeItemsWith ar items = some stored ∧
      user = some u ∧
      getDoc env.newId s.bills = none ∧
      (createBillWith ar env user body s).1 =
        { s with bills := s.bills ++
          [(env.newId, billDataWith ar env u pid name stored (sumAmountsWith ar items))] } := by
  unfold createBillWith at h ⊢
  rcases guarded_spec "receptionist" user (createBillHandlerWith ar env user body) s
    with hg | hg
  · rcases hg.2 with h1 | h1 <;> rw [h1] at h <;> simp at h
  · rw [hg.2] at h ⊢
    rcases createBillHandlerWith_spec ar env user body s with hc | hc
    · exact absurd h hc.2
    · obtain ⟨pid, patientDoc, items, name, stored, u, h1, h2, h3, h4, h5, h6, h7, h8, h9, h10,
        -, h12⟩ := hc
      exact ⟨pid, patientDoc, items, name, stored, u, h1, h2, h3, h4, h5, h6, h7, h8, h9, h10,
        h12⟩

/-- A receptionist's `POST /bills` that passes every check appends the bill and answers
201. -/
theorem createBillWith_valid (ar : Arith) (env : Env) (u : Principal) (body : Fields)
    (s : Store) (pid : String) (patientDoc : Fields) (items stored : List JsVal) (name : JsVal)
    (hrole : u.role = "receptionist")
    (hpid : getField "patientId" body = some (.str pid)) (hpidne : pid ≠ "")
    (hitems : getField "items" body = some (.arr items))
    (hne : items ≠ [])
    (hpat : getDoc pid s.patients = some patientDoc)
    (hval : validateItems items = .pass)
    (hmis : totalMismatchWith ar env (getField "totalAmount" body) (sumAmountsWith ar items) =
      some false)
    (hname : jsOr (getField "patientName" body) (getField "name" patientDoc) = some name)
    (hstored : normalizeItemsWith ar items = some stored)
    (hnew : getDoc env.newId s.bills = none) :
    (createBillWith ar env (some u) body s).2.status = 201 ∧
    (createBillWith ar env (some u) body s).1 =
      { s with bills := s.bills ++
        [(env.newId, billDataWith ar env u pid name stored (sumAmountsWith ar items))] } := by
  have hlen : items.length ≠ 0 := fun h => hne (List.length_eq_zero.mp h)
  rw [createBillWith, guarded_pass _ u _ s hrole]
  unfold createBillHandlerWith
  simp [hpid, hpidne, hitems, truthy, isArray, elems, hlen, hpat, hval, hmis, hname, hstored,
    hnew]

theorem normalizeItemWith_spec (ar : Arith) (item i : JsVal)
    (h : normalizeItemWith ar item = some i) : StoredAsWith ar item i := by
  unfold normalizeItemWith at h
  split at h
  · rename_i fs
    split at h
    · rename_i d a hd ha
      simp only [Option.some.injEq] at h
      exact ⟨fs, d, a, rfl, hd, ha, h.symm⟩
    · simp at h
  · simp at h

theorem normalizeItemsWith_forall₂ (ar : Arith) (items stored : List JsVal)
    (h : normalizeItemsWith ar items = some stored) :
    List.Forall₂ (StoredAsWith ar) items stored := by
  induction items generalizing stored with
  | nil =>
    simp only [normalizeItemsWith, Option.some.injEq] at h
    subst h
    exact List.Forall₂.nil
  | cons item rest ih =>
    unfold normalizeItemsWith at h
    split at h
    · rename_i i is hi his
      simp only [Option.some.injEq] at h
      subst h
      exact List.Forall₂.cons (normalizeItemWith_spec ar item i hi) (ih is his)
    · simp at h

theorem normalizeItemsWith_of_valid (ar : Arith) (items : List JsVal)
    (h : ∀ item ∈ items, ValidItem item) : ∃ stored, normalizeItemsWith ar items = some stored := by
  induction items with
  | nil => exact ⟨[], rfl⟩
  | cons item rest ih =>
    obtain ⟨stored, hs⟩ := ih (fun x hx => h x (List.mem_cons_of_mem _ hx))
    obtain ⟨fs, d, a, rfl, hd, -, ha, -⟩ := h item (List.mem_cons_self _ _)
    exact ⟨.obj [("description", .str (jsTrim d)), ("amount", .num (ar.round (toFixed2 a)))]
      :: stored, by simp [normalizeItemsWith, normalizeItemWith, hd, ha, hs]⟩

/-- The handler of `PUT /bills/:id` on a bill that is not paid, with items that pass
validation and normalisation. -/
theorem updateBillHandlerWith_items (ar : Arith) (env : Env) (user : Option Principal)
    (id : String) (body billDoc : Fields) (s : Store) (items stored : List JsVal)
    (hbill : getDoc id s.bills = some billDoc)
    (hnp : isStr "paid" (getField "status" billDoc) = false)
    (hitems : getField "items" (stripProtected body) = some (.arr items))
    (hne : items ≠ [])
    (hval : validateItems items = .pass)
    (hstored : normalizeItemsWith ar items = some stored) :
    updateBillHandlerWith ar env user id body s =
      finishUpdate env user id
        (setField "totalAmount" (.num (ar.round (toFixed2 (sumAmountsWith ar stored))))
          (setField "items" (.arr stored) (stripProtected body))) s := by
  have hlen : items.length ≠ 0 := fun h => hne (List.length_eq_zero.mp h)
  unfold updateBillHandlerWith
  simp [hbill, hnp, hitems, truthy, isArray, elems, hlen, hval, hstored]

/-- What a receptionist's `PUT /bills/:id` with valid items stores on a pending bill. -/
theorem updateBillWith_items_store (ar : Arith) (env : Env) (u : Principal) (id : String)
    (body billDoc : Fields) (s : Store) (items : List JsVal)
    (hrole : u.role = "receptionist")
    (hbill : getDoc id s.bills = some billDoc)
    (hpending : getField "status" billDoc = some (.str "pending"))
    (hitems : getField "items" body = some (.arr items))
    (hne : items ≠ [])
    (hvalid : ∀ item ∈ items, ValidItem item) :
    ∃ stored, normalizeItemsWith ar items = some stored ∧
      billField "items" id (updateBillWith ar env (some u) id body s).1 = some (.arr stored) ∧
      billField "totalAmount" id (updateBillWith ar env (some u) id body s).1 =
        some (.num (ar.round (toFixed2 (sumAmountsWith ar stored)))) := by
  obtain ⟨stored, hstored⟩ := normalizeItemsWith_of_valid ar items hvalid
  have hval := validateItems_of_valid items hvalid
  have hnp : isStr "paid" (getField "status" billDoc) = false := by
    rw [hpending]; simp [isStr]
  have hib : getField "items" (stripProtected body) = some (.arr items) := by
    rw [getField_stripProtected _ _ (by decide) (by decide) (by decide) (by decide)
      (by decide)]
    exact hitems
  have hg : updateBillWith ar env (some u) id body s =
      updateBillHandlerWith ar env (some u) id body s := by
    simp [updateBillWith, guarded, requireRole, hrole]
  rw [hg, updateBillHandlerWith_items ar env (some u) id body billDoc s items stored hbill hnp
    hib hne hval hstored, finishUpdate_store]
  refine ⟨stored, hstored, ?_, ?_⟩
  · rw [billField_updateDoc]
    simp only [↓reduceIte, hbill, Option.bind_some]
    rw [getField_stampUpdate _ _ _ _ (by decide) (by decide) (by decide)]
    simp [getField, setField, assocGet_assocSet]
  · rw [billField_updateDoc]
    simp only [↓reduceIte, hbill, Option.bind_some]
    rw [getField_stampUpdate _ _ _ _ (by decide) (by decide) (by decide)]
    simp [getField, setField, assocGet_assocSet]

/-! ## C5: the persisted total -/

/-- C5: whenever `POST /bills` answers 201, the request carried an array of items; with
`T` the sum of their amounts as the handler computes it (left to right, each partial sum
rounded by the arithmetic) and `T` within the range of the numbers, the bill persisted
under the generated id has `totalAmount` = `parseFloat(T.toFixed(2))`, the number
nearest to a whole number of cents within half a cent of `T`, and `status` =
`'pending'`, whatever `totalAmount` the body carried. -/
theorem created_bill_total_and_status (ar : Arith) (env : Env) (user : Option Principal)
    (body : Fields) (s : Store)
    (h : (createBillWith ar env user body s).2.status = 201)
    (hrange : ∀ items, getField "items" body = some (.arr items) →
      ar.finite (sumAmountsWith ar items) = true) :
    ∃ items, getField "items" body = some (.arr items) ∧
      ar.finite (sumAmountsWith ar items) = true ∧
      billField "totalAmount" env.newId (createBillWith ar env user body s).1 =
        some (.num (ar.round (toFixed2 (sumAmountsWith ar items)))) ∧
      (∃ n : ℤ, toFixed2 (sumAmountsWith ar items) = (n : ℚ) / 100) ∧
      |toFixed2 (sumAmountsWith ar items) - sumAmountsWith ar items| ≤ 1 / 200 ∧
      billField "status" env.newId (createBillWith ar env user body s).1 =
        some (.str "pending") := by
  obtain ⟨pid, patientDoc, items, name, stored, u, -, hitems, -, -, -, -, -, -, -, hnew, hs⟩ :=
    createBillWith_created ar env user body s h
  refine ⟨items, hitems, hrange items hitems, ?_, toFixed2_cents _, toFixed2_abs_sub_le _, ?_⟩
  · rw [hs]
    simp only [billField, getDoc_append_new _ _ _ hnew, Option.bind_some]
    rfl
  · rw [hs]
    simp only [billField, getDoc_append_new _ _ _ hnew, Option.bind_some]
    rfl

theorem created_bill_total_and_status_witness :
    (createBillWith Arith.binary64 env0 (some rita) bodyHalfCent store0).2.status = 201 ∧
    getField "totalAmount" bodyHalfCent = some (.num num1005) ∧
    roundDouble (1 + num0005) = num1005 ∧
    billField "totalAmount" "b1"
      (createBillWith Arith.binary64 env0 (some rita) bodyHalfCent store0).1 =
        some (.num 1) ∧
    billField "status" "b1"
      (createBillWith Arith.binary64 env0 (some rita) bodyHalfCent store0).1 =
        some (.str "pending") := by
  have hv := createBillWith_valid Arith.binary64 env0 rita bodyHalfCent store0 "p1"
    [("name", .str "Jane Doe"), ("email", .str "jane@x.com")]
    [.obj [("description", .str "Consult"), ("amount", .num 1)],
     .obj [("description", .str "Fee"), ("amount", .num num0005)]]
    [.obj [("description", .str "Consult"),
        ("amount", .num (Arith.binary64.round (toFixed2 1)))],
     .obj [("description", .str "Fee"),
        ("amount", .num (Arith.binary64.round (toFixed2 num0005)))]]
    (.str "Jane Doe") rfl rfl (by decide) rfl (by simp) rfl
    (validateItems_of_valid _ (by
      intro item hitem
      simp only [List.mem_cons, List.mem_singleton, List.not_mem_nil, or_false] at hitem
      rcases hitem with rfl | rfl
      · exact ⟨_, "Consult", 1, rfl, rfl, by decide, rfl, by norm_num⟩
      · exact ⟨_, "Fee", num0005, rfl, rfl, by decide, rfl, by norm_num [num0005]⟩))
    (by decide!) rfl rfl rfl
  have hsum : Arith.binary64.round (toFixed2 (sumAmountsWith Arith.binary64
      [.obj [("description", .str "Consult"), ("amount", .num 1)],
       .obj [("description", .str "Fee"), ("amount", .num num0005)]])) = 1 := by
    decide!
  obtain ⟨items, hitems, -, htotal, -, -, hstatus⟩ :=
    created_bill_total_and_status Arith.binary64 env0 (some rita) bodyHalfCent store0 hv.1
      (by
        intro items hitems
        have : items = [.obj [("description", .str "Consult"), ("amount", .num 1)],
            .obj [("description", .str "Fee"), ("amount", .num num0005)]] := by
          have h2 : getField "items" bodyHalfCent = some (.arr
              [.obj [("description", .str "Consult"), ("amount", .num 1)],
               .obj [("description", .str "Fee"), ("amount", .num num0005)]]) := rfl
          rw [h2] at hitems
          injection hitems with hitems
          injection hitems with hitems
          exact hitems.symm
        subst this
        decide!)
  have hi : items = [.obj [("description", .str "Consult"), ("amount", .num 1)],
      .obj [("description", .str "Fee"), ("amount", .num num0005)]] := by
    have h2 : getField "items" bodyHalfCent = some (.arr
        [.obj [("description", .str "Consult"), ("amount", .num 1)],
         .obj [("description", .str "Fee"), ("amount", .num num0005)]]) := rfl
    rw [h2] at hitems
    injection hitems with hitems
    injection hitems with hitems
    exact hitems.symm
  subst hi
  rw [hsum] at htotal
  exact ⟨hv.1, rfl, by decide!, htotal, hstatus⟩

/-! ## C7: total against the sum of the stored items -/

/-- C7 at the failing input: a receptionist's creation with four items of 0.014 is
answered 201; the persisted items have the amount 0.01 each and the persisted
`totalAmount` is 0.06, further than 0.01 from the sum of the stored amounts. A
receptionist's update of a pending bill with the same four items stores the same
items with `totalAmount` 0.04. -/
theorem created_total_off_stored_items :
    (createBillWith Arith.binary64 env0 (some rita) bodyFourItems store0).2.status = 201 ∧
    billField "items" "b1" (createBillWith Arith.binary64 env0 (some rita) bodyFourItems store0).1
      = some (.arr [.obj [("description", .str "Swab"), ("amount", .num num001)],
                    .obj [("description", .str "Swab"), ("amount", .num num001)],
                    .obj [("description", .str "Swab"), ("amount", .num num001)],
                    .obj [("description", .str "Swab"), ("amount", .num num001)]]) ∧
    billField "totalAmount" "b1"
      (createBillWith Arith.binary64 env0 (some rita) bodyFourItems store0).1 =
        some (.num num006) ∧
    |num006 - (num001 + num001 + num001 + num001)| > 1 / 100 ∧
    billField "totalAmount" "b1"
      (updateBillWith Arith.binary64 env1 (some rita) "b1" patchFourItems storePending).1 =
        some (.num num004) := by
  have hvalid : ∀ item ∈ fourItems, ValidItem item := by
    intro item hitem
    simp only [fourItems, List.mem_cons, List.mem_singleton, List.not_mem_nil,
      or_false] at hitem
    rcases hitem with rfl | rfl | rfl | rfl <;>
      exact ⟨_, "Swab", num0014, rfl, rfl, by decide, rfl, by norm_num [num0014]⟩
  have hitem : Arith.binary64.round (toFixed2 num0014) = num001 := by decide!
  have hsum : Arith.binary64.round (toFixed2 (sumAmountsWith Arith.binary64 fourItems)) =
      num006 := by decide!
  have hstored : normalizeItemsWith Arith.binary64 fourItems =
      some [.obj [("description", .str "Swab"), ("amount", .num num001)],
            .obj [("description", .str "Swab"), ("amount", .num num001)],
            .obj [("description", .str "Swab"), ("amount", .num num001)],
            .obj [("description", .str "Swab"), ("amount", .num num001)]] := by
    rw [← hitem]
    rfl
  have hsum2 : Arith.binary64.round (toFixed2 (sumAmountsWith Arith.binary64
      [.obj [("description", .str "Swab"), ("amount", .num num001)],
       .obj [("description", .str "Swab"), ("amount", .num num001)],
       .obj [("description", .str "Swab"), ("amount", .num num001)],
       .obj [("description", .str "Swab"), ("amount", .num num001)]])) = num004 := by
    decide!
  have hv := createBillWith_valid Arith.binary64 env0 rita bodyFourItems store0 "p1"
    [("name", .str "Jane Doe"), ("email", .str "jane@x.com")] fourItems _ (.str "Jane Doe")
    rfl rfl (by decide) rfl (by simp [fourItems]) rfl (validateItems_of_valid _ hvalid) rfl rfl
    hstored rfl
  obtain ⟨stored, hst, -, htotal⟩ := updateBillWith_items_store Arith.binary64 env1 rita "b1"
    patchFourItems
    [("patientId", .str "p1"), ("patientName", .str "Jane Doe"),
      ("items", .arr [.obj [("description", .str "Consult"), ("amount", .num 50)]]),
      ("totalAmount", .num 50), ("status", .str "pending"), ("createdBy", .str "u1"),
      ("createdByName", .str "Rita"), ("createdAt", .date 10), ("updatedAt", .date 10)]
    storePending fourItems rfl rfl rfl rfl (by simp [fourItems]) hvalid
  rw [hstored] at hst
  have hst2 := (Option.some.inj hst).symm
  subst hst2
  rw [hsum2] at htotal
  refine ⟨hv.1, ?_, ?_, ?_, htotal⟩
  · rw [hv.2]
    rfl
  · rw [hv.2, ← hsum]
    rfl
  · decide!

/-! ## C9: the items persisted by create -/

/-- C9 at the failing input: a receptionist's creation whose one item has the
description `'   '` and the amount 0.004 is answered 201, and the persisted item has
the empty description and the amount 0. -/
theorem blank_item_persisted :
    (createBillWith Arith.binary64 env0 (some rita) bodyBlankSubCent store0).2.status = 201 ∧
    billField "items" "b1"
      (createBillWith Arith.binary64 env0 (some rita) bodyBlankSubCent store0).1 =
      some (.arr [.obj [("description", .str ""), ("amount", .num 0)]]) ∧
    ¬ ("" ≠ "") ∧ ¬ ((0 : ℚ) < 0) := by
  have hitem : Arith.binary64.round (toFixed2 num0004) = 0 := by decide!
  have hstored : normalizeItemsWith Arith.binary64
      [.obj [("description", .str "   "), ("amount", .num num0004)]] =
      some [.obj [("description", .str ""), ("amount", .num 0)]] := by
    rw [← hitem]
    rfl
  have hv := createBillWith_valid Arith.binary64 env0 rita bodyBlankSubCent store0 "p1"
    [("name", .str "Jane Doe"), ("email", .str "jane@x.com")]
    [.obj [("description", .str "   "), ("amount", .num num0004)]] _ (.str "Jane Doe")
    rfl rfl (by decide) rfl (by simp) rfl
    (validateItems_of_valid _ (by
      intro item hitem
      simp only [List.mem_singleton] at hitem
      subst hitem
      exact ⟨_, "   ", num0004, rfl, rfl, by decide, rfl, by norm_num [num0004]⟩))
    rfl rfl hstored rfl
  refine ⟨hv.1, ?_, by simp, by simp⟩
  rw [hv.2]
  rfl

/-! ## C10: update with items -/

/-- C10: for every pending bill and every patch whose `items` is a non-empty list of
valid items, a receptionist's `PUT /bills/:id` stores one item per submitted item, in
order, with the description trimmed and the amount `parseFloat(amount.toFixed(2))`, and
stores as `totalAmount` the sum `T` of the stored amounts as the handler computes it
(left to right, each partial sum rounded by the arithmetic), passed through
`parseFloat(T.toFixed(2))`, whatever `totalAmount` the patch carries; `T` is taken
within the range of the numbers. -/
theorem update_with_items_recomputes_total (ar : Arith) (env : Env) (u : Principal)
    (id : String) (body billDoc : Fields) (s : Store) (items : List JsVal)
    (hrole : u.role = "receptionist")
    (hbill : getDoc id s.bills = some billDoc)
    (hpending : getField "status" billDoc = some (.str "pending"))
    (hitems : getField "items" body = some (.arr items))
    (hne : items ≠ [])
    (hvalid : ∀ item ∈ items, ValidItem item)
    (hrange : ∀ stored, normalizeItemsWith ar items = some stored →
      ar.finite (sumAmountsWith ar stored) = true) :
    ∃ stored,
      billField "items" id (updateBillWith ar env (some u) id body s).1 = some (.arr stored) ∧
      List.Forall₂ (StoredAsWith ar) items stored ∧
      ar.finite (sumAmountsWith ar stored) = true ∧
      billField "totalAmount" id (updateBillWith ar env (some u) id body s).1 =
        some (.num (ar.round (toFixed2 (sumAmountsWith ar stored)))) := by
  obtain ⟨stored, hstored, h1, h2⟩ :=
    updateBillWith_items_store ar env u id body billDoc s items hrole hbill hpending hitems hne
      hvalid
  exact ⟨stored, h1, normalizeItemsWith_forall₂ ar items stored hstored, hrange stored hstored,
    h2⟩

theorem update_with_items_recomputes_total_witness :
    getField "totalAmount" patchOneItem = some (.num 999) ∧
    billField "items" "b1"
      (updateBillWith Arith.binary64 env1 (some rita) "b1" patchOneItem storePending).1 =
      some (.arr [.obj [("description", .str "X-ray"), ("amount", .num 1)]]) ∧
    billField "totalAmount" "b1"
      (updateBillWith Arith.binary64 env1 (some rita) "b1" patchOneItem storePending).1 =
      some (.num 1) := by
  have hitem : Arith.binary64.round (toFixed2 num1005) = 1 := by decide!
  have hstored : normalizeItemsWith Arith.binary64
      [.obj [("description", .str " X-ray "), ("amount", .num num1005)]] =
      some [.obj [("description", .str "X-ray"), ("amount", .num 1)]] := by
    rw [← hitem]
    rfl
  have hsum : Arith.binary64.round (toFixed2 (sumAmountsWith Arith.binary64
      [.obj [("description", .str "X-ray"), ("amount", .num 1)]])) = 1 := by
    decide!
  obtain ⟨stored, h1, -, -, h2⟩ := update_with_items_recomputes_total Arith.binary64 env1 rita
    "b1" patchOneItem
    [("patientId", .str "p1"), ("patientName", .str "Jane Doe"),
      ("items", .arr [.obj [("description", .str "Consult"), ("amount", .num 50)]]),
      ("totalAmount", .num 50), ("status", .str "pending"), ("createdBy", .str "u1"),
      ("createdByName", .str "Rita"), ("createdAt", .date 10), ("updatedAt", .date 10)]
    storePending [.obj [("description", .str " X-ray "), ("amount", .num num1005)]]
    rfl rfl rfl rfl (by simp)
    (by
      intro item hitem
      simp only [List.mem_singleton] at hitem
      subst hitem
      exact ⟨_, " X-ray ", num1005, rfl, rfl, by decide, rfl, by norm_num [num1005]⟩)
    (by
      intro stored hst
      rw [hstored] at hst
      have := (Option.some.inj hst).symm
      subst this
      decide!)
  have hst : stored = [.obj [("description", .str "X-ray"), ("amount", .num 1)]] := by
    obtain ⟨stored2, hn, h3, -⟩ := updateBillWith_items_store Arith.binary64 env1 rita "b1"
      patchOneItem
      [("patientId", .str "p1"), ("patientName", .str "Jane Doe"),
        ("items", .arr [.obj [("description", .str "Consult"), ("amount", .num 50)]]),
        ("totalAmount", .num 50), ("status", .str "pending"), ("createdBy", .str "u1"),
        ("createdByName", .str "Rita"), ("createdAt", .date 10), ("updatedAt", .date 10)]
      storePending [.obj [("description", .str " X-ray "), ("amount", .num num1005)]]
      rfl rfl rfl rfl (by simp)
      (by
        intro item hitem
        simp only [List.mem_singleton] at hitem
        subst hitem
        exact ⟨_, " X-ray ", num1005, rfl, rfl, by decide, rfl, by norm_num [num1005]⟩)
    rw [hstored] at hn
    have hn2 := (Option.some.inj hn).symm
    subst hn2
    rw [h3] at h1
    injection h1 with h1
    injection h1 with h1
    exact h1.symm
  subst hst
  rw [hsum] at h2
  exact ⟨rfl, h1, h2⟩

/-! ## C24, C25: billing statistics -/

theorem Acc.eq_num_of_numValue (a : Acc) (q : ℚ) (h : a.numValue = some q) : a = .num q := by
  cases a <;> simp [Acc.numValue] at h
  rw [h]

/-- The scan keeps two running sums, one over the paid bills and one over all others,
and three counts. -/
theorem foldl_tallyBillWith (ar : Arith) (rt : Runtime) (bills : Collection) (t : Tally) :
    bills.foldl (fun t p => tallyBillWith ar rt t p.2) t =
      { totalRevenue := (billsWithStatus "paid" bills).foldl
          (fun sum p => Acc.addWith ar rt sum (getField "totalAmount" p.2)) t.totalRevenue,
        pendingAmount := (billsWithoutStatus "paid" bills).foldl
          (fun sum p => Acc.addWith ar rt sum (getField "totalAmount" p.2)) t.pendingAmount,
        totalBills := t.totalBills + bills.length,
        paidBills := t.paidBills + (billsWithStatus "paid" bills).length,
        pendingBills := t.pendingBills + (billsWithoutStatus "paid" bills).length } := by
  induction bills generalizing t with
  | nil => simp [billsWithStatus, billsWithoutStatus]
  | cons p rest ih =>
    rw [List.foldl_cons, ih]
    cases hs : isStr "paid" (getField "status" p.2) with
    | true =>
      simp only [tallyBillWith, hs, ↓reduceIte, billsWithStatus, billsWithoutStatus,
        List.filter, Bool.not_true, List.foldl_cons, List.length_cons]
      rw [Tally.mk.injEq]
      refine ⟨rfl, rfl, ?_, ?_, ?_⟩ <;> omega
    | false =>
      simp only [tallyBillWith, hs, Bool.false_eq_true, ↓reduceIte, billsWithStatus,
        billsWithoutStatus, List.filter, Bool.not_false, List.foldl_cons, List.length_cons]
      rw [Tally.mk.injEq]
      refine ⟨rfl, rfl, ?_, ?_, ?_⟩ <;> omega

theorem tallyBillsWith_eq (ar : Arith) (rt : Runtime) (bills : Collection) :
    tallyBillsWith ar rt bills =
      { totalRevenue := accTotals ar rt (billsWithStatus "paid" bills),
        pendingAmount := accTotals ar rt (billsWithoutStatus "paid" bills),
        totalBills := bills.length,
        paidBills := (billsWithStatus "paid" bills).length,
        pendingBills := (billsWithoutStatus "paid" bills).length } := by
  unfold tallyBillsWith accTotals
  rw [foldl_tallyBillWith]
  simp

/-- The response of the statistics when both running sums are numbers. -/
theorem billStatsWith_of_sums (ar : Arith) (rt : Runtime) (s : Store) (R P : ℚ)
    (hR : accTotals ar rt (billsWithStatus "paid" s.bills) = .num R)
    (hP : accTotals ar rt (billsWithoutStatus "paid" s.bills) = .num P) :
    billStatsWith ar rt s =
      { status := 200,
        body := [("success", .bool true),
          ("data", .obj [
            ("totalRevenue", .num (ar.round (toFixed2 R))),
            ("pendingAmount", .num (ar.round (toFixed2 P))),
            ("totalBills", .num s.bills.length),
            ("paidBills", .num (billsWithStatus "paid" s.bills).length),
            ("pendingBills", .num (billsWithoutStatus "paid" s.bills).length),
            ("averageBillAmount", averageBillAmountWith ar
              { totalRevenue := .num R, pendingAmount := .num P,
                totalBills := s.bills.length,
                paidBills := (billsWithStatus "paid" s.bills).length,
                pendingBills := (billsWithoutStatus "paid" s.bills).length })])] } := by
  unfold billStatsWith
  simp only [tallyBillsWith_eq, hR, hP, Acc.roundedWith]

/-- Adding a number to an accumulator that holds a number or `nan` gives one that holds
a number or `nan`. -/
theorem accTotals_numeric (ar : Arith) (rt : Runtime) (bills : Collection)
    (hnum : ∀ p ∈ bills, NumericTotal p.2) :
    (∃ q, accTotals ar rt bills = .num q) ∨ accTotals ar rt bills = .nan := by
  unfold accTotals
  have hgen : ∀ a : Acc, ((∃ q, a = .num q) ∨ a = .nan) →
      ((∃ q, bills.foldl (fun sum p => Acc.addWith ar rt sum (getField "totalAmount" p.2)) a
          = .num q) ∨
        bills.foldl (fun sum p => Acc.addWith ar rt sum (getField "totalAmount" p.2)) a
          = .nan) := by
    induction bills with
    | nil => intro a ha; exact ha
    | cons p rest ih =>
      intro a ha
      rw [List.foldl_cons]
      apply ih (fun q hq => hnum q (List.mem_cons_of_mem _ hq))
      obtain ⟨x, hx⟩ := hnum p (List.mem_cons_self _ _)
      rw [hx]
      rcases ha with ⟨q, rfl⟩ | rfl
      · simp only [Acc.addWith, Acc.ofSum]
        split
        · exact Or.inl ⟨_, rfl⟩
        · exact Or.inr rfl
      · exact Or.inr rfl
  exact hgen (.num 0) (Or.inl ⟨0, rfl⟩)

/-- C24, counterexample: a receptionist's `PUT /bills/b1` with the patch
`{ totalAmount: '12' }` is answered 200 and stores the string; on the store of that one
bill the statistics answer 500, with no `averageBillAmount`. -/
theorem stats_text_total_counterexample :
    (updateBillWith Arith.binary64 env1 (some rita) "b1" patchTextTotal storePending).2.status
      = 200 ∧
    billField "totalAmount" "b1"
      (updateBillWith Arith.binary64 env1 (some rita) "b1" patchTextTotal storePending).1 =
      some (.str "12") ∧
    (billStatsWith Arith.binary64 rt0
      (updateBillWith Arith.binary64 env1 (some rita) "b1" patchTextTotal storePending).1).status
      = 500 := by
  exact ⟨rfl, rfl, rfl⟩

/-- C24 (amended): without bills the statistics are all 0, `averageBillAmount`
included, and whatever the counters hold a count of 0 bills gives the literal 0 without
a division. On a store whose bills all have a number as `totalAmount` the answer is
200. On a non-empty store whose two running sums are numbers `R` (over the paid bills)
and `P` (over all others) with `R + P` within the range, the division by the number of
bills is defined and `averageBillAmount` is `parseFloat(((R + P) / n).toFixed(2))`,
the sum and the quotient being those of binary64. -/
theorem stats_average (rt : Runtime) (s : Store) :
    (s.bills = [] →
      billStatsWith Arith.binary64 rt s =
        { status := 200,
          body := [("success", .bool true),
            ("data", .obj [("totalRevenue", .num 0), ("pendingAmount", .num 0),
              ("totalBills", .num 0), ("paidBills", .num 0), ("pendingBills", .num 0),
              ("averageBillAmount", .num 0)])] }) ∧
    (∀ t : Tally, t.totalBills = 0 → averageBillAmountWith Arith.binary64 t = .num 0) ∧
    ((∀ p ∈ s.bills, NumericTotal p.2) → (billStatsWith Arith.binary64 rt s).status = 200) ∧
    (∀ R P, s.bills ≠ [] →
      accTotals Arith.binary64 rt (billsWithStatus "paid" s.bills) = .num R →
      accTotals Arith.binary64 rt (billsWithoutStatus "paid" s.bills) = .num P →
      Arith.binary64.finite (roundDouble (R + P)) = true →
      jsDivideWith Arith.binary64 (roundDouble (R + P)) s.bills.length =
        some (roundDouble (roundDouble (R + P) / s.bills.length)) ∧
      dataField "averageBillAmount" (billStatsWith Arith.binary64 rt s) =
        some (.num (roundDouble (toFixed2
          (roundDouble (roundDouble (R + P) / s.bills.length)))))) := by
  refine ⟨?_, ?_, ?_, ?_⟩
  · intro hnil
    have h0 : toFixed2 0 = 0 := by simpa using toFixed2_of_cents 0
    rw [billStatsWith_of_sums Arith.binary64 rt s 0 0 (by rw [hnil]; rfl) (by rw [hnil]; rfl)]
    simp [hnil, billsWithStatus, billsWithoutStatus, averageBillAmountWith, h0, Arith.binary64,
      roundDouble_zero]
  · intro t ht
    simp [averageBillAmountWith, ht]
  · intro hnum
    have hp := accTotals_numeric Arith.binary64 rt (billsWithStatus "paid" s.bills)
      (fun p hp => hnum p (List.mem_of_mem_filter hp))
    have hq := accTotals_numeric Arith.binary64 rt (billsWithoutStatus "paid" s.bills)
      (fun p hp => hnum p (List.mem_of_mem_filter hp))
    unfold billStatsWith
    simp only [tallyBillsWith_eq]
    rcases hp with ⟨R, hR⟩ | hR <;> rcases hq with ⟨P, hP⟩ | hP <;>
      simp only [hR, hP, Acc.roundedWith]
  · intro R P hne hR hP hfin
    have hlen : s.bills.length ≠ 0 := fun h => hne (List.length_eq_zero.mp h)
    refine ⟨by simp [jsDivideWith, hlen, Arith.binary64], ?_⟩
    rw [billStatsWith_of_sums Arith.binary64 rt s R P hR hP]
    have hfin2 : Arith.binary64.finite (Arith.binary64.round (R + P)) = true := hfin
    simp only [dataField, getField, assocGet, averageBillAmountWith, Acc.ofSum, hfin2,
      jsDivideWith, hlen, Nat.pos_of_ne_zero hlen, ↓reduceIte]
    rfl

theorem stats_average_witness :
    accTotals Arith.binary64 rt0 (billsWithStatus "paid" storeTwoBills.bills) = .num 2 ∧
    accTotals Arith.binary64 rt0 (billsWithoutStatus "paid" storeTwoBills.bills) =
      .num num001 ∧
    dataField "averageBillAmount" (billStatsWith Arith.binary64 rt0 storeTwoBills) =
      some (.num 1) ∧
    billStatsWith Arith.binary64 rt0 store0 =
      { status := 200,
        body := [("success", .bool true),
          ("data", .obj [("totalRevenue", .num 0), ("pendingAmount", .num 0),
            ("totalBills", .num 0), ("paidBills", .num 0), ("pendingBills", .num 0),
            ("averageBillAmount", .num 0)])] } := by
  have hR : accTotals Arith.binary64 rt0 (billsWithStatus "paid" storeTwoBills.bills) =
      .num 2 := Acc.eq_num_of_numValue _ _ (by decide!)
  have hP : accTotals Arith.binary64 rt0 (billsWithoutStatus "paid" storeTwoBills.bills) =
      .num num001 := Acc.eq_num_of_numValue _ _ (by decide!)
  have h := (stats_average rt0 storeTwoBills).2.2.2 2 num001 (by simp [storeTwoBills]) hR hP
    (by decide!)
  have hval : roundDouble (toFixed2 (roundDouble (roundDouble (2 + num001) /
      (storeTwoBills.bills.length : ℚ)))) = 1 := by decide!
  refine ⟨hR, hP, ?_, (stats_average rt0 store0).1 rfl⟩
  rw [h.2, hval]

/-! ### C25 -/

/-- C25 at the failing input: of three bills, one paid (50), one pending (30) and one
archived (40), the statistics report `pendingAmount` 70 and `pendingBills` 2, where
the bills with status `'pending'` sum to 30 and count 1. -/
theorem stats_counts_archived_as_pending :
    dataField "pendingAmount" (billStatsWith Arith.binary64 rt0 storeThreeBills) =
      some (.num 70) ∧
    dataField "pendingBills" (billStatsWith Arith.binary64 rt0 storeThreeBills) =
      some (.num 2) ∧
    accTotals Arith.binary64 rt0 (billsWithStatus "pending" storeThreeBills.bills) =
      .num 30 ∧
    (billsWithStatus "pending" storeThreeBills.bills).length = 1 := by
  have hR : accTotals Arith.binary64 rt0 (billsWithStatus "paid" storeThreeBills.bills) =
      .num 50 := Acc.eq_num_of_numValue _ _ (by decide!)
  have hP : accTotals Arith.binary64 rt0 (billsWithoutStatus "paid" storeThreeBills.bills) =
      .num 70 := Acc.eq_num_of_numValue _ _ (by decide!)
  have h70 : Arith.binary64.round (toFixed2 70) = 70 := by decide!
  rw [billStatsWith_of_sums Arith.binary64 rt0 storeThreeBills 50 70 hR hP, h70]
  refine ⟨rfl, ?_, Acc.eq_num_of_numValue _ _ (by decide!), rfl⟩
  simp only [dataField, getField, assocGet]
  norm_num
  rfl

end Clinic
